import Mathlib

/-!
Verification of the control-plane relay (services/control-plane/app):
a shallow embedding of `protocol.py`, `db.py` and `relay.py` in Lean 4,
with theorems settling the specification claims about id extraction,
storage retention, challenge consumption, routing, thread binding,
replay and multi-dispatch.

Modelling conventions:
* JSON values are restricted to the constructors the relay manipulates
  (strings, integers, booleans, null, objects, arrays); Python `dict`s
  are association lists kept in insertion order, and Python `set`s are
  duplicate-free lists (only membership is ever relevant).
* Machine-generated data (uuid hex strings, timestamps) is passed in as
  explicit oracle arguments.
* Python treats `bool` as a subtype of `int`; every `isinstance(x, int)`
  check in the source therefore also matches booleans, and the embedding
  mirrors that.
-/

namespace Relay

/-- JSON values, as produced by `json.loads` on relay frames. -/
inductive JValue where
  | str (s : String)
  | int (n : Int)
  | bool (b : Bool)
  | null
  | obj (fields : List (String × JValue))
  | arr (elems : List JValue)

/-- A parsed JSON object: the field list of `JValue.obj`, in insertion order. -/
abbrev Jobj := List (String × JValue)

/-- `message.get(key)` on a parsed JSON object: first binding wins,
`none` when the key is absent. -/
def jget (o : Jobj) (k : String) : Option JValue :=
  match o.find? (fun p => p.1 == k) with
  | some p => some p.2
  | none => none

/-- `str(b)` for a Python boolean. -/
def pyBoolStr (b : Bool) : String :=
  if b then "True" else "False"

/-- Python `str.isspace` for a single character, the whitespace set used by
`str.strip()`. -/
def pyIsSpace (c : Char) : Bool :=
  c == ' ' || c == '\t' || c == '\n' || c == '\r' || c == '\x0b' || c == '\x0c'

/-- Python `s.strip()`: remove leading and trailing whitespace. -/
def pyStrip (s : String) : String :=
  String.mk (((s.data.dropWhile pyIsSpace).reverse.dropWhile pyIsSpace).reverse)

/-- `protocol.as_record`: keep the value only when it is a JSON object. -/
def as_record : Option JValue → Option Jobj
  | some (JValue.obj fields) => some fields
  | _ => none

/-- The candidate loop shared by `extract_thread_id` and `extract_anchor_id`:
`isinstance(candidate, str)` with non-empty strip returns the candidate
as-is (untrimmed); otherwise `isinstance(candidate, int)` — which in Python
also matches booleans — returns `str(candidate)`. -/
def pickIdCandidate : List (Option JValue) → Option String
  | [] => none
  | c :: rest =>
    match c with
    | some (JValue.str s) =>
      if pyStrip s ≠ "" then some s else pickIdCandidate rest
    | some (JValue.int n) => some (toString n)
    | some (JValue.bool b) => some (pyBoolStr b)
    | _ => pickIdCandidate rest

/-- `protocol.extract_thread_id`. -/
def extract_thread_id (message : Jobj) : Option String :=
  let params := as_record (jget message "params")
  let result := as_record (jget message "result")
  let thread_from_params :=
    match params with
    | some p => as_record (jget p "thread")
    | none => none
  let thread_from_result :=
    match result with
    | some r => as_record (jget r "thread")
    | none => none
  pickIdCandidate
    [ params.bind (fun p => jget p "threadId")
    , params.bind (fun p => jget p "thread_id")
    , result.bind (fun r => jget r "threadId")
    , result.bind (fun r => jget r "thread_id")
    , thread_from_params.bind (fun t => jget t "id")
    , thread_from_result.bind (fun t => jget t "id") ]

/-- `protocol.extract_anchor_id`. -/
def extract_anchor_id (message : Jobj) : Option String :=
  let params := as_record (jget message "params")
  let result := as_record (jget message "result")
  let anchor_from_params :=
    match params with
    | some p => as_record (jget p "anchor")
    | none => none
  let anchor_from_result :=
    match result with
    | some r => as_record (jget r "anchor")
    | none => none
  pickIdCandidate
    [ params.bind (fun p => jget p "anchorId")
    , params.bind (fun p => jget p "anchor_id")
    , result.bind (fun r => jget r "anchorId")
    , result.bind (fun r => jget r "anchor_id")
    , anchor_from_params.bind (fun a => jget a "id")
    , anchor_from_result.bind (fun a => jget a "id") ]

end Relay


/-- Lookup in a Python dict modelled as an association list (first binding
wins; real dicts have unique keys). -/
def alookup {K V : Type} [DecidableEq K] (l : List (K × V)) (k : K) : Option V :=
  match l.find? (fun p => decide (p.1 = k)) with
  | some p => some p.2
  | none => none

/-- Dict assignment `d[k] = v`: replace the binding in place when the key is
present, otherwise append (Python dicts keep insertion order). -/
def aset {K V : Type} [DecidableEq K] (l : List (K × V)) (k : K) (v : V) : List (K × V) :=
  if l.any (fun p => decide (p.1 = k)) then
    l.map (fun p => if p.1 = k then (k, v) else p)
  else
    l ++ [(k, v)]

/-- Dict upsert in the style of `INSERT ... ON CONFLICT DO UPDATE`: apply
`upd` to an existing binding, otherwise insert `ins`. -/
def aupsert {K V : Type} [DecidableEq K] (l : List (K × V)) (k : K) (upd : V → V) (ins : V) :
    List (K × V) :=
  if l.any (fun p => decide (p.1 = k)) then
    l.map (fun p => if p.1 = k then (k, upd p.2) else p)
  else
    l ++ [(k, ins)]

/-- Dict deletion `d.pop(k, None)`. -/
def aremove {K V : Type} [DecidableEq K] (l : List (K × V)) (k : K) : List (K × V) :=
  l.filter (fun p => decide (p.1 ≠ k))

/-- `d.setdefault(k, v)`: insert only when absent. -/
def asetdefault {K V : Type} [DecidableEq K] (l : List (K × V)) (k : K) (v : V) : List (K × V) :=
  if l.any (fun p => decide (p.1 = k)) then l else l ++ [(k, v)]

/-- Python set `s.add(x)` on a set modelled as a duplicate-free list. -/
def sadd {A : Type} [DecidableEq A] (l : List A) (a : A) : List A :=
  if a ∈ l then l else l ++ [a]

/-- Python set `s.discard(x)`. -/
def sdel {A : Type} [DecidableEq A] (l : List A) (a : A) : List A :=
  l.filter (fun x => decide (x ≠ a))

/-- The last `n` elements of a list, in order: the image of SQL
`ORDER BY id DESC LIMIT n` re-read in insertion order, for a table list
kept in insertion order with increasing ids. -/
def takeLast {A : Type} (n : Nat) (l : List A) : List A :=
  (l.reverse.take n).reverse

namespace Db

/-- A row of the `relay_thread_messages` table (`created_at` is not
modelled; no claim mentions it). -/
structure MsgRow where
  id : Nat
  user_id : String
  thread_id : String
  raw_data : String
deriving DecidableEq

/-- A row of the `relay_artifacts` table (`created_at` omitted as above). -/
structure ArtRow where
  id : Nat
  user_id : String
  thread_id : String
  turn_id : Option String
  anchor_id : Option String
  item_id : String
  artifact_type : String
  item_type : String
  summary : Option String
  payload_json : String
deriving DecidableEq

/-- The non-key columns of a `relay_thread_state` row (`updated_at` is not
modelled; no claim depends on it). -/
structure ThreadStateRow where
  bound_anchor_id : Option String
  turn_id : Option String
  turn_status : Option String
deriving DecidableEq

/-- A row of the `auth_challenges` table. -/
structure ChallengeRecord where
  challenge : String
  kind : String
  user_id : Option String
  pending_name : Option String
  pending_display_name : Option String
  expires_at : Int
deriving DecidableEq

/-- The relay-facing portion of the SQLite database: thread state keyed by
`(user_id, thread_id)`, plus the message and artifact tables kept in
insertion order with `AUTOINCREMENT` counters. -/
structure DbState where
  thread_state : List ((String × String) × ThreadStateRow)
  messages : List MsgRow
  next_msg_id : Nat
  artifacts : List ArtRow
  next_art_id : Nat
deriving DecidableEq

/-- `Database.RELAY_MESSAGE_RETENTION_PER_THREAD`. -/
def RELAY_MESSAGE_RETENTION_PER_THREAD : Nat := 200

/-- `Database.RELAY_ARTIFACT_RETENTION_PER_THREAD`. -/
def RELAY_ARTIFACT_RETENTION_PER_THREAD : Nat := 200

/-- The `WHERE user_id = ? AND thread_id = ?` predicate on message rows. -/
def msgMatches (u t : String) (r : MsgRow) : Bool :=
  r.user_id == u && r.thread_id == t

/-- The `WHERE user_id = ? AND thread_id = ?` predicate on artifact rows. -/
def artMatches (u t : String) (r : ArtRow) : Bool :=
  r.user_id == u && r.thread_id == t

/-- The `UNIQUE(user_id, thread_id, item_id)` natural key predicate. -/
def artKeyMatches (u t item : String) (r : ArtRow) : Bool :=
  r.user_id == u && r.thread_id == t && r.item_id == item

/-- `Database.get_relay_thread_state`. -/
def get_relay_thread_state (db : DbState) (u t : String) : Option ThreadStateRow :=
  alookup db.thread_state (u, t)

/-- `Database.set_relay_thread_anchor`: upsert that writes only the
`bound_anchor_id` column on conflict. -/
def set_relay_thread_anchor (db : DbState) (u t : String) (bound : Option String) : DbState :=
  { db with
    thread_state :=
      aupsert db.thread_state (u, t)
        (fun row => { row with bound_anchor_id := bound })
        { bound_anchor_id := bound, turn_id := none, turn_status := none } }

/-- `Database.set_relay_thread_turn`: upsert that writes only the turn
columns on conflict. -/
def set_relay_thread_turn (db : DbState) (u t : String) (turn_id turn_status : Option String) :
    DbState :=
  { db with
    thread_state :=
      aupsert db.thread_state (u, t)
        (fun row => { row with turn_id := turn_id, turn_status := turn_status })
        { bound_anchor_id := none, turn_id := turn_id, turn_status := turn_status } }

/-- The `updated_at`-touch upsert both `append_relay_thread_message` and
`upsert_relay_artifact` perform on `relay_thread_state` (only `updated_at`
changes on conflict, which is not modelled, so an existing row is kept). -/
def touchThreadState (ts : List ((String × String) × ThreadStateRow)) (u t : String) :
    List ((String × String) × ThreadStateRow) :=
  aupsert ts (u, t) (fun row => row)
    { bound_anchor_id := none, turn_id := none, turn_status := none }

/-- Python `a or b` on an optional retention override: `None` and `0` both
fall back to the default. -/
def pyOrDefault (override : Option Nat) (dflt : Nat) : Nat :=
  match override with
  | some n => if n = 0 then dflt else n
  | none => dflt

/-- `Database.append_relay_thread_message`: touch thread state, insert the
new row with the next `AUTOINCREMENT` id, then delete every row of the
`(u, t)` log whose id is not among the `retention` largest. -/
def append_relay_thread_message (db : DbState) (u t raw : String)
    (max_messages : Option Nat := none) : DbState :=
  let retention := pyOrDefault max_messages RELAY_MESSAGE_RETENTION_PER_THREAD
  let newRow : MsgRow := { id := db.next_msg_id, user_id := u, thread_id := t, raw_data := raw }
  let rows1 := db.messages ++ [newRow]
  let keepIds := ((rows1.filter (msgMatches u t)).reverse.take retention).map (fun r => r.id)
  { db with
    thread_state := touchThreadState db.thread_state u t
    messages := rows1.filter (fun r => !(msgMatches u t r) || keepIds.contains r.id)
    next_msg_id := db.next_msg_id + 1 }

/-- `Database.list_relay_thread_messages`: newest `min(limit, 200)` rows of
the `(u, t)` log (at least 1), returned in insertion order. -/
def list_relay_thread_messages (db : DbState) (u t : String) (limit : Nat) : List MsgRow :=
  let safe_limit := max 1 (min limit RELAY_MESSAGE_RETENTION_PER_THREAD)
  ((db.messages.filter (msgMatches u t)).reverse.take safe_limit).reverse

/-- `Database.upsert_relay_artifact`: touch thread state; insert a fresh row
or, on the `(user_id, thread_id, item_id)` conflict, overwrite the payload
columns in place (the row id is unchanged); then apply the same newest-`n`
retention delete as the message log. -/
def upsert_relay_artifact (db : DbState) (u t : String)
    (turn_id anchor_id : Option String) (item_id artifact_type item_type : String)
    (summary : Option String) (payload_json : String)
    (max_artifacts_per_thread : Option Nat := none) : DbState :=
  let retention := pyOrDefault max_artifacts_per_thread RELAY_ARTIFACT_RETENTION_PER_THREAD
  let exists_ := db.artifacts.any (artKeyMatches u t item_id)
  let rows1 :=
    if exists_ then
      db.artifacts.map (fun r =>
        if artKeyMatches u t item_id r then
          { r with turn_id := turn_id, anchor_id := anchor_id,
                   artifact_type := artifact_type, item_type := item_type,
                   summary := summary, payload_json := payload_json }
        else r)
    else
      db.artifacts ++
        [{ id := db.next_art_id, user_id := u, thread_id := t,
           turn_id := turn_id, anchor_id := anchor_id, item_id := item_id,
           artifact_type := artifact_type, item_type := item_type,
           summary := summary, payload_json := payload_json }]
  let keepIds := ((rows1.filter (artMatches u t)).reverse.take retention).map (fun r => r.id)
  { db with
    thread_state := touchThreadState db.thread_state u t
    artifacts := rows1.filter (fun r => !(artMatches u t r) || keepIds.contains r.id)
    next_art_id := if exists_ then db.next_art_id else db.next_art_id + 1 }

/-- `Database.list_relay_artifacts`: the user's artifacts, optionally
restricted to a (truthy) thread and to ids below `before_id`, newest first,
at most `min(limit, 200)` of them (at least 1). -/
def list_relay_artifacts (db : DbState) (u : String) (thread_id : Option String)
    (limit : Int) (before_id : Option Int) : List ArtRow :=
  let safe_limit := (max 1 (min limit 200)).toNat
  let keepRow := fun (r : ArtRow) =>
    r.user_id == u &&
    (match thread_id with
     | some t => if t = "" then true else r.thread_id == t
     | none => true) &&
    (match before_id with
     | some b => decide ((r.id : Int) < b)
     | none => true)
  (db.artifacts.filter keepRow).reverse.take safe_limit

/-- `Database.consume_challenge`: one atomic
`DELETE ... WHERE challenge = ? AND kind = ? AND expires_at > ? RETURNING`;
on a miss, a second `DELETE` removes any row with that challenge key. -/
def consume_challenge (now : Int) (store : List ChallengeRecord)
    (challenge expected_kind : String) : Option ChallengeRecord × List ChallengeRecord :=
  let hit := fun (r : ChallengeRecord) =>
    r.challenge == challenge && r.kind == expected_kind && decide (now < r.expires_at)
  match store.find? hit with
  | some r => (some r, store.filter (fun x => !(hit x)))
  | none => (none, store.filter (fun x => !(x.challenge == challenge)))

end Db

namespace Hub

/-- Sockets are identified by opaque ids (the hub keys its tables by
socket identity). -/
abbrev Socket := Nat

abbrev UserId := String
abbrev AnchorId := String
abbrev ThreadId := String

/-- `(user_id, thread_id)` — `RelayHub._thread_key`. -/
abbrev TKey := UserId × ThreadId

/-- `relay.AnchorMeta`. -/
structure AnchorMeta where
  id : AnchorId
  hostname : String
  platform : String
  connected_at : String
deriving DecidableEq

/-- `relay.RouteFailure`. -/
structure RouteFailure where
  code : String
  message : String
deriving DecidableEq

/-- A slot of `MultiDispatchAggregate.results`: either a consumed response
(`ok: true`) or an error entry (`ok: false`). -/
inductive MDEntry where
  | success (resp : Relay.JValue)
  | failure (code : String) (message : String)

/-- `relay.MultiDispatchAggregate`. The `timeout_task` handle is not part
of the state model: the timer firing is a separate transition, and
finalisation is guarded by the aggregate's presence in
`pending_multi_dispatch`, which is what makes it run at most once. -/
structure MultiDispatchAggregate where
  requester_socket : Socket
  request_id : String
  ordered_anchor_ids : List AnchorId
  results : List (AnchorId × MDEntry)
  pending_anchor_ids : List AnchorId

/-- The payload of one outbound send. Timestamps (`ts`, `completedAt`)
are not modelled. -/
inductive Payload where
  | helloMsg (role : String)
  | pong
  | subscribed (threadId : ThreadId)
  | clientSubscribed (threadId : ThreadId)
  | anchorsList (anchors : List AnchorMeta)
  | artifactsList (threadId : Option ThreadId) (artifacts : List Db.ArtRow)
      (nextBeforeId : Option Nat) (requestId : Option String)
  | relayState (threadId : ThreadId) (boundAnchorId : Option AnchorId)
      (turn : Option (Option String × Option String)) (replayed : Nat)
  | anchorConnected (anchor : AnchorMeta)
  | anchorDisconnected (anchorId : AnchorId)
  | mdResult (requestId : String) (results : List (AnchorId × MDEntry))
      (error : Option RouteFailure)
  | rpcError (id : Relay.JValue) (message : String) (dataCode : String)
  | jsonFrame (frame : Relay.Jobj)
  | raw (data : String)
  | closed (code : Nat) (reason : String)

/-- One outbound delivery: which socket receives which payload. -/
structure OutMsg where
  target : Socket
  payload : Payload

/-- The in-memory hub state (`RelayHub.__init__`), plus the relay portion
of the database it writes through to. -/
structure HubState where
  client_sockets : List (Socket × List ThreadId)
  anchor_sockets : List (Socket × List ThreadId)
  socket_to_user_id : List (Socket × UserId)
  user_to_client_sockets : List (UserId × List Socket)
  user_to_anchor_sockets : List (UserId × List Socket)
  anchor_meta : List (Socket × AnchorMeta)
  anchor_id_to_socket : List ((UserId × AnchorId) × Socket)
  socket_to_anchor_id : List (Socket × AnchorId)
  client_id_to_socket : List ((UserId × String) × Socket)
  socket_to_client_id : List (Socket × String)
  thread_to_clients : List (TKey × List Socket)
  thread_to_anchors : List (TKey × List Socket)
  thread_to_anchor_id : List (TKey × AnchorId)
  pending_client_requests : List ((Socket × String) × Socket)
  pending_anchor_requests : List ((Socket × String) × Socket)
  pending_multi_dispatch : List ((Socket × String) × MultiDispatchAggregate)
  pending_multi_dispatch_responses : List ((Socket × String) × ((Socket × String) × AnchorId))
  db : Db.DbState

/-- `RelayHub.REPLAY_LIMIT` — note the source value is 100, not the 200
retention bound. -/
def REPLAY_LIMIT : Nat := 100

/-- `RelayHub.MULTI_DISPATCH_TIMEOUT_SEC`. -/
def MULTI_DISPATCH_TIMEOUT_SEC : Nat := 15

/-- The hub with no sockets, over an empty database (SQLite
`AUTOINCREMENT` starts at 1). -/
def initState : HubState :=
  { client_sockets := [], anchor_sockets := [], socket_to_user_id := []
    user_to_client_sockets := [], user_to_anchor_sockets := []
    anchor_meta := [], anchor_id_to_socket := [], socket_to_anchor_id := []
    client_id_to_socket := [], socket_to_client_id := []
    thread_to_clients := [], thread_to_anchors := [], thread_to_anchor_id := []
    pending_client_requests := [], pending_anchor_requests := []
    pending_multi_dispatch := [], pending_multi_dispatch_responses := []
    db := { thread_state := [], messages := [], next_msg_id := 1, artifacts := [], next_art_id := 1 } }

/-- `socket_to_user_id` lookup. -/
def userOf (st : HubState) (s : Socket) : Option UserId :=
  alookup st.socket_to_user_id s

/-- Lookup a set-valued dict entry, defaulting to the empty set. -/
def lookupSet {K : Type} [DecidableEq K] (m : List (K × List Socket)) (k : K) : List Socket :=
  (alookup m k).getD []

/-- Python truthiness of an optional string: `None` and `""` are falsy. -/
def pyTruthyOpt : Option String → Option String
  | some "" => none
  | o => o

/-- The `sockets = m.get(k); if sockets: sockets.discard(s); if not sockets:
m.pop(k)` pattern used by unsubscribe and socket teardown. -/
def discardFromSetMap {K : Type} [DecidableEq K] (m : List (K × List Socket)) (k : K)
    (s : Socket) : List (K × List Socket) :=
  match alookup m k with
  | some l =>
    if l = [] then m
    else
      let l2 := sdel l s
      if l2 = [] then aremove m k else aset m k l2
  | none => m

/-- Drop `s` from every `(u, t)` subscription entry for the given threads. -/
def removeThreads (m : List (TKey × List Socket)) (u : UserId) (threads : List ThreadId)
    (s : Socket) : List (TKey × List Socket) :=
  threads.foldl (fun acc t => discardFromSetMap acc (u, t) s) m

/-- `RelayHub._remove_socket_locked`: full teardown of one socket, returning
the deferred `orbit.anchor-disconnected` notifications. -/
def _remove_socket_locked (st : HubState) (socket : Socket) (role : String) :
    HubState × List OutMsg :=
  let isClient := role == "client"
  let user_id := userOf st socket
  let st1 := { st with socket_to_user_id := aremove st.socket_to_user_id socket }
  let st2 :=
    match user_id with
    | some u =>
      if isClient then
        { st1 with user_to_client_sockets := discardFromSetMap st1.user_to_client_sockets u socket }
      else
        { st1 with user_to_anchor_sockets := discardFromSetMap st1.user_to_anchor_sockets u socket }
    | none => st1
  let threads := (alookup (if isClient then st.client_sockets else st.anchor_sockets) socket).getD []
  let st3 :=
    if isClient then { st2 with client_sockets := aremove st2.client_sockets socket }
    else { st2 with anchor_sockets := aremove st2.anchor_sockets socket }
  let st4 :=
    match user_id with
    | some u =>
      if isClient then
        { st3 with thread_to_clients := removeThreads st3.thread_to_clients u threads socket }
      else
        { st3 with thread_to_anchors := removeThreads st3.thread_to_anchors u threads socket }
    | none => st3
  let stepClient :=
    fun (s : HubState) =>
      let client_id := alookup s.socket_to_client_id socket
      let sA := { s with socket_to_client_id := aremove s.socket_to_client_id socket }
      let sB :=
        match client_id, user_id with
        | some cid, some u =>
          if alookup sA.client_id_to_socket (u, cid) = some socket then
            { sA with client_id_to_socket := aremove sA.client_id_to_socket (u, cid) }
          else sA
        | _, _ => sA
      (sB, ([] : List OutMsg))
  let stepAnchor :=
    fun (s : HubState) =>
      let anchor_id := alookup s.socket_to_anchor_id socket
      let sA := { s with socket_to_anchor_id := aremove s.socket_to_anchor_id socket }
      let sB :=
        match pyTruthyOpt anchor_id, user_id with
        | some aid, some u =>
          if alookup sA.anchor_id_to_socket (u, aid) = some socket then
            let sC := { sA with anchor_id_to_socket := aremove sA.anchor_id_to_socket (u, aid) }
            let stale := (sC.thread_to_anchor_id.filter
              (fun (p : TKey × AnchorId) => p.1.1 == u && p.2 == aid)).map
              (fun (p : TKey × AnchorId) => p.1)
            stale.foldl
              (fun (acc : HubState) (tk : TKey) =>
                { acc with
                  thread_to_anchor_id := aremove acc.thread_to_anchor_id tk,
                  db := Db.set_relay_thread_anchor acc.db tk.1 tk.2 none })
              sC
          else sA
        | _, _ => sA
      let meta := alookup sB.anchor_meta socket
      let sC := { sB with anchor_meta := aremove sB.anchor_meta socket }
      let notes :=
        match meta, user_id with
        | some m, some u =>
          (lookupSet sC.user_to_client_sockets u).map
            (fun c => OutMsg.mk c (Payload.anchorDisconnected m.id))
        | _, _ => ([] : List OutMsg)
      (sC, notes)
  let (st5, notes) := if isClient then stepClient st4 else stepAnchor st4
  let pcr := st5.pending_client_requests.filter
    (fun (p : (Socket × String) × Socket) => !(p.1.1 == socket || p.2 == socket))
  let par := st5.pending_anchor_requests.filter
    (fun (p : (Socket × String) × Socket) => !(p.1.1 == socket || p.2 == socket))
  let pmd := st5.pending_multi_dispatch.filter
    (fun p => !(p.1.1 == socket))
  let pmdr := st5.pending_multi_dispatch_responses.filter
    (fun (p : (Socket × String) × ((Socket × String) × AnchorId)) =>
      !(p.1.1 == socket || p.2.1.1 == socket))
  let st6 :=
    { st5 with
      pending_client_requests := pcr,
      pending_anchor_requests := par,
      pending_multi_dispatch := pmd,
      pending_multi_dispatch_responses := pmdr }
  (st6, notes)

/-- `RelayHub.register`: install the socket, evicting any collision on
`(user_id, client_id)`, then close the replaced socket and greet the
newcomer with `orbit.hello`. -/
def register (st : HubState) (socket : Socket) (role : String) (user_id : UserId)
    (client_id : Option String) : HubState × List OutMsg :=
  let isClient := role == "client"
  let st1 := { st with socket_to_user_id := aset st.socket_to_user_id socket user_id }
  let st2 :=
    if isClient then
      let v := aset st1.user_to_client_sockets user_id
        (sadd (lookupSet st1.user_to_client_sockets user_id) socket)
      { st1 with user_to_client_sockets := v }
    else
      let v := aset st1.user_to_anchor_sockets user_id
        (sadd (lookupSet st1.user_to_anchor_sockets user_id) socket)
      { st1 with user_to_anchor_sockets := v }
  let (st3, notes, replaced) :=
    match isClient, pyTruthyOpt client_id with
    | true, some cid =>
      let existing := alookup st2.client_id_to_socket (user_id, cid)
      let (stA, notesA, rep) :=
        match existing with
        | some ex =>
          if ex ≠ socket then
            let (stB, nB) := _remove_socket_locked st2 ex "client"
            (stB, nB, some ex)
          else (st2, ([] : List OutMsg), (none : Option Socket))
        | none => (st2, ([] : List OutMsg), (none : Option Socket))
      let stC :=
        { stA with
          client_id_to_socket := aset stA.client_id_to_socket (user_id, cid) socket,
          socket_to_client_id := aset stA.socket_to_client_id socket cid }
      (stC, notesA, rep)
    | _, _ => (st2, ([] : List OutMsg), (none : Option Socket))
  let st4 :=
    if isClient then { st3 with client_sockets := aset st3.client_sockets socket [] }
    else { st3 with anchor_sockets := aset st3.anchor_sockets socket [] }
  let closeMsgs :=
    match replaced with
    | some ex => [OutMsg.mk ex (Payload.closed 1000 "Replaced by newer connection")]
    | none => ([] : List OutMsg)
  (st4, notes ++ closeMsgs ++ [OutMsg.mk socket (Payload.helloMsg role)])

/-- `RelayHub.unregister`. -/
def unregister (st : HubState) (socket : Socket) (role : String) : HubState × List OutMsg :=
  _remove_socket_locked st socket role

/-- `RelayHub._subscribe_socket_locked`. -/
def _subscribe_socket_locked (st : HubState) (socket : Socket) (role : String)
    (tkey : TKey) (tid : ThreadId) : HubState :=
  let isClient := role == "client"
  let st1 :=
    if isClient then
      match alookup st.client_sockets socket with
      | some ths => { st with client_sockets := aset st.client_sockets socket (sadd ths tid) }
      | none => st
    else
      match alookup st.anchor_sockets socket with
      | some ths => { st with anchor_sockets := aset st.anchor_sockets socket (sadd ths tid) }
      | none => st
  if isClient then
    let v := aset st1.thread_to_clients tkey (sadd (lookupSet st1.thread_to_clients tkey) socket)
    { st1 with thread_to_clients := v }
  else
    let v := aset st1.thread_to_anchors tkey (sadd (lookupSet st1.thread_to_anchors tkey) socket)
    { st1 with thread_to_anchors := v }

/-- `RelayHub._unsubscribe_socket_locked`. -/
def _unsubscribe_socket_locked (st : HubState) (socket : Socket) (role : String)
    (tkey : TKey) (tid : ThreadId) : HubState :=
  let isClient := role == "client"
  let st1 :=
    if isClient then
      match alookup st.client_sockets socket with
      | some ths => { st with client_sockets := aset st.client_sockets socket (sdel ths tid) }
      | none => st
    else
      match alookup st.anchor_sockets socket with
      | some ths => { st with anchor_sockets := aset st.anchor_sockets socket (sdel ths tid) }
      | none => st
  if isClient then
    { st1 with thread_to_clients := discardFromSetMap st1.thread_to_clients tkey socket }
  else
    { st1 with thread_to_anchors := discardFromSetMap st1.thread_to_anchors tkey socket }

/-- The memo-then-storage lookup of the thread's bound anchor used twice by
`_resolve_client_target_locked`; a storage hit is memoised. -/
def lookupBoundAnchor (st : HubState) (u : UserId) (tid : ThreadId) :
    HubState × Option AnchorId :=
  match pyTruthyOpt (alookup st.thread_to_anchor_id (u, tid)) with
  | some b => (st, some b)
  | none =>
    match Db.get_relay_thread_state st.db u tid with
    | some row =>
      match pyTruthyOpt row.bound_anchor_id with
      | some b => ({ st with thread_to_anchor_id := aset st.thread_to_anchor_id (u, tid) b }, some b)
      | none => (st, none)
    | none => (st, none)

/-- The trailing branch of `_resolve_client_target_locked`: route to the
user's single connected anchor, or fail with `anchor_offline` /
`anchor_required`. -/
def resolveFallthrough (st : HubState) (u : UserId) :
    HubState × Option Socket × Option RouteFailure :=
  match lookupSet st.user_to_anchor_sockets u with
  | [a] => (st, some a, none)
  | [] => (st, none, some { code := "anchor_offline", message := "No devices are connected." })
  | _ => (st, none, some { code := "anchor_required", message := "Select a device before starting a request." })

/-- `RelayHub._resolve_client_target_locked`. The returned state differs
from the input only by memoisation of a binding read from storage. -/
def _resolve_client_target_locked (st : HubState) (u : UserId)
    (thread_id anchor_id : Option String) :
    HubState × Option Socket × Option RouteFailure :=
  match pyTruthyOpt anchor_id with
  | some aid =>
    (match alookup st.anchor_id_to_socket (u, aid) with
     | none => (st, none, some { code := "anchor_not_found", message := "Selected device is unavailable." })
     | some target =>
       match pyTruthyOpt thread_id with
       | some tid =>
         let res := lookupBoundAnchor st u tid
         (match res.2 with
          | some b =>
            if b ≠ aid then
              (res.1, none, some { code := "thread_anchor_mismatch", message := "Thread is attached to another device." })
            else (res.1, some target, none)
          | none => (res.1, some target, none))
       | none => (st, some target, none))
  | none =>
    match pyTruthyOpt thread_id with
    | some tid =>
      let res := lookupBoundAnchor st u tid
      (match res.2 with
       | some b =>
         (match alookup res.1.anchor_id_to_socket (u, b) with
          | some target => (res.1, some target, none)
          | none => (res.1, none, some { code := "anchor_offline", message := "Device for this thread is offline." }))
       | none =>
         match lookupSet res.1.thread_to_anchors (u, tid) with
         | [s] => (res.1, some s, none)
         | [] => resolveFallthrough res.1 u
         | _ => (res.1, none, some { code := "thread_anchor_mismatch", message := "Thread is attached to multiple devices." }))
    | none => resolveFallthrough st u

/-- `RelayHub._extract_message_id`: accept a string id with non-empty strip
(returned as-is), or an `int` — which in Python includes booleans. -/
def _extract_message_id (msg : Option Relay.Jobj) : Option Relay.JValue :=
  match msg with
  | none => none
  | some m =>
    match Relay.jget m "id" with
    | some (Relay.JValue.str s) =>
      if Relay.pyStrip s ≠ "" then some (Relay.JValue.str s) else none
    | some (Relay.JValue.int n) => some (Relay.JValue.int n)
    | some (Relay.JValue.bool b) => some (Relay.JValue.bool b)
    | _ => none

/-- `RelayHub._message_id_key`: `str(request_id)`. Only the shapes produced
by `_extract_message_id` can reach this (other constructors are mapped to
`none`, which never occurs). -/
def _message_id_key (request_id : Option Relay.JValue) : Option String :=
  match request_id with
  | some (Relay.JValue.str s) => some s
  | some (Relay.JValue.int n) => some (toString n)
  | some (Relay.JValue.bool b) => some (Relay.pyBoolStr b)
  | _ => none

/-- `RelayHub._coerce_request_key`: stripped non-empty string, or `str()` of
an int (booleans included, as in Python). -/
def _coerce_request_key (value : Option Relay.JValue) : Option String :=
  match value with
  | some (Relay.JValue.str s) =>
    if Relay.pyStrip s ≠ "" then some (Relay.pyStrip s) else none
  | some (Relay.JValue.int n) => some (toString n)
  | some (Relay.JValue.bool b) => some (Relay.pyBoolStr b)
  | _ => none

/-- `RelayHub._send_rpc_error`: one error frame to the requester when the
request id is known, nothing otherwise. -/
def _send_rpc_error (socket : Socket) (request_id : Option Relay.JValue)
    (failure : RouteFailure) : List OutMsg :=
  match request_id with
  | none => []
  | some rid => [OutMsg.mk socket (Payload.rpcError rid failure.message failure.code)]

/-- `RelayHub._replay_thread_state`: memoise a stored binding, then send
`orbit.relay-state` followed by the replayed log entries in order. -/
def _replay_thread_state (st : HubState) (socket : Socket) (u : UserId) (tid : ThreadId) :
    HubState × List OutMsg :=
  let state := Db.get_relay_thread_state st.db u tid
  let st1 :=
    match state with
    | some row =>
      match pyTruthyOpt row.bound_anchor_id with
      | some b =>
        { st with thread_to_anchor_id := asetdefault st.thread_to_anchor_id (u, tid) b }
      | none => st
    | none => st
  let replay := Db.list_relay_thread_messages st1.db u tid REPLAY_LIMIT
  let boundAnchorId := match state with | some row => row.bound_anchor_id | none => none
  let turn :=
    match state with
    | some row =>
      if (pyTruthyOpt row.turn_id).isSome || (pyTruthyOpt row.turn_status).isSome then
        some (row.turn_id, row.turn_status)
      else none
    | none => none
  let head := OutMsg.mk socket (Payload.relayState tid boundAnchorId turn replay.length)
  (st1, head :: replay.map (fun r => OutMsg.mk socket (Payload.raw r.raw_data)))

/-- `RelayHub._extract_multi_dispatch_template`. -/
def _extract_multi_dispatch_template (msg : Relay.Jobj) : Option Relay.Jobj :=
  let fromKey := fun (k : String) =>
    match Relay.jget msg k with
    | some (Relay.JValue.obj fields) =>
      match Relay.jget fields "method" with
      | some (Relay.JValue.str _) => some fields
      | _ => none
    | _ => none
  match fromKey "request" with
  | some t => some t
  | none =>
    match fromKey "payload" with
    | some t => some t
    | none =>
      match Relay.jget msg "method" with
      | some (Relay.JValue.str m) =>
        let base : Relay.Jobj := [("method", Relay.JValue.str m)]
        let withParams :=
          match Relay.jget msg "params" with
          | some (Relay.JValue.obj p) => base ++ [("params", Relay.JValue.obj p)]
          | _ => base
        let withId :=
          match Relay.jget msg "dispatchRequestId" with
          | some v => withParams ++ [("id", v)]
          | none => withParams
        some withId
      | _ => none

/-- `RelayHub._extract_multi_dispatch_anchor_ids`: string entries of
`anchorIds` (else `anchors`), stripped, de-duplicated, order preserved. -/
def _extract_multi_dispatch_anchor_ids (msg : Relay.Jobj) : List AnchorId :=
  let source :=
    match Relay.jget msg "anchorIds" with
    | some (Relay.JValue.arr items) => some items
    | _ =>
      match Relay.jget msg "anchors" with
      | some (Relay.JValue.arr items) => some items
      | _ => none
  match source with
  | none => []
  | some items =>
    (items.foldl
      (fun (acc : List AnchorId × List AnchorId) item =>
        match item with
        | Relay.JValue.str s =>
          let aid := Relay.pyStrip s
          if aid = "" || acc.2.contains aid then acc
          else (acc.1 ++ [aid], acc.2 ++ [aid])
        | _ => acc)
      ([], [])).1

/-- `RelayHub._build_completed_multi_dispatch_locked`: one entry per
requested anchor id in order, with a `no_result` filler for a slot that
was never written. -/
def _build_completed_multi_dispatch_locked (agg : MultiDispatchAggregate) :
    Socket × Payload :=
  let results := agg.ordered_anchor_ids.map
    (fun aid =>
      (aid, (alookup agg.results aid).getD
        (MDEntry.failure "no_result" "No result was collected for this anchor.")))
  (agg.requester_socket, Payload.mdResult agg.request_id results none)

/-- `RelayHub._finalize_multi_dispatch_locked`: pop the aggregate (so a
second finaliser finds nothing), drop its response bindings and build the
result frame. -/
def _finalize_multi_dispatch_locked (st : HubState) (dispatch_key : Socket × String) :
    HubState × Option (Socket × Payload) :=
  match alookup st.pending_multi_dispatch dispatch_key with
  | none => (st, none)
  | some agg =>
    let pmdr := st.pending_multi_dispatch_responses.filter
      (fun (p : (Socket × String) × ((Socket × String) × AnchorId)) =>
        !(p.2.1 == dispatch_key))
    let st1 :=
      { st with
        pending_multi_dispatch := aremove st.pending_multi_dispatch dispatch_key,
        pending_multi_dispatch_responses := pmdr }
    (st1, some (_build_completed_multi_dispatch_locked agg))

/-- `RelayHub._expire_multi_dispatch` after its 15-second sleep: mark every
still-pending anchor as timed out and finalise; a vanished aggregate means
nothing is sent. -/
def _expire_multi_dispatch (st : HubState) (dispatch_key : Socket × String) :
    HubState × List OutMsg :=
  match alookup st.pending_multi_dispatch dispatch_key with
  | none => (st, [])
  | some agg =>
    let agg2 : MultiDispatchAggregate :=
      { agg with
        results := agg.pending_anchor_ids.foldl
          (fun acc aid => aset acc aid (MDEntry.failure "timeout" "No response before timeout."))
          agg.results,
        pending_anchor_ids := [] }
    let st1 := { st with pending_multi_dispatch := aset st.pending_multi_dispatch dispatch_key agg2 }
    let fin := _finalize_multi_dispatch_locked st1 dispatch_key
    (fin.1,
      match fin.2 with
      | some c => [OutMsg.mk c.1 (c.2)]
      | none => [])

/-- One iteration of the `_handle_multi_dispatch` target loop (relay.py
lines 254-268): an unreachable anchor gets an `anchor_not_found` slot; a
reachable one gets a cloned template with a fresh inner id, is marked
pending, and its `(target, sub_id)` binding is queued. -/
def mdStep (st : HubState) (u : UserId) (socket : Socket) (template : Relay.Jobj)
    (request_id : String) (hexFor : AnchorId → String)
    (acc : MultiDispatchAggregate × List OutMsg ×
      List ((Socket × String) × ((Socket × String) × AnchorId)))
    (aid : AnchorId) :
    MultiDispatchAggregate × List OutMsg ×
      List ((Socket × String) × ((Socket × String) × AnchorId)) :=
  let agg := acc.1
  match alookup st.anchor_id_to_socket (u, aid) with
  | none =>
    let r := aset agg.results aid
      (MDEntry.failure "anchor_not_found" "Selected device is unavailable.")
    ({ agg with results := r }, acc.2.1, acc.2.2)
  | some target =>
    let sub_id :=
      ((_coerce_request_key (Relay.jget template "id")).getD request_id)
        ++ ":" ++ aid ++ ":" ++ hexFor aid
    let outbound := aset template "id" (Relay.JValue.str sub_id)
    ({ agg with pending_anchor_ids := sadd agg.pending_anchor_ids aid },
     acc.2.1 ++ [OutMsg.mk target (Payload.jsonFrame outbound)],
     acc.2.2 ++ [((target, sub_id), ((socket, request_id), aid))])

/-- `RelayHub._handle_multi_dispatch`. `freshReq` stands for the
`uuid4().hex` fallback outer id and `hexFor a` for the `uuid4().hex[:8]`
suffix drawn when preparing the send to anchor `a`. -/
def _handle_multi_dispatch (st : HubState) (socket : Socket) (u : UserId)
    (msg : Relay.Jobj) (freshReq : String) (hexFor : AnchorId → String) :
    HubState × List OutMsg :=
  let request_id :=
    ((_coerce_request_key (Relay.jget msg "requestId")).orElse
      (fun _ => _coerce_request_key (Relay.jget msg "id"))).getD freshReq
  match _extract_multi_dispatch_template msg with
  | none =>
    (st, [OutMsg.mk socket (Payload.mdResult request_id []
      (some { code := "invalid_request", message := "Provide a request payload with a method." }))])
  | some template =>
    let explicitIds := _extract_multi_dispatch_anchor_ids msg
    let requested :=
      if explicitIds = [] then
        (st.anchor_id_to_socket.filter
          (fun (p : (UserId × AnchorId) × Socket) => p.1.1 == u)).map
          (fun (p : (UserId × AnchorId) × Socket) => p.1.2)
      else explicitIds
    let dispatch_key : Socket × String := (socket, request_id)
    let init : MultiDispatchAggregate × List OutMsg ×
        List ((Socket × String) × ((Socket × String) × AnchorId)) :=
      ({ requester_socket := socket, request_id := request_id,
         ordered_anchor_ids := requested, results := [], pending_anchor_ids := [] }, [], [])
    let folded := requested.foldl (mdStep st u socket template request_id hexFor) init
    let agg := folded.1
    let prepared := folded.2.1
    let newResponses := folded.2.2
    if agg.pending_anchor_ids ≠ [] then
      let st1 :=
        { st with
          pending_multi_dispatch := aset st.pending_multi_dispatch dispatch_key agg,
          pending_multi_dispatch_responses :=
            newResponses.foldl (fun acc p => aset acc p.1 p.2)
              st.pending_multi_dispatch_responses }
      (st1, prepared)
    else
      let completion := _build_completed_multi_dispatch_locked agg
      (st, [OutMsg.mk completion.1 completion.2])

mutual

/-- `json.dumps` on a JSON value with the default separators; character
escaping inside strings is not modelled (no claim depends on the bytes of
a serialised payload). -/
def jdump : Relay.JValue → String
  | Relay.JValue.str s => "\"" ++ s ++ "\""
  | Relay.JValue.int n => toString n
  | Relay.JValue.bool b => if b then "true" else "false"
  | Relay.JValue.null => "null"
  | Relay.JValue.obj fields => "\x7b" ++ jdumpFields fields ++ "\x7d"
  | Relay.JValue.arr elems => "[" ++ jdumpElems elems ++ "]"

def jdumpFields : List (String × Relay.JValue) → String
  | [] => ""
  | [(k, v)] => "\"" ++ k ++ "\": " ++ jdump v
  | (k, v) :: rest => "\"" ++ k ++ "\": " ++ jdump v ++ ", " ++ jdumpFields rest

def jdumpElems : List Relay.JValue → String
  | [] => ""
  | [v] => jdump v
  | v :: rest => jdump v ++ ", " ++ jdumpElems rest

end

/-- The `artifact_type_map` of `RelayHub._extract_artifact`. -/
def artifact_type_map (item_type : String) : Option String :=
  if item_type = "commandExecution" then some "command"
  else if item_type = "fileChange" then some "file"
  else if item_type = "imageView" then some "image"
  else if item_type = "mcpToolCall" then some "tool"
  else if item_type = "webSearch" then some "tool"
  else if item_type = "collabAgentToolCall" then some "tool"
  else none

/-- First key whose value is a string with non-empty strip, returned
stripped — the lookup loop shared by several extractors. -/
def firstStripped (o : Relay.Jobj) : List String → Option String
  | [] => none
  | k :: rest =>
    match Relay.jget o k with
    | some (Relay.JValue.str v) =>
      if Relay.pyStrip v ≠ "" then some (Relay.pyStrip v) else firstStripped o rest
    | _ => firstStripped o rest

/-- `RelayHub._summarize_artifact`. -/
def _summarize_artifact (item_type : String) (item : Relay.Jobj) : Option String :=
  if item_type = "commandExecution" then
    let command :=
      match Relay.jget item "command" with
      | some (Relay.JValue.str c) => c
      | _ => ""
    let exitStr :=
      match Relay.jget item "exitCode" with
      | some (Relay.JValue.int n) => some (toString n)
      | some (Relay.JValue.bool b) => some (Relay.pyBoolStr b)
      | _ => none
    match exitStr with
    | some e => if command ≠ "" then some (command ++ " (exit=" ++ e ++ ")") else none
    | none => if command ≠ "" then some command else none
  else if item_type = "fileChange" then
    match Relay.jget item "changes" with
    | some (Relay.JValue.arr entries) =>
      let paths := entries.filterMap
        (fun e =>
          match e with
          | Relay.JValue.obj f =>
            (match Relay.jget f "path" with
             | some (Relay.JValue.str p) => some p
             | _ => none)
          | _ => none)
      if paths = [] then none else some (String.intercalate ", " (paths.take 5))
    | _ => none
  else if item_type = "imageView" then
    some ((firstStripped item ["path", "imagePath", "image_url", "imageUrl", "url"]).getD
      "image artifact")
  else if item_type = "mcpToolCall" then
    some ((firstStripped item ["tool"]).getD "mcp tool call")
  else if item_type = "webSearch" then
    some ((firstStripped item ["query"]).getD "web search")
  else if item_type = "collabAgentToolCall" then
    some ((firstStripped item ["tool"]).getD "collaboration tool")
  else none

/-- `RelayHub._extract_turn_state`. -/
def _extract_turn_state (msg : Relay.Jobj) : Option String × Option String :=
  let methodOk :=
    match Relay.jget msg "method" with
    | some (Relay.JValue.str m) => m = "turn/started" || m = "turn/completed"
    | _ => false
  if !methodOk then (none, none)
  else
    match Relay.jget msg "params" with
    | some (Relay.JValue.obj params) =>
      let fromTurn :=
        match Relay.jget params "turn" with
        | some (Relay.JValue.obj turn) =>
          (firstStripped turn ["id"], firstStripped turn ["status"])
        | _ => (none, none)
      let turn_id :=
        match fromTurn.1 with
        | some t => some t
        | none => firstStripped params ["turnId"]
      let turn_status :=
        match fromTurn.2 with
        | some s => some s
        | none => firstStripped params ["status"]
      (turn_id, turn_status)
    | _ => (none, none)

/-- `RelayHub._extract_turn_id`. -/
def _extract_turn_id (msg : Relay.Jobj) (item : Relay.Jobj) : Option String :=
  let fromParams :=
    match Relay.jget msg "params" with
    | some (Relay.JValue.obj params) => firstStripped params ["turnId", "turn_id"]
    | _ => none
  match fromParams with
  | some t => some t
  | none => firstStripped item ["turnId", "turn_id"]

/-- `RelayHub._extract_artifact`. `freshItemId` stands for the
`uuid4().hex` drawn when the item carries no usable id. -/
def _extract_artifact (dbst : Db.DbState) (msg : Relay.Jobj) (thread_id : ThreadId)
    (anchor_id : Option String) (user_id : UserId) (freshItemId : String) :
    Option Db.ArtRow :=
  let methodOk :=
    match Relay.jget msg "method" with
    | some (Relay.JValue.str m) => m = "item/completed"
    | _ => false
  if !methodOk then none
  else
    match Relay.jget msg "params" with
    | some (Relay.JValue.obj params) =>
      (match Relay.jget params "item" with
       | some (Relay.JValue.obj item) =>
         (match Relay.jget item "type" with
          | some (Relay.JValue.str item_type) =>
            (match artifact_type_map item_type with
             | some artifact_type =>
               let item_id :=
                 match Relay.jget item "id" with
                 | some (Relay.JValue.str s) =>
                   if Relay.pyStrip s ≠ "" then Relay.pyStrip s else freshItemId
                 | _ => freshItemId
               let turn_id :=
                 match _extract_turn_id msg item with
                 | some t => some t
                 | none =>
                   match Db.get_relay_thread_state dbst user_id thread_id with
                   | some row => row.turn_id
                   | none => none
               some
                 { id := 0, user_id := user_id, thread_id := thread_id,
                   turn_id := turn_id, anchor_id := anchor_id, item_id := item_id,
                   artifact_type := artifact_type, item_type := item_type,
                   summary := _summarize_artifact item_type item,
                   payload_json := jdump (Relay.JValue.obj item) }
             | none => none)
          | _ => none)
       | _ => none)
    | _ => none

/-- `RelayHub._capture_relay_state`: append the frame to the log, write the
binding through, merge turn state, and upsert any extracted artifact. -/
def _capture_relay_state (dbst : Db.DbState) (u t : String) (anchor_id : Option String)
    (raw : String) (msg : Option Relay.Jobj) (freshItemId : String) : Db.DbState :=
  let db1 := Db.append_relay_thread_message dbst u t raw none
  let db2 :=
    match pyTruthyOpt anchor_id with
    | some a => Db.set_relay_thread_anchor db1 u t (some a)
    | none => db1
  match msg with
  | none => db2
  | some m =>
    let ts := _extract_turn_state m
    let db3 :=
      if ts.1.isSome || ts.2.isSome then
        let existing := Db.get_relay_thread_state db2 u t
        let ptid :=
          match ts.1 with
          | some x => some x
          | none => existing.bind (fun r => r.turn_id)
        let psts :=
          match ts.2 with
          | some x => some x
          | none => existing.bind (fun r => r.turn_status)
        Db.set_relay_thread_turn db2 u t ptid psts
      else db2
    match _extract_artifact db3 m t anchor_id u freshItemId with
    | some a =>
      Db.upsert_relay_artifact db3 u a.thread_id a.turn_id a.anchor_id a.item_id
        a.artifact_type a.item_type a.summary a.payload_json none
    | none => db3

/-- `RelayHub._extract_thread_id` (the hub-side wrapper around the protocol
extractor, with its extra `params`/`params.item` fallbacks). -/
def threadIdFallback (m : Relay.Jobj) : Option ThreadId :=
  match Relay.jget m "params" with
  | some (Relay.JValue.obj params) =>
    (match firstStripped params ["threadId", "thread_id"] with
     | some t => some t
     | none =>
       match Relay.jget params "item" with
       | some (Relay.JValue.obj item) => firstStripped item ["threadId", "thread_id"]
       | _ => none)
  | _ => none

/-- `RelayHub._extract_thread_id`. -/
def extractThreadIdHub (msg : Option Relay.Jobj) : Option ThreadId :=
  match msg with
  | none => none
  | some m =>
    match Relay.extract_thread_id m with
    | some tid => if tid = "" then threadIdFallback m else some tid
    | none => threadIdFallback m

/-- `RelayHub._route_message`, client branch and anchor branch. -/
def _route_message (st : HubState) (socket : Socket) (role : String) (u : UserId)
    (raw : String) (msg : Option Relay.Jobj) (freshItemId : String) :
    HubState × List OutMsg :=
  let thread_id := extractThreadIdHub msg
  let anchor_id :=
    match msg with
    | some m => Relay.extract_anchor_id m
    | none => none
  let request_id := _extract_message_id msg
  let request_key := _message_id_key request_id
  let has_method :=
    match msg with
    | some m =>
      (match Relay.jget m "method" with
       | some (Relay.JValue.str _) => true
       | _ => false)
    | none => false
  if role == "client" then
    let responseHit :=
      if request_key.isSome && !has_method then
        match request_key with
        | some key => alookup st.pending_anchor_requests (socket, key)
        | none => none
      else none
    match responseHit, request_key with
    | some response_target, some key =>
      let st1 := { st with pending_anchor_requests := aremove st.pending_anchor_requests (socket, key) }
      (st1, [OutMsg.mk response_target (Payload.raw raw)])
    | _, _ =>
      let res := _resolve_client_target_locked st u thread_id anchor_id
      let st2 := res.1
      let target := res.2.1
      let failure := res.2.2
      let st3 :=
        match target, pyTruthyOpt thread_id with
        | some tgt, some tid =>
          (match pyTruthyOpt (alookup st2.socket_to_anchor_id tgt) with
           | some resolved =>
             { st2 with
               thread_to_anchor_id := aset st2.thread_to_anchor_id (u, tid) resolved,
               db := Db.set_relay_thread_anchor st2.db u tid (some resolved) }
           | none => st2)
        | _, _ => st2
      let st4 :=
        match target, request_key, has_method with
        | some tgt, some key, true =>
          { st3 with pending_client_requests := aset st3.pending_client_requests (tgt, key) socket }
        | _, _, _ => st3
      match target with
      | some tgt => (st4, [OutMsg.mk tgt (Payload.raw raw)])
      | none =>
        match failure with
        | some f => (st4, _send_rpc_error socket request_id f)
        | none => (st4, [])
  else
    -- anchor branch
    let bindSource := fun (s : HubState) =>
      match pyTruthyOpt thread_id, pyTruthyOpt (alookup s.socket_to_anchor_id socket) with
      | some tid, some aid =>
        { s with
          thread_to_anchor_id := aset s.thread_to_anchor_id (u, tid) aid,
          db := Db.set_relay_thread_anchor s.db u tid (some aid) }
      | _, _ => s
    let broadcastSection := fun (s : HubState) =>
      let s1 := bindSource s
      let targets :=
        match pyTruthyOpt thread_id with
        | some tid =>
          let fromThread := lookupSet s1.thread_to_clients (u, tid)
          if fromThread = [] then lookupSet s1.user_to_client_sockets u else fromThread
        | none => lookupSet s1.user_to_client_sockets u
      let s2 :=
        match request_key, has_method with
        | some key, true =>
          let par := targets.foldl (fun acc tgt => aset acc (tgt, key) socket)
            s1.pending_anchor_requests
          { s1 with pending_anchor_requests := par }
        | _, _ => s1
      let s3 :=
        match pyTruthyOpt thread_id with
        | some tid =>
          let db2 := _capture_relay_state s2.db u tid
            (alookup s2.socket_to_anchor_id socket) raw msg freshItemId
          { s2 with db := db2 }
        | none => s2
      (s3, targets.map (fun tgt => OutMsg.mk tgt (Payload.raw raw)))
    match request_key, has_method with
    | some key, false =>
      let st1 := bindSource st
      (match alookup st1.pending_multi_dispatch_responses (socket, key) with
       | some binding =>
         let st2 := { st1 with pending_multi_dispatch_responses := aremove st1.pending_multi_dispatch_responses (socket, key) }
         let dispatch_key := binding.1
         let source_anchor_id := binding.2
         (match alookup st2.pending_multi_dispatch dispatch_key with
          | some agg =>
            let respVal :=
              match msg with
              | some m => Relay.JValue.obj m
              | none => Relay.JValue.obj [("raw", Relay.JValue.str raw)]
            let agg2 : MultiDispatchAggregate :=
              { agg with
                pending_anchor_ids := sdel agg.pending_anchor_ids source_anchor_id,
                results := aset agg.results source_anchor_id (MDEntry.success respVal) }
            let st3 := { st2 with pending_multi_dispatch := aset st2.pending_multi_dispatch dispatch_key agg2 }
            if agg2.pending_anchor_ids = [] then
              let fin := _finalize_multi_dispatch_locked st3 dispatch_key
              (fin.1,
                match fin.2 with
                | some c => [OutMsg.mk c.1 c.2]
                | none => [])
            else
              broadcastSection st3
          | none => broadcastSection st2)
       | none =>
         (match alookup st1.pending_client_requests (socket, key) with
          | some response_target =>
            let st2 := { st1 with pending_client_requests := aremove st1.pending_client_requests (socket, key) }
            let st3 :=
              match pyTruthyOpt thread_id with
              | some tid =>
                let db2 := _capture_relay_state st2.db u tid
                  (alookup st2.socket_to_anchor_id socket) raw msg freshItemId
                { st2 with db := db2 }
              | none => st2
            (st3, [OutMsg.mk response_target (Payload.raw raw)])
          | none => broadcastSection st1))
    | _, _ => broadcastSection st

/-- `RelayHub._handle_anchor_hello`. `freshAnchorId` stands for the
`uuid4().hex` fallback id and `nowTs` for `datetime.now().isoformat()`. -/
def _handle_anchor_hello (st : HubState) (socket : Socket) (role : String) (u : UserId)
    (msg : Relay.Jobj) (freshAnchorId nowTs : String) : Option (HubState × List OutMsg) :=
  let typeOk :=
    match Relay.jget msg "type" with
    | some (Relay.JValue.str t) => t = "anchor.hello"
    | _ => false
  if !(role == "anchor") || !typeOk then none
  else
    let raw1 :=
      match Relay.jget msg "anchorId" with
      | some (Relay.JValue.str s) =>
        if Relay.pyStrip s ≠ "" then some (Relay.JValue.str s) else Relay.jget msg "deviceId"
      | _ => Relay.jget msg "deviceId"
    let anchor_id :=
      match raw1 with
      | some (Relay.JValue.str s) =>
        if Relay.pyStrip s ≠ "" then Relay.pyStrip s else freshAnchorId
      | _ => freshAnchorId
    let meta : AnchorMeta :=
      { id := anchor_id,
        hostname :=
          match Relay.jget msg "hostname" with
          | some (Relay.JValue.str h) => h
          | _ => "unknown",
        platform :=
          match Relay.jget msg "platform" with
          | some (Relay.JValue.str p) => p
          | _ => "unknown",
        connected_at :=
          match Relay.jget msg "ts" with
          | some (Relay.JValue.str t) => t
          | _ => nowTs }
    let existing := alookup st.anchor_id_to_socket (u, anchor_id)
    let evicted :=
      match existing with
      | some ex =>
        if ex ≠ socket then
          let rem := _remove_socket_locked st ex "anchor"
          (rem.1, rem.2, some ex)
        else (st, ([] : List OutMsg), (none : Option Socket))
      | none => (st, ([] : List OutMsg), (none : Option Socket))
    let st1 := evicted.1
    let notes := evicted.2.1
    let replaced := evicted.2.2
    let st2 :=
      { st1 with
        anchor_meta := aset st1.anchor_meta socket meta,
        anchor_id_to_socket := aset st1.anchor_id_to_socket (u, anchor_id) socket,
        socket_to_anchor_id := aset st1.socket_to_anchor_id socket anchor_id }
    let clients := lookupSet st2.user_to_client_sockets u
    let closeMsgs :=
      match replaced with
      | some ex => [OutMsg.mk ex (Payload.closed 1000 "Replaced by newer connection")]
      | none => ([] : List OutMsg)
    some (st2, notes ++ closeMsgs ++ clients.map (fun c => OutMsg.mk c (Payload.anchorConnected meta)))

/-- The filtered view `orbit.list-anchors` answers with: metadata of
exactly those anchor sockets whose registered user is the requester. -/
def listAnchorsFor (st : HubState) (u : UserId) : List AnchorMeta :=
  (st.anchor_meta.filter
    (fun (p : Socket × AnchorMeta) => decide (userOf st p.1 = some u))).map
    (fun (p : Socket × AnchorMeta) => p.2)

/-- `RelayHub._handle_artifact_list`. -/
def _handle_artifact_list (st : HubState) (socket : Socket) (u : UserId)
    (msg : Relay.Jobj) : HubState × List OutMsg :=
  let thread_id :=
    match Relay.jget msg "threadId" with
    | some (Relay.JValue.str s) => some s
    | _ => none
  let safe_limit : Int :=
    match Relay.jget msg "limit" with
    | some (Relay.JValue.int n) => n
    | some (Relay.JValue.bool b) => if b then 1 else 0
    | _ => 50
  let safe_before : Option Int :=
    match Relay.jget msg "beforeId" with
    | some (Relay.JValue.int n) => some n
    | some (Relay.JValue.bool b) => some (if b then 1 else 0)
    | _ => none
  let request_id :=
    ((_coerce_request_key (Relay.jget msg "requestId")).orElse
      (fun _ => _coerce_request_key (Relay.jget msg "id")))
  let records := Db.list_relay_artifacts st.db u thread_id safe_limit safe_before
  let nextBeforeId := (records.getLast?).map (fun r => r.id)
  (st, [OutMsg.mk socket (Payload.artifactsList thread_id records nextBeforeId request_id)])

/-- `RelayHub._handle_control`: `some` when the frame was handled as a
control message, `none` to fall through to hello handling and routing. -/
def _handle_control (st : HubState) (socket : Socket) (role : String) (u : UserId)
    (msg : Relay.Jobj) (freshReq : String) (hexFor : AnchorId → String) :
    Option (HubState × List OutMsg) :=
  let typeIs := fun (t : String) =>
    match Relay.jget msg "type" with
    | some (Relay.JValue.str s) => s = t
    | _ => false
  let threadIdStr :=
    match Relay.jget msg "threadId" with
    | some (Relay.JValue.str s) => some s
    | _ => none
  if typeIs "orbit.subscribe" && threadIdStr.isSome then
    match threadIdStr with
    | some s =>
      let tid := Relay.pyStrip s
      if tid = "" then some (st, [])
      else
        let st1 := _subscribe_socket_locked st socket role (u, tid) tid
        let st2 :=
          if role == "anchor" then
            match pyTruthyOpt (alookup st1.socket_to_anchor_id socket) with
            | some aid =>
              { st1 with
                thread_to_anchor_id := aset st1.thread_to_anchor_id (u, tid) aid,
                db := Db.set_relay_thread_anchor st1.db u tid (some aid) }
            | none => st1
          else st1
        let anchor_targets :=
          if role == "client" then lookupSet st2.thread_to_anchors (u, tid) else []
        let subMsg := OutMsg.mk socket (Payload.subscribed tid)
        if role == "client" then
          let rep := _replay_thread_state st2 socket u tid
          some (rep.1,
            subMsg :: rep.2 ++
              anchor_targets.map (fun a => OutMsg.mk a (Payload.clientSubscribed tid)))
        else some (st2, [subMsg])
    | none => none
  else if typeIs "orbit.unsubscribe" && threadIdStr.isSome then
    match threadIdStr with
    | some s =>
      let tid := Relay.pyStrip s
      if tid = "" then some (st, [])
      else some (_unsubscribe_socket_locked st socket role (u, tid) tid, [])
    | none => none
  else if typeIs "orbit.list-anchors" && role == "client" then
    some (st, [OutMsg.mk socket (Payload.anchorsList (listAnchorsFor st u))])
  else if typeIs "orbit.artifacts.list" && role == "client" then
    some (_handle_artifact_list st socket u msg)
  else if typeIs "orbit.multi-dispatch" && role == "client" then
    some (_handle_multi_dispatch st socket u msg freshReq hexFor)
  else
    match Relay.jget msg "type" with
    | some (Relay.JValue.str s) =>
      if "orbit.push-".data.isPrefixOf s.data then some (st, []) else none
    | _ => none

/-- The machine-generated values one `handle_message` call may draw. -/
structure Oracle where
  freshAnchorId : String
  nowTs : String
  freshRequestId : String
  hexFor : AnchorId → String
  freshItemId : String

/-- `RelayHub.handle_message`: resolve the socket's user (drop when
unknown), short-circuit `ping`, try control handling, then anchor-hello
handling, else route. `msg` is the `json.loads` result of `raw` when that
is a JSON object. -/
def handle_message (st : HubState) (socket : Socket) (role : String) (raw : String)
    (msg : Option Relay.Jobj) (oracle : Oracle) : HubState × List OutMsg :=
  match userOf st socket with
  | none => (st, [])
  | some u =>
    let isPing : Bool :=
      match msg with
      | some m =>
        (match Relay.jget m "type" with
         | some (Relay.JValue.str s) => s == "ping"
         | _ => false)
      | none => false
    if isPing then (st, [OutMsg.mk socket Payload.pong])
    else
      match msg with
      | some m =>
        (match _handle_control st socket role u m oracle.freshRequestId oracle.hexFor with
         | some r => r
         | none =>
           match _handle_anchor_hello st socket role u m oracle.freshAnchorId oracle.nowTs with
           | some r => r
           | none => _route_message st socket role u raw msg oracle.freshItemId)
      | none => _route_message st socket role u raw none oracle.freshItemId

/-- The role a socket was accepted under. A WebSocket object lives on one
endpoint for its whole life, so `register`, `handle_message` and
`unregister` always see the same role for the same socket; even ids stand
for `/ws/client` connections and odd ids for `/ws/anchor` ones. -/
def roleOf (s : Socket) : String :=
  if s % 2 = 0 then "client" else "anchor"

/-- A freshly accepted connection: every WebSocket is a new object, so it
is not registered and no map can hold a stale reference to it. -/
def freshSocket (st : HubState) (socket : Socket) : Bool :=
  (userOf st socket).isNone
    && st.user_to_client_sockets.all (fun p => !(p.2.contains socket))
    && st.user_to_anchor_sockets.all (fun p => !(p.2.contains socket))
    && st.thread_to_clients.all (fun p => !(p.2.contains socket))
    && st.thread_to_anchors.all (fun p => !(p.2.contains socket))
    && st.anchor_id_to_socket.all (fun p => p.2 != socket)
    && st.client_id_to_socket.all (fun p => p.2 != socket)
    && st.pending_anchor_requests.all (fun p => p.1.1 != socket && p.2 != socket)
    && st.pending_client_requests.all (fun p => p.1.1 != socket && p.2 != socket)
    && st.pending_multi_dispatch.all (fun p => p.1.1 != socket)
    && st.pending_multi_dispatch_responses.all
      (fun p => p.1.1 != socket && p.2.1.1 != socket)

/-- One transition of the hub: a public operation or the multi-dispatch
timer firing. `register` only ever sees a freshly accepted socket (every
connection creates a new WebSocket object), hence the freshness premise. -/
inductive Step : HubState → HubState → Prop where
  | register (st : HubState) (socket : Socket) (user_id : UserId)
      (client_id : Option String) (fresh : freshSocket st socket = true) :
      Step st (register st socket (roleOf socket) user_id client_id).1
  | unregister (st : HubState) (socket : Socket) :
      Step st (unregister st socket (roleOf socket)).1
  | handle (st : HubState) (socket : Socket) (raw : String)
      (msg : Option Relay.Jobj) (oracle : Oracle) :
      Step st (handle_message st socket (roleOf socket) raw msg oracle).1
  | expire (st : HubState) (dispatch_key : Socket × String) :
      Step st (_expire_multi_dispatch st dispatch_key).1

/-- Hub states reachable from the empty hub by public operations. -/
def Reachable (st : HubState) : Prop :=
  Relation.ReflTransGen Step initState st

/-- Outcome of a client→anchor target resolution: a socket to use, or a
failure code. -/
inductive ResolveOutcome where
  | use (s : Socket)
  | fail (code : String)
deriving DecidableEq

/-- The outcome view of `_resolve_client_target_locked` (the code always
produces a socket or a failure; the empty-code default is unreachable). -/
def resolveOutcome (r : HubState × Option Socket × Option RouteFailure) : ResolveOutcome :=
  match r.2.1 with
  | some s => ResolveOutcome.use s
  | none =>
    match r.2.2 with
    | some f => ResolveOutcome.fail f.code
    | none => ResolveOutcome.fail ""

/-- The thread's bound anchor as the specification reads it: the memo,
else the stored thread state — a pure read, without the code's
memoisation side effect. -/
def boundAnchorView (st : HubState) (u : UserId) (tid : ThreadId) : Option AnchorId :=
  match pyTruthyOpt (alookup st.thread_to_anchor_id (u, tid)) with
  | some b => some b
  | none =>
    match Db.get_relay_thread_state st.db u tid with
    | some row => pyTruthyOpt row.bound_anchor_id
    | none => none

/-- The fallthrough step of the specified decision procedure: exactly one
connected anchor is used, zero yields `anchor_offline`, several yield
`anchor_required`. -/
def specFallthrough (st : HubState) (u : UserId) : ResolveOutcome :=
  match lookupSet st.user_to_anchor_sockets u with
  | [a] => ResolveOutcome.use a
  | [] => ResolveOutcome.fail "anchor_offline"
  | _ => ResolveOutcome.fail "anchor_required"

/-- The target-resolution decision procedure as the specification states
it (spec §4.5.3 and claim C3), written from the claim text for comparison
with the code: anchor-id miss fails `anchor_not_found`; an anchor id
conflicting with the (memo, else storage) binding fails
`thread_anchor_mismatch`; a bound thread uses the bound anchor's socket or
fails `anchor_offline`; an unbound thread uses the unique subscribed
anchor, fails `thread_anchor_mismatch` on several, and falls through on
none; the fallthrough is `specFallthrough`. -/
def resolveSpec (st : HubState) (u : UserId) (thread_id anchor_id : Option String) :
    ResolveOutcome :=
  match pyTruthyOpt anchor_id with
  | some aid =>
    (match alookup st.anchor_id_to_socket (u, aid) with
     | none => ResolveOutcome.fail "anchor_not_found"
     | some target =>
       match pyTruthyOpt thread_id with
       | some tid =>
         (match boundAnchorView st u tid with
          | some b =>
            if b ≠ aid then ResolveOutcome.fail "thread_anchor_mismatch"
            else ResolveOutcome.use target
          | none => ResolveOutcome.use target)
       | none => ResolveOutcome.use target)
  | none =>
    match pyTruthyOpt thread_id with
    | some tid =>
      (match boundAnchorView st u tid with
       | some b =>
         (match alookup st.anchor_id_to_socket (u, b) with
          | some target => ResolveOutcome.use target
          | none => ResolveOutcome.fail "anchor_offline")
       | none =>
         match lookupSet st.thread_to_anchors (u, tid) with
         | [s] => ResolveOutcome.use s
         | [] => specFallthrough st u
         | _ => ResolveOutcome.fail "thread_anchor_mismatch")
    | none => specFallthrough st u

/-- The aggregate update `_route_message` performs when an anchor response
matches a multi-dispatch binding (relay.py lines 500-504): clear the
anchor from the pending set and store the consumed response in its slot. -/
def consumeMDResponse (agg : MultiDispatchAggregate) (source_anchor_id : AnchorId)
    (resp : Relay.JValue) : MultiDispatchAggregate :=
  { agg with
    pending_anchor_ids := sdel agg.pending_anchor_ids source_anchor_id,
    results := aset agg.results source_anchor_id (MDEntry.success resp) }

/-- The inner request id `_handle_multi_dispatch` assigns for one target:
the template's own coercible id — else the outer request id — then the
anchor id, then the fresh 8-hex suffix, colon-separated. -/
def mdSubId (template : Relay.Jobj) (request_id aid : String) (hexFor : AnchorId → String) :
    String :=
  ((_coerce_request_key (Relay.jget template "id")).getD request_id)
    ++ ":" ++ aid ++ ":" ++ hexFor aid

/-- A fixed oracle for the concrete scenarios below. -/
def oracleA : Oracle :=
  { freshAnchorId := "feedface", nowTs := "2026-01-01T00:00:00",
    freshRequestId := "cafebabe", hexFor := fun _ => "00000000",
    freshItemId := "deadbeef" }

/-- `anchor.hello` frame announcing the given anchor id. -/
def helloMsgFor (aid : String) : Relay.Jobj :=
  [("type", Relay.JValue.str "anchor.hello"), ("anchorId", Relay.JValue.str aid)]

/-- `orbit.subscribe` frame for the given thread. -/
def subscribeMsgFor (tid : String) : Relay.Jobj :=
  [("type", Relay.JValue.str "orbit.subscribe"), ("threadId", Relay.JValue.str tid)]

/-- Scenario: anchor socket 1 of user `u` connects, hellos as `A`, and
subscribes to thread `t`; then anchor socket 3 of the same user connects
and hellos as `B`. All states are reachable by construction. -/
def scnA1 : HubState := (register initState 1 (roleOf 1) "u" none).1

/-- Scenario state after socket 1 said `anchor.hello` as `A`. -/
def scnA2 : HubState := (handle_message scnA1 1 (roleOf 1) "" (some (helloMsgFor "A")) oracleA).1

/-- Scenario state after socket 1 subscribed to thread `t` (binding `t` to
`A`). -/
def scnA3 : HubState := (handle_message scnA2 1 (roleOf 1) "" (some (subscribeMsgFor "t")) oracleA).1

/-- Scenario state after anchor socket 3 connected. -/
def scnA4 : HubState := (register scnA3 3 (roleOf 3) "u" none).1

/-- Scenario state after socket 3 said `anchor.hello` as `B`. -/
def scnA5 : HubState := (handle_message scnA4 3 (roleOf 3) "" (some (helloMsgFor "B")) oracleA).1

/-- Scenario state after socket 3 subscribed to thread `t` (the rebinding
step claim C2 rules out). -/
def scnA6 : HubState := (handle_message scnA5 3 (roleOf 3) "" (some (subscribeMsgFor "t")) oracleA).1

/-- Scenario: client socket 0 and a bare anchor socket 1 (never saying
`anchor.hello`) connect for user `u`. -/
def scnB1 : HubState := (register initState 0 (roleOf 0) "u" none).1

/-- Scenario state after the bare anchor socket 1 connected. -/
def scnB2 : HubState := (register scnB1 1 (roleOf 1) "u" none).1

/-- A frame carrying a whitespace-only id and a method. -/
def wsIdFrame : Relay.Jobj :=
  [("id", Relay.JValue.str " "), ("method", Relay.JValue.str "thread/start")]

/-- A message log holding 101 retained messages for `(u, t)`. -/
def manyMsgsDb : Db.DbState :=
  { thread_state := [],
    messages := (List.range 101).map
      (fun i => { id := i + 1, user_id := "u", thread_id := "t", raw_data := "m" }),
    next_msg_id := 102, artifacts := [], next_art_id := 1 }

/-- The `manyMsgsDb` log mounted under a hub with client socket 0
registered for user `u`. -/
def scnC1 : HubState :=
  { (register initState 0 (roleOf 0) "u" none).1 with db := manyMsgsDb }

/-- The multi-dispatch frame of scenario S6 shape: an outer `requestId`
and an inner request template that carries its own id. -/
def mdMsgWithInnerId : Relay.Jobj :=
  [("type", Relay.JValue.str "orbit.multi-dispatch"),
   ("requestId", Relay.JValue.str "md-1"),
   ("anchorIds", Relay.JValue.arr [Relay.JValue.str "A"]),
   ("request", Relay.JValue.obj
     [("id", Relay.JValue.int 77), ("method", Relay.JValue.str "anchor.echo")])]

/-- Scenario state `scnA2` (anchor socket 1 helloed as `A`) extended with a
client socket 0 registered for the same user `u`. -/
def scnA2c : HubState := (register scnA2 0 (roleOf 0) "u" none).1

/-- Scenario state `scnA5` (anchors `A` on socket 1 and `B` on socket 3)
extended with a client socket 0 registered for the same user `u`. -/
def scnA5c : HubState := (register scnA5 0 (roleOf 0) "u" none).1

/-- Multi-dispatch with outer request id `r` targeting anchor `A`. -/
def mdMsgRA : Relay.Jobj :=
  [("type", Relay.JValue.str "orbit.multi-dispatch"),
   ("requestId", Relay.JValue.str "r"),
   ("anchorIds", Relay.JValue.arr [Relay.JValue.str "A"]),
   ("request", Relay.JValue.obj [("method", Relay.JValue.str "m1")])]

/-- A second multi-dispatch reusing the outer request id `r`, targeting
anchor `B`. -/
def mdMsgRB : Relay.Jobj :=
  [("type", Relay.JValue.str "orbit.multi-dispatch"),
   ("requestId", Relay.JValue.str "r"),
   ("anchorIds", Relay.JValue.arr [Relay.JValue.str "B"]),
   ("request", Relay.JValue.obj [("method", Relay.JValue.str "m2")])]

/-- State after the client dispatched `mdMsgRA` in `scnA5c`. -/
def scnMD1 : HubState := (handle_message scnA5c 0 (roleOf 0) "" (some mdMsgRA) oracleA).1

/-- State after the client reused outer id `r` by dispatching `mdMsgRB`. -/
def scnMD2 : HubState := (handle_message scnMD1 0 (roleOf 0) "" (some mdMsgRB) oracleA).1

/-- Multi-dispatch with outer request id `r1` targeting the unknown anchor
id `X`. -/
def mdMsgToX : Relay.Jobj :=
  [("type", Relay.JValue.str "orbit.multi-dispatch"),
   ("requestId", Relay.JValue.str "r1"),
   ("anchorIds", Relay.JValue.arr [Relay.JValue.str "X"]),
   ("request", Relay.JValue.obj [("method", Relay.JValue.str "m")])]

/-- A half-served aggregate: `A` already answered, `B` still pending. -/
def aggTimeoutW : MultiDispatchAggregate :=
  { requester_socket := 0, request_id := "r", ordered_anchor_ids := ["A", "B"],
    results := [("A", MDEntry.success Relay.JValue.null)], pending_anchor_ids := ["B"] }

/-- A hub holding only the half-served aggregate `aggTimeoutW`. -/
def stTimeoutW : HubState :=
  { initState with pending_multi_dispatch := [((0, "r"), aggTimeoutW)] }

/-- An aggregate still waiting for its single target `A`. -/
def aggConsumeW : MultiDispatchAggregate :=
  { requester_socket := 0, request_id := "r", ordered_anchor_ids := ["A"],
    results := [], pending_anchor_ids := ["A"] }

/-- A hub holding `aggConsumeW` with its inner id `x` bound to anchor
socket 3. -/
def stConsumeW : HubState :=
  { initState with
    pending_multi_dispatch := [((0, "r"), aggConsumeW)],
    pending_multi_dispatch_responses := [((3, "x"), ((0, "r"), "A"))] }

/-- The anchor response frame carrying inner id `x`. -/
def respW : Relay.Jobj :=
  [("id", Relay.JValue.str "x"), ("result", Relay.JValue.null)]

/-- Per-user consistency of every routing structure: members of the
per-user socket sets and anchor/client id maps are registered to that
user — or already unregistered where teardown can leave a stale entry —
and every pending-reply binding links two sockets of one user. -/
structure UserConsistent (st : HubState) : Prop where
  utc : ∀ u s, s ∈ lookupSet st.user_to_client_sockets u →
    userOf st s = some u ∨ userOf st s = none
  uta : ∀ u s, s ∈ lookupSet st.user_to_anchor_sockets u →
    userOf st s = some u ∨ userOf st s = none
  ttc : ∀ u t s, s ∈ lookupSet st.thread_to_clients (u, t) →
    userOf st s = some u ∨ userOf st s = none
  tta : ∀ u t s, s ∈ lookupSet st.thread_to_anchors (u, t) →
    userOf st s = some u ∨ userOf st s = none
  aits : ∀ p ∈ st.anchor_id_to_socket,
    userOf st p.2 = some p.1.1 ∨ userOf st p.2 = none
  citc : ∀ p ∈ st.client_id_to_socket,
    userOf st p.2 = some p.1.1 ∨ userOf st p.2 = none
  par : ∀ p ∈ st.pending_anchor_requests,
    ∃ u2, userOf st p.2 = some u2 ∧
      (userOf st p.1.1 = some u2 ∨ userOf st p.1.1 = none)
  pcr : ∀ p ∈ st.pending_client_requests,
    ∃ u2, userOf st p.2 = some u2 ∧
      (userOf st p.1.1 = some u2 ∨ userOf st p.1.1 = none)
  pmd : ∀ p ∈ st.pending_multi_dispatch,
    p.2.requester_socket = p.1.1 ∧ ∃ u2, userOf st p.1.1 = some u2
  pmdr : ∀ p ∈ st.pending_multi_dispatch_responses,
    ∃ u2, userOf st p.2.1.1 = some u2 ∧
      (userOf st p.1.1 = some u2 ∨ userOf st p.1.1 = none)

/-- A client frame addressed to anchor id `A` (carrying an id and a method,
as a JSON-RPC request does). -/
def anchorFrameA : Relay.Jobj :=
  [("method", Relay.JValue.str "thread/start"),
   ("id", Relay.JValue.str "r1"),
   ("params", Relay.JValue.obj [("anchorId", Relay.JValue.str "A")])]

/-- `scnB2`, then the anchor socket 1 says `anchor.hello` as `A`, then again
as `B` (a re-hello re-identifying the device), then disconnects. The
teardown only clears the anchor's current id `B`, so the stale binding
`("u", "A") → 1` survives while socket 1 is no longer registered. -/
def scnD3 : HubState := (handle_message scnB2 1 (roleOf 1) "" (some (helloMsgFor "A")) oracleA).1

def scnD4 : HubState := (handle_message scnD3 1 (roleOf 1) "" (some (helloMsgFor "B")) oracleA).1

def scnD5 : HubState := (unregister scnD4 1 (roleOf 1)).1

end Hub

/-! Generic lemmas about the dict and set models. -/

theorem find?_mapset_self {K V : Type} [DecidableEq K] (l : List (K × V)) (k : K) (v : V)
    (h : l.any (fun p => decide (p.1 = k)) = true) :
    (l.map (fun p => if p.1 = k then (k, v) else p)).find? (fun p => decide (p.1 = k))
      = some (k, v) := by
  induction l with
  | nil => simp at h
  | cons p rest ih =>
    by_cases hp : p.1 = k
    · simp only [List.map_cons, if_pos hp]
      exact List.find?_cons_of_pos _ (by simp)
    · simp only [List.any_cons, Bool.or_eq_true, decide_eq_true_eq] at h
      rcases h with h | h
      · exact absurd h hp
      · simp only [List.map_cons, if_neg hp]
        rw [List.find?_cons_of_neg _ (by simpa using hp)]
        exact ih (List.any_eq_true.mpr (by simpa using h))

theorem find?_mapset_ne {K V : Type} [DecidableEq K] (l : List (K × V)) (k k' : K) (v : V)
    (h : k' ≠ k) :
    (l.map (fun p => if p.1 = k then (k, v) else p)).find? (fun p => decide (p.1 = k'))
      = l.find? (fun p => decide (p.1 = k')) := by
  induction l with
  | nil => rfl
  | cons p rest ih =>
    by_cases hp : p.1 = k
    · simp only [List.map_cons, if_pos hp]
      rw [List.find?_cons_of_neg _ (by simpa using Ne.symm h),
        List.find?_cons_of_neg _ (by simp only [decide_eq_true_eq, hp]; exact Ne.symm h)]
      exact ih
    · simp only [List.map_cons, if_neg hp]
      by_cases hp' : p.1 = k'
      · rw [List.find?_cons_of_pos _ (by simpa using hp'),
          List.find?_cons_of_pos _ (by simpa using hp')]
      · rw [List.find?_cons_of_neg _ (by simpa using hp'),
          List.find?_cons_of_neg _ (by simpa using hp')]
        exact ih

theorem alookup_aset_self {K V : Type} [DecidableEq K] (l : List (K × V)) (k : K) (v : V) :
    alookup (aset l k v) k = some v := by
  unfold alookup aset
  by_cases hany : l.any (fun p => decide (p.1 = k)) = true
  · rw [if_pos hany, find?_mapset_self l k v hany]
  · rw [if_neg hany, List.find?_append]
    have hnone : l.find? (fun p => decide (p.1 = k)) = none := by
      rw [List.find?_eq_none]
      intro p hp
      simp only [decide_eq_true_eq]
      intro hpk
      exact hany (List.any_eq_true.mpr ⟨p, hp, by simpa using hpk⟩)
    rw [hnone]
    simp [List.find?_cons_of_pos]

theorem alookup_aset_ne {K V : Type} [DecidableEq K] (l : List (K × V)) (k k' : K) (v : V)
    (h : k' ≠ k) : alookup (aset l k v) k' = alookup l k' := by
  unfold alookup aset
  by_cases hany : l.any (fun p => decide (p.1 = k)) = true
  · rw [if_pos hany, find?_mapset_ne l k k' v h]
  · rw [if_neg hany, List.find?_append,
      List.find?_cons_of_neg _ (by simpa using Ne.symm h), List.find?_nil]
    cases hfind : l.find? (fun p => decide (p.1 = k')) with
    | some p => simp [hfind]
    | none => simp [hfind]

theorem alookup_aremove_self {K V : Type} [DecidableEq K] (l : List (K × V)) (k : K) :
    alookup (aremove l k) k = none := by
  unfold alookup aremove
  cases hfind : (l.filter fun p => decide (p.1 ≠ k)).find? (fun p => decide (p.1 = k)) with
  | none => rfl
  | some p =>
    have hmem := List.mem_filter.mp (List.mem_of_find?_eq_some hfind)
    have hpk : p.1 = k := by simpa using List.find?_some hfind
    exact absurd hpk (by simpa using hmem.2)

theorem alookup_aremove_ne {K V : Type} [DecidableEq K] (l : List (K × V)) (k k' : K)
    (h : k' ≠ k) : alookup (aremove l k) k' = alookup l k' := by
  unfold alookup aremove
  induction l with
  | nil => rfl
  | cons p rest ih =>
    by_cases hpk : p.1 = k
    · rw [List.filter_cons_of_neg (by simpa using hpk),
        List.find?_cons_of_neg _ (by simp only [decide_eq_true_eq, hpk]; exact Ne.symm h)]
      exact ih
    · rw [List.filter_cons_of_pos (by simpa using hpk)]
      by_cases hp' : p.1 = k'
      · rw [List.find?_cons_of_pos _ (by simpa using hp'),
          List.find?_cons_of_pos _ (by simpa using hp')]
      · rw [List.find?_cons_of_neg _ (by simpa using hp'),
          List.find?_cons_of_neg _ (by simpa using hp')]
        exact ih

theorem alookup_asetdefault_ne {K V : Type} [DecidableEq K] (l : List (K × V)) (k k' : K)
    (v : V) (h : k' ≠ k) : alookup (asetdefault l k v) k' = alookup l k' := by
  unfold asetdefault
  by_cases hany : l.any (fun p => decide (p.1 = k)) = true
  · rw [if_pos hany]
  · rw [if_neg hany]
    unfold alookup
    rw [List.find?_append,
      List.find?_cons_of_neg _ (by simpa using Ne.symm h), List.find?_nil]
    cases hfind : l.find? (fun p => decide (p.1 = k')) with
    | some p => simp [hfind]
    | none => simp [hfind]

theorem alookup_asetdefault_some {K V : Type} [DecidableEq K] (l : List (K × V)) (k : K)
    (v w : V) (h : alookup l k = some w) : alookup (asetdefault l k v) k = some w := by
  unfold asetdefault
  by_cases hany : l.any (fun p => decide (p.1 = k)) = true
  · rw [if_pos hany]; exact h
  · exfalso
    unfold alookup at h
    cases hfind : l.find? (fun p => decide (p.1 = k)) with
    | none => rw [hfind] at h; exact Option.noConfusion h
    | some p =>
      have hp := List.find?_some hfind
      exact hany (List.any_eq_true.mpr
        ⟨p, List.mem_of_find?_eq_some hfind, by simpa using hp⟩)

theorem mem_sadd {A : Type} [DecidableEq A] (l : List A) (a x : A) :
    x ∈ sadd l a ↔ x ∈ l ∨ x = a := by
  unfold sadd
  split
  · rename_i hmem
    constructor
    · exact fun h => Or.inl h
    · rintro (h | rfl)
      · exact h
      · exact hmem
  · simp

theorem mem_sdel {A : Type} [DecidableEq A] (l : List A) (a x : A) :
    x ∈ sdel l a ↔ x ∈ l ∧ x ≠ a := by
  unfold sdel
  simp [List.mem_filter]

open Hub

theorem lookupBoundAnchor_snd (st : HubState) (u : UserId) (tid : ThreadId) :
    (lookupBoundAnchor st u tid).2 = boundAnchorView st u tid := by
  unfold lookupBoundAnchor boundAnchorView
  rcases hm : pyTruthyOpt (alookup st.thread_to_anchor_id (u, tid)) with _ | b
  · rcases hg : Db.get_relay_thread_state st.db u tid with _ | row
    · simp [hm, hg]
    · rcases hpb : pyTruthyOpt row.bound_anchor_id with _ | b <;> simp [hm, hg, hpb]
  · simp [hm]

theorem lookupBoundAnchor_fst (st : HubState) (u : UserId) (tid : ThreadId) :
    (lookupBoundAnchor st u tid).1.anchor_id_to_socket = st.anchor_id_to_socket ∧
    (lookupBoundAnchor st u tid).1.thread_to_anchors = st.thread_to_anchors ∧
    (lookupBoundAnchor st u tid).1.user_to_anchor_sockets = st.user_to_anchor_sockets := by
  unfold lookupBoundAnchor
  rcases hm : pyTruthyOpt (alookup st.thread_to_anchor_id (u, tid)) with _ | b
  · rcases hg : Db.get_relay_thread_state st.db u tid with _ | row
    · simp [hm, hg]
    · rcases hpb : pyTruthyOpt row.bound_anchor_id with _ | b <;> simp [hm, hg, hpb]
  · simp [hm]

theorem resolveFallthrough_outcome (st : HubState) (u : UserId) :
    resolveOutcome (resolveFallthrough st u) = specFallthrough st u := by
  unfold resolveFallthrough specFallthrough resolveOutcome
  cases lookupSet st.user_to_anchor_sockets u with
  | nil => rfl
  | cons a rest => cases rest <;> rfl

/-- C3: client→anchor target resolution follows the specified decision
procedure: `anchor_not_found` on an anchor-id miss; `thread_anchor_mismatch`
when the given anchor conflicts with the (memo, else storage) binding; with
only a thread id, the bound anchor when connected else `anchor_offline`;
with no binding, the unique subscribed anchor, `thread_anchor_mismatch` on
several, fallthrough on none; the fallthrough uses the unique connected
anchor, `anchor_offline` on zero, `anchor_required` on several. -/
theorem resolve_follows_spec (st : HubState) (u : UserId)
    (thread_id anchor_id : Option String) :
    resolveOutcome (_resolve_client_target_locked st u thread_id anchor_id) =
      resolveSpec st u thread_id anchor_id := by
  obtain ⟨hkey, hsubs, hanch⟩ := lookupBoundAnchor_fst st u (pyTruthyOpt thread_id).iget
  cases ha : pyTruthyOpt anchor_id with
  | none =>
    cases ht : pyTruthyOpt thread_id with
    | none =>
      simp only [_resolve_client_target_locked, resolveSpec, ha, ht]
      exact resolveFallthrough_outcome st u
    | some tid =>
      obtain ⟨hkey, hsubs, hanch⟩ := lookupBoundAnchor_fst st u tid
      have hsnd := lookupBoundAnchor_snd st u tid
      cases hb : boundAnchorView st u tid with
      | some b =>
        rw [hb] at hsnd
        simp only [_resolve_client_target_locked, resolveSpec, ha, ht, hsnd, hb, hkey]
        cases alookup st.anchor_id_to_socket (u, b) with
        | some target => rfl
        | none => rfl
      | none =>
        rw [hb] at hsnd
        simp only [_resolve_client_target_locked, resolveSpec, ha, ht, hsnd, hb, hsubs]
        cases lookupSet st.thread_to_anchors (u, tid) with
        | nil =>
          simp only []
          have := resolveFallthrough_outcome (lookupBoundAnchor st u tid).1 u
          rw [this]
          unfold specFallthrough
          rw [hanch]
        | cons s rest =>
          cases rest with
          | nil => rfl
          | cons s2 r2 => rfl
  | some aid =>
    cases htgt : alookup st.anchor_id_to_socket (u, aid) with
    | none =>
      simp only [_resolve_client_target_locked, resolveSpec, ha, htgt]
      rfl
    | some target =>
      cases ht : pyTruthyOpt thread_id with
      | none => simp only [_resolve_client_target_locked, resolveSpec, ha, ht, htgt]; rfl
      | some tid =>
        have hsnd := lookupBoundAnchor_snd st u tid
        cases hb : boundAnchorView st u tid with
        | some b =>
          rw [hb] at hsnd
          simp only [_resolve_client_target_locked, resolveSpec, ha, ht, htgt, hsnd, hb]
          by_cases hne : b ≠ aid
          · simp only [if_pos hne]; rfl
          · simp only [if_neg hne]; rfl
        | none =>
          rw [hb] at hsnd
          simp only [_resolve_client_target_locked, resolveSpec, ha, ht, htgt, hsnd, hb]
          rfl

theorem consume_challenge_hit_iff (now : Int) (c k : String) (r : Db.ChallengeRecord) :
    (r.challenge == c && r.kind == k && decide (now < r.expires_at)) = true ↔
      (r.challenge = c ∧ r.kind = k ∧ now < r.expires_at) := by
  simp [Bool.and_eq_true, and_assoc]

theorem consume_challenge_none_of_no_key (now : Int) (store : List Db.ChallengeRecord)
    (c k : String) (h : ∀ x ∈ store, x.challenge ≠ c) :
    (Db.consume_challenge now store c k).1 = none := by
  have hfind : store.find?
      (fun r => r.challenge == c && r.kind == k && decide (now < r.expires_at)) = none := by
    rw [List.find?_eq_none]
    intro x hx hhit
    exact h x hx ((consume_challenge_hit_iff now c k x).mp hhit).1
  simp only [Db.consume_challenge, hfind]

/-- C10: `consume_challenge` returns the stored record iff a row with that
challenge key exists whose kind matches and whose expiry is strictly in
the future; otherwise it returns `none`; in either case no row with that
challenge key survives, so a later consume with the correct kind also
returns `none`. The hypothesis is the `challenge` primary-key constraint. -/
theorem consume_challenge_spec (now : Int) (store : List Db.ChallengeRecord)
    (c k : String) (hpk : (store.map (fun r => r.challenge)).Nodup) :
    (∀ r, (Db.consume_challenge now store c k).1 = some r ↔
      (r ∈ store ∧ r.challenge = c ∧ r.kind = k ∧ now < r.expires_at)) ∧
    (∀ x ∈ (Db.consume_challenge now store c k).2, x.challenge ≠ c) ∧
    (∀ now2 k2,
      (Db.consume_challenge now2 (Db.consume_challenge now store c k).2 c k2).1 = none) := by
  have hinj := List.inj_on_of_nodup_map hpk
  cases hfind : store.find?
      (fun r => r.challenge == c && r.kind == k && decide (now < r.expires_at)) with
  | none =>
    have hno : ∀ x ∈ store, ¬(x.challenge = c ∧ x.kind = k ∧ now < x.expires_at) := by
      intro x hx hprops
      exact (List.find?_eq_none.mp hfind x hx)
        ((consume_challenge_hit_iff now c k x).mpr hprops)
    have hpost : ∀ x ∈ store.filter (fun x => !(x.challenge == c)), x.challenge ≠ c := by
      intro x hx hc
      obtain ⟨_, hxpred⟩ := List.mem_filter.mp hx
      rw [show (x.challenge == c) = true from by simpa using hc] at hxpred
      simp at hxpred
    simp only [Db.consume_challenge, hfind]
    refine ⟨?_, hpost, ?_⟩
    · intro r
      constructor
      · intro h; exact Option.noConfusion h
      · rintro ⟨hmem, hc, hk, hexp⟩
        exact absurd ⟨hc, hk, hexp⟩ (hno r hmem)
    · intro now2 k2
      exact consume_challenge_none_of_no_key now2 _ c k2 hpost
  | some r0 =>
    have hr0mem := List.mem_of_find?_eq_some hfind
    have hr0hit := List.find?_some hfind
    have hr0props : r0.challenge = c ∧ r0.kind = k ∧ now < r0.expires_at :=
      (consume_challenge_hit_iff now c k r0).mp (by simpa using hr0hit)
    have hpost : ∀ x ∈ store.filter
        (fun x => !(x.challenge == c && x.kind == k && decide (now < x.expires_at))),
        x.challenge ≠ c := by
      intro x hx hc
      obtain ⟨hxmem, hxpred⟩ := List.mem_filter.mp hx
      have hxr0 : x = r0 := hinj hxmem hr0mem (by rw [hc, hr0props.1])
      rw [hxr0] at hxpred
      rw [show (r0.challenge == c && r0.kind == k && decide (now < r0.expires_at)) = true
        from by simpa using hr0hit] at hxpred
      simp at hxpred
    simp only [Db.consume_challenge, hfind]
    refine ⟨?_, hpost, ?_⟩
    · intro r
      simp only [Option.some.injEq]
      constructor
      · rintro rfl
        exact ⟨hr0mem, hr0props⟩
      · rintro ⟨hmem, hc, hk, hexp⟩
        exact hinj hr0mem hmem (by rw [hr0props.1, hc])
    · intro now2 k2
      exact consume_challenge_none_of_no_key now2 _ c k2 hpost

/-- Witness for C10 at a concrete store: a fresh authentication challenge
is consumed exactly once. -/
theorem consume_challenge_spec_witness :
    (Db.consume_challenge 50
      [{ challenge := "c1", kind := "authentication", user_id := none,
         pending_name := none, pending_display_name := none, expires_at := 100 }]
      "c1" "authentication").1 =
      some { challenge := "c1", kind := "authentication", user_id := none,
             pending_name := none, pending_display_name := none, expires_at := 100 } := by
  exact ((consume_challenge_spec 50
    [{ challenge := "c1", kind := "authentication", user_id := none,
       pending_name := none, pending_display_name := none, expires_at := 100 }]
    "c1" "authentication" (by decide)).1 _).mpr ⟨by decide, rfl, rfl, by decide⟩

theorem length_takeLast {A : Type} (n : Nat) (l : List A) :
    (takeLast n l).length = min n l.length := by
  unfold takeLast
  simp [List.length_take]

theorem list_relay_eq_takeLast (db : Db.DbState) (u t : String) :
    Db.list_relay_thread_messages db u t REPLAY_LIMIT =
      takeLast 100 (db.messages.filter (Db.msgMatches u t)) := rfl

/-- C5 (amended): the replay served to a subscribing client is the
bounded `REPLAY_LIMIT = 100` per-thread tail: with `k` messages retained,
`orbit.relay-state` reports `replayed = min(k, 100)` — not `min(k, 200)` —
and is followed by those most-recent `min(k, 100)` messages in insertion
order (oldest first). -/
theorem replay_window_amended (st : HubState) (socket : Socket) (u : UserId) (t : ThreadId)
    (hk : (st.db.messages.filter (Db.msgMatches u t)).length ≤ 200) :
    ∃ b turn,
      (_replay_thread_state st socket u t).2 =
        OutMsg.mk socket (Payload.relayState t b turn
          (min 100 (st.db.messages.filter (Db.msgMatches u t)).length)) ::
        (takeLast 100 (st.db.messages.filter (Db.msgMatches u t))).map
          (fun r => OutMsg.mk socket (Payload.raw r.raw_data)) := by
  unfold _replay_thread_state
  rcases hs : Db.get_relay_thread_state st.db u t with _ | row
  · refine ⟨none, none, ?_⟩
    simp only [hs, list_relay_eq_takeLast, length_takeLast]
  · rcases hb : pyTruthyOpt row.bound_anchor_id with _ | b
    · refine ⟨row.bound_anchor_id,
        (if (pyTruthyOpt row.turn_id).isSome || (pyTruthyOpt row.turn_status).isSome then
          some (row.turn_id, row.turn_status) else none), ?_⟩
      simp only [hs, hb, list_relay_eq_takeLast, length_takeLast]
    · refine ⟨row.bound_anchor_id,
        (if (pyTruthyOpt row.turn_id).isSome || (pyTruthyOpt row.turn_status).isSome then
          some (row.turn_id, row.turn_status) else none), ?_⟩
      simp only [hs, hb, list_relay_eq_takeLast, length_takeLast]

/-- Witness for C5 (amended) at a one-message log. -/
theorem replay_window_amended_witness :
    ((manyMsgsDb.messages.filter (Db.msgMatches "u" "t")).length ≤ 200) ∧
    (∃ b turn,
      (_replay_thread_state scnC1 0 "u" "t").2 =
        OutMsg.mk 0 (Payload.relayState "t" b turn
          (min 100 (scnC1.db.messages.filter (Db.msgMatches "u" "t")).length)) ::
        (takeLast 100 (scnC1.db.messages.filter (Db.msgMatches "u" "t"))).map
          (fun r => OutMsg.mk 0 (Payload.raw r.raw_data))) :=
  ⟨by decide, replay_window_amended scnC1 0 "u" "t" (by decide)⟩

/-- C5 counterexample: with `k = 101 ≤ 200` messages retained, the claimed
`replayed = min(k, 200) = 101` fails — the hub reports 100 and replays only
100 messages (`REPLAY_LIMIT = 100`). -/
theorem replay_window_counterexample :
    (scnC1.db.messages.filter (Db.msgMatches "u" "t")).length = 101 ∧
    ((handle_message scnC1 0 (roleOf 0) "" (some (subscribeMsgFor "t")) oracleA).2.take 2) =
      [OutMsg.mk 0 (Payload.subscribed "t"),
       OutMsg.mk 0 (Payload.relayState "t" none none 100)] ∧
    (handle_message scnC1 0 (roleOf 0) "" (some (subscribeMsgFor "t")) oracleA).2.length = 102 ∧
    (100 : Nat) ≠ min 101 200 := by
  exact ⟨by decide, rfl, rfl, by decide⟩

theorem takeLast_append_self {A : Type} (n : Nat) (l : List A) :
    (l.reverse.drop n).reverse ++ takeLast n l = l := by
  unfold takeLast
  rw [← List.reverse_append, List.take_append_drop, List.reverse_reverse]

theorem mem_map_takeLast {A : Type} (f : A → Nat) (M : List A) (n : Nat) (x : Nat) :
    x ∈ (M.reverse.take n).map f ↔ x ∈ (takeLast n M).map f := by
  unfold takeLast
  rw [List.map_reverse, List.mem_reverse]

theorem filter_contains_takeLast {A : Type} (f : A → Nat) (M : List A) (n : Nat)
    (K : List Nat) (hp : (M.map f).Pairwise (· < ·))
    (hK : ∀ x, K.contains x = true ↔ x ∈ (takeLast n M).map f) :
    M.filter (fun r => K.contains (f r)) = takeLast n M := by
  have hsplit := takeLast_append_self n M
  have hp2 : ((((M.reverse.drop n).reverse ++ takeLast n M)).map f).Pairwise (· < ·) := by
    rw [hsplit]; exact hp
  rw [List.map_append, List.pairwise_append] at hp2
  obtain ⟨-, -, hcross⟩ := hp2
  have hT : (takeLast n M).filter (fun r => K.contains (f r)) = takeLast n M := by
    rw [List.filter_eq_self]
    intro r hr
    exact (hK (f r)).mpr (List.mem_map_of_mem f hr)
  have hF : ((M.reverse.drop n).reverse).filter (fun r => K.contains (f r)) = [] := by
    rw [List.filter_eq_nil]
    intro r hr hc
    obtain ⟨b, hb, hfb⟩ := List.mem_map.mp ((hK (f r)).mp hc)
    have := hcross (f r) (List.mem_map_of_mem f hr) (f b) (List.mem_map_of_mem f hb)
    omega
  conv_lhs => rw [← hsplit]
  rw [List.filter_append, hT, hF, List.nil_append]

theorem filter_of_map_upd {A : Type} (l : List A) (g : A → A) (p : A → Bool)
    (h : ∀ a, p (g a) = p a) :
    (l.map g).filter p = (l.filter p).map g := by
  induction l with
  | nil => rfl
  | cons a rest ih =>
    by_cases ha : p a = true
    · rw [List.map_cons, List.filter_cons_of_pos (by rw [h a]; exact ha),
        List.filter_cons_of_pos ha, List.map_cons, ih]
    · rw [List.map_cons, List.filter_cons_of_neg (by rw [h a]; simpa using ha),
        List.filter_cons_of_neg (by simpa using ha), ih]

theorem retention_delete_spec {A : Type} (f : A → Nat) (isMatch : A → Bool)
    (rows1 : List A) (n : Nat) (hp : (rows1.map f).Pairwise (· < ·)) :
    ((rows1.filter (fun r => !(isMatch r) ||
        (((rows1.filter isMatch).reverse.take n).map f).contains (f r))).filter isMatch
      = takeLast n (rows1.filter isMatch)) ∧
    (∀ (q : A → Bool), (∀ a, q a = true → isMatch a = false) →
      (rows1.filter (fun r => !(isMatch r) ||
        (((rows1.filter isMatch).reverse.take n).map f).contains (f r))).filter q
      = rows1.filter q) := by
  have hpM : ((rows1.filter isMatch).map f).Pairwise (· < ·) :=
    List.Pairwise.sublist (List.Sublist.map f (List.filter_sublist rows1)) hp
  have hK : ∀ x, ((((rows1.filter isMatch).reverse.take n).map f).contains x = true) ↔
      x ∈ (takeLast n (rows1.filter isMatch)).map f := by
    intro x
    rw [List.elem_iff]
    exact mem_map_takeLast f (rows1.filter isMatch) n x
  constructor
  · rw [List.filter_filter]
    have hcongr : rows1.filter (fun a => isMatch a &&
        (!(isMatch a) || (((rows1.filter isMatch).reverse.take n).map f).contains (f a)))
        = (rows1.filter isMatch).filter
            (fun a => (((rows1.filter isMatch).reverse.take n).map f).contains (f a)) := by
      rw [List.filter_filter]
      apply List.filter_congr
      intro a _
      cases hm : isMatch a <;> simp [hm]
    rw [hcongr]
    exact filter_contains_takeLast f (rows1.filter isMatch) n _ hpM hK
  · intro q hq
    rw [List.filter_filter]
    apply List.filter_congr
    intro a _
    cases hqa : q a with
    | false => simp
    | true => simp [hq a hqa]

theorem msgMatches_true_iff (u t : String) (r : Db.MsgRow) :
    Db.msgMatches u t r = true ↔ r.user_id = u ∧ r.thread_id = t := by
  simp [Db.msgMatches]

theorem append_message_retention (db : Db.DbState) (u t raw : String)
    (hp : (db.messages.map (fun r => r.id)).Pairwise (· < ·))
    (hbound : ∀ r ∈ db.messages, r.id < db.next_msg_id) :
    ((Db.append_relay_thread_message db u t raw none).messages.filter (Db.msgMatches u t)
      = takeLast 200 (db.messages.filter (Db.msgMatches u t) ++
          [{ id := db.next_msg_id, user_id := u, thread_id := t, raw_data := raw }])) ∧
    (∀ u2 t2, ¬(u2 = u ∧ t2 = t) →
      (Db.append_relay_thread_message db u t raw none).messages.filter (Db.msgMatches u2 t2)
        = db.messages.filter (Db.msgMatches u2 t2)) ∧
    ((Db.append_relay_thread_message db u t raw none).messages.map (fun r => r.id)).Pairwise (· < ·) ∧
    (∀ r ∈ (Db.append_relay_thread_message db u t raw none).messages,
      r.id < (Db.append_relay_thread_message db u t raw none).next_msg_id) := by
  set newRow : Db.MsgRow :=
    { id := db.next_msg_id, user_id := u, thread_id := t, raw_data := raw } with hnew
  have hp1 : ((db.messages ++ [newRow]).map (fun r => r.id)).Pairwise (· < ·) := by
    rw [List.map_append, List.pairwise_append]
    refine ⟨hp, by simp, ?_⟩
    intro a ha b hb
    obtain ⟨r, hr, rfl⟩ := List.mem_map.mp ha
    simp only [List.map_cons, List.map_nil, List.mem_singleton] at hb
    subst hb
    exact hbound r hr
  obtain ⟨h1, h2⟩ := retention_delete_spec (fun r => r.id) (Db.msgMatches u t)
    (db.messages ++ [newRow]) 200 hp1
  have hPm : (Db.append_relay_thread_message db u t raw none).messages
      = (db.messages ++ [newRow]).filter (fun r => !(Db.msgMatches u t r) ||
          ((((db.messages ++ [newRow]).filter (Db.msgMatches u t)).reverse.take 200).map
            (fun r => r.id)).contains r.id) := rfl
  have hmatchNew : Db.msgMatches u t newRow = true := by
    rw [msgMatches_true_iff]
    exact ⟨rfl, rfl⟩
  have hsplitMatch : (db.messages ++ [newRow]).filter (Db.msgMatches u t)
      = db.messages.filter (Db.msgMatches u t) ++ [newRow] := by
    rw [List.filter_append]
    congr 1
    rw [List.filter_cons_of_pos hmatchNew, List.filter_nil]
  refine ⟨?_, ?_, ?_, ?_⟩
  · rw [hPm]
    rw [hsplitMatch] at h1 ⊢
    exact h1
  · intro u2 t2 hne
    have hq : ∀ a, Db.msgMatches u2 t2 a = true → Db.msgMatches u t a = false := by
      intro a ha
      obtain ⟨ha1, ha2⟩ := (msgMatches_true_iff u2 t2 a).mp ha
      cases hm : Db.msgMatches u t a with
      | false => rfl
      | true =>
        obtain ⟨hb1, hb2⟩ := (msgMatches_true_iff u t a).mp hm
        exact absurd ⟨ha1 ▸ hb1.symm ▸ rfl, ha2 ▸ hb2.symm ▸ rfl⟩ hne
    rw [hPm, h2 (Db.msgMatches u2 t2) hq, List.filter_append]
    have hnewq : Db.msgMatches u2 t2 newRow = false := by
      cases hx : Db.msgMatches u2 t2 newRow with
      | false => rfl
      | true =>
        have hfalse := hq newRow hx
        rw [hmatchNew] at hfalse
        exact Bool.noConfusion hfalse
    rw [List.filter_cons_of_neg (by simp [hnewq]), List.filter_nil, List.append_nil]
  · rw [hPm]
    exact List.Pairwise.sublist
      (List.Sublist.map (fun (r : Db.MsgRow) => r.id) (List.filter_sublist _)) hp1
  · intro r hr
    rw [hPm] at hr
    have hr1 := List.mem_of_mem_filter hr
    have hnext : (Db.append_relay_thread_message db u t raw none).next_msg_id
        = db.next_msg_id + 1 := rfl
    rw [hnext]
    rcases List.mem_append.mp hr1 with h | h
    · exact Nat.lt_succ_of_lt (hbound r h)
    · simp only [List.mem_singleton] at h
      subst h
      exact Nat.lt_succ_self _

theorem artMatches_true_iff (u t : String) (r : Db.ArtRow) :
    Db.artMatches u t r = true ↔ r.user_id = u ∧ r.thread_id = t := by
  simp [Db.artMatches]

theorem artKeyMatches_true_iff (u t item : String) (r : Db.ArtRow) :
    Db.artKeyMatches u t item r = true ↔
      r.user_id = u ∧ r.thread_id = t ∧ r.item_id = item := by
  simp [Db.artKeyMatches, and_assoc]

theorem upsert_artifact_retention (db : Db.DbState) (u t : String)
    (turn_id anchor_id : Option String) (item_id artifact_type item_type : String)
    (summary : Option String) (payload_json : String)
    (hp : (db.artifacts.map (fun r => r.id)).Pairwise (· < ·))
    (hbound : ∀ r ∈ db.artifacts, r.id < db.next_art_id) :
    ((Db.upsert_relay_artifact db u t turn_id anchor_id item_id artifact_type item_type
        summary payload_json none).artifacts.filter (Db.artMatches u t)
      = takeLast 200
          ((if db.artifacts.any (Db.artKeyMatches u t item_id) then
              db.artifacts.map (fun r =>
                if Db.artKeyMatches u t item_id r then
                  { r with turn_id := turn_id, anchor_id := anchor_id,
                           artifact_type := artifact_type, item_type := item_type,
                           summary := summary, payload_json := payload_json }
                else r)
            else
              db.artifacts ++
                [{ id := db.next_art_id, user_id := u, thread_id := t,
                   turn_id := turn_id, anchor_id := anchor_id, item_id := item_id,
                   artifact_type := artifact_type, item_type := item_type,
                   summary := summary, payload_json := payload_json }]).filter
            (Db.artMatches u t))) ∧
    (∀ u2 t2, ¬(u2 = u ∧ t2 = t) →
      (Db.upsert_relay_artifact db u t turn_id anchor_id item_id artifact_type item_type
          summary payload_json none).artifacts.filter (Db.artMatches u2 t2)
        = db.artifacts.filter (Db.artMatches u2 t2)) ∧
    ((Db.upsert_relay_artifact db u t turn_id anchor_id item_id artifact_type item_type
        summary payload_json none).artifacts.map (fun r => r.id)).Pairwise (· < ·) ∧
    (∀ r ∈ (Db.upsert_relay_artifact db u t turn_id anchor_id item_id artifact_type
        item_type summary payload_json none).artifacts,
      r.id < (Db.upsert_relay_artifact db u t turn_id anchor_id item_id artifact_type
        item_type summary payload_json none).next_art_id) := by
  set upd := fun (r : Db.ArtRow) =>
    if Db.artKeyMatches u t item_id r then
      { r with turn_id := turn_id, anchor_id := anchor_id,
               artifact_type := artifact_type, item_type := item_type,
               summary := summary, payload_json := payload_json }
    else r with hupd
  set newA : Db.ArtRow :=
    { id := db.next_art_id, user_id := u, thread_id := t,
      turn_id := turn_id, anchor_id := anchor_id, item_id := item_id,
      artifact_type := artifact_type, item_type := item_type,
      summary := summary, payload_json := payload_json } with hnewA
  set rows1 := if db.artifacts.any (Db.artKeyMatches u t item_id) then
      db.artifacts.map upd else db.artifacts ++ [newA] with hrows1
  have hupd_id : ∀ r : Db.ArtRow, (upd r).id = r.id := by
    intro r
    rw [hupd]
    by_cases hkr : Db.artKeyMatches u t item_id r = true
    · simp only [if_pos hkr]
    · simp only [if_neg hkr]
  have hupd_user : ∀ r : Db.ArtRow, (upd r).user_id = r.user_id := by
    intro r
    rw [hupd]
    by_cases hkr : Db.artKeyMatches u t item_id r = true
    · simp only [if_pos hkr]
    · simp only [if_neg hkr]
  have hupd_thread : ∀ r : Db.ArtRow, (upd r).thread_id = r.thread_id := by
    intro r
    rw [hupd]
    by_cases hkr : Db.artKeyMatches u t item_id r = true
    · simp only [if_pos hkr]
    · simp only [if_neg hkr]
  have hmatch_upd : ∀ (u2 t2 : String) (r : Db.ArtRow),
      Db.artMatches u2 t2 (upd r) = Db.artMatches u2 t2 r := by
    intro u2 t2 r
    unfold Db.artMatches
    rw [hupd_user, hupd_thread]
  have hp1 : (rows1.map (fun r => r.id)).Pairwise (· < ·) := by
    rw [hrows1]
    by_cases hex : db.artifacts.any (Db.artKeyMatches u t item_id) = true
    · rw [if_pos hex, List.map_map]
      have : ((fun r : Db.ArtRow => r.id) ∘ upd) = fun r : Db.ArtRow => r.id := by
        funext r
        exact hupd_id r
      rw [this]
      exact hp
    · rw [if_neg hex, List.map_append, List.pairwise_append]
      refine ⟨hp, by simp, ?_⟩
      intro a ha b hb
      obtain ⟨r, hr, rfl⟩ := List.mem_map.mp ha
      simp only [List.map_cons, List.map_nil, List.mem_singleton] at hb
      subst hb
      exact hbound r hr
  obtain ⟨h1, h2⟩ := retention_delete_spec (fun r => r.id) (Db.artMatches u t) rows1 200 hp1
  have hQm : (Db.upsert_relay_artifact db u t turn_id anchor_id item_id artifact_type
      item_type summary payload_json none).artifacts
      = rows1.filter (fun r => !(Db.artMatches u t r) ||
          (((rows1.filter (Db.artMatches u t)).reverse.take 200).map
            (fun r => r.id)).contains r.id) := rfl
  refine ⟨?_, ?_, ?_, ?_⟩
  · rw [hQm]
    exact h1
  · intro u2 t2 hne
    have hq : ∀ a : Db.ArtRow, Db.artMatches u2 t2 a = true → Db.artMatches u t a = false := by
      intro a ha
      obtain ⟨ha1, ha2⟩ := (artMatches_true_iff u2 t2 a).mp ha
      cases hm : Db.artMatches u t a with
      | false => rfl
      | true =>
        obtain ⟨hb1, hb2⟩ := (artMatches_true_iff u t a).mp hm
        exact absurd ⟨ha1 ▸ hb1.symm ▸ rfl, ha2 ▸ hb2.symm ▸ rfl⟩ hne
    rw [hQm, h2 (Db.artMatches u2 t2) hq, hrows1]
    by_cases hex : db.artifacts.any (Db.artKeyMatches u t item_id) = true
    · rw [if_pos hex, filter_of_map_upd _ upd _ (fun a => hmatch_upd u2 t2 a)]
      conv_rhs => rw [← List.map_id (List.filter (Db.artMatches u2 t2) db.artifacts)]
      apply List.map_congr_left
      intro r hr
      simp only [id]
      obtain ⟨hrmem, hrq⟩ := List.mem_filter.mp hr
      rw [hupd]
      have hnk : Db.artKeyMatches u t item_id r = false := by
        cases hk : Db.artKeyMatches u t item_id r with
        | false => rfl
        | true =>
          obtain ⟨hk1, hk2, _⟩ := (artKeyMatches_true_iff u t item_id r).mp hk
          obtain ⟨hq1, hq2⟩ := (artMatches_true_iff u2 t2 r).mp hrq
          exact absurd ⟨hq1 ▸ hk1.symm ▸ rfl, hq2 ▸ hk2.symm ▸ rfl⟩ hne
      simp only [hnk]
      simp
    · rw [if_neg hex, List.filter_append]
      have hnewq : Db.artMatches u2 t2 newA = false := by
        cases hx : Db.artMatches u2 t2 newA with
        | false => rfl
        | true =>
          obtain ⟨hx1, hx2⟩ := (artMatches_true_iff u2 t2 newA).mp hx
          exact absurd ⟨hx1.symm, hx2.symm⟩ hne
      rw [List.filter_cons_of_neg (by simp [hnewq]), List.filter_nil, List.append_nil]
  · rw [hQm]
    exact List.Pairwise.sublist
      (List.Sublist.map (fun (r : Db.ArtRow) => r.id) (List.filter_sublist _)) hp1
  · intro r hr
    rw [hQm] at hr
    have hr1 := List.mem_of_mem_filter hr
    have hnext : (Db.upsert_relay_artifact db u t turn_id anchor_id item_id artifact_type
        item_type summary payload_json none).next_art_id
        = if db.artifacts.any (Db.artKeyMatches u t item_id) then db.next_art_id
          else db.next_art_id + 1 := rfl
    rw [hnext]
    rw [hrows1] at hr1
    by_cases hex : db.artifacts.any (Db.artKeyMatches u t item_id) = true
    · rw [if_pos hex] at hr1 ⊢
      obtain ⟨r0, hr0, rfl⟩ := List.mem_map.mp hr1
      rw [hupd_id]
      exact hbound r0 hr0
    · rw [if_neg hex] at hr1 ⊢
      rcases List.mem_append.mp hr1 with h | h
      · exact Nat.lt_succ_of_lt (hbound r h)
      · simp only [List.mem_singleton] at h
        subst h
        exact Nat.lt_succ_self _

/-- C8: after a completed `append_relay_thread_message` or
`upsert_relay_artifact`, every `(user_id, thread_id)` keeps at most 200
rows in the message log and in the artifact table, and the retained rows
are exactly those with the 200 largest (newest) insertion ids of the
post-insert table — the oldest rows are evicted first. Hypotheses state
that ids increase along the table in insertion order, stay below the
`AUTOINCREMENT` counter, and that the bound held before the operation;
all are established by the operations themselves from an empty database. -/
theorem storage_retention_invariant
    (db : Db.DbState) (u t raw : String)
    (turn_id anchor_id : Option String) (item_id artifact_type item_type : String)
    (summary : Option String) (payload_json : String)
    (hmp : (db.messages.map (fun r => r.id)).Pairwise (· < ·))
    (hmb : ∀ r ∈ db.messages, r.id < db.next_msg_id)
    (hap : (db.artifacts.map (fun r => r.id)).Pairwise (· < ·))
    (hab : ∀ r ∈ db.artifacts, r.id < db.next_art_id)
    (hmok : ∀ u2 t2, (db.messages.filter (Db.msgMatches u2 t2)).length ≤ 200)
    (haok : ∀ u2 t2, (db.artifacts.filter (Db.artMatches u2 t2)).length ≤ 200) :
    (∀ u2 t2, ((Db.append_relay_thread_message db u t raw none).messages.filter
        (Db.msgMatches u2 t2)).length ≤ 200) ∧
    ((Db.append_relay_thread_message db u t raw none).messages.filter (Db.msgMatches u t)
      = takeLast 200 (db.messages.filter (Db.msgMatches u t) ++
          [{ id := db.next_msg_id, user_id := u, thread_id := t, raw_data := raw }])) ∧
    (∀ u2 t2, ((Db.upsert_relay_artifact db u t turn_id anchor_id item_id artifact_type
        item_type summary payload_json none).artifacts.filter
        (Db.artMatches u2 t2)).length ≤ 200) ∧
    ((Db.upsert_relay_artifact db u t turn_id anchor_id item_id artifact_type item_type
        summary payload_json none).artifacts.filter (Db.artMatches u t)
      = takeLast 200
          ((if db.artifacts.any (Db.artKeyMatches u t item_id) then
              db.artifacts.map (fun r =>
                if Db.artKeyMatches u t item_id r then
                  { r with turn_id := turn_id, anchor_id := anchor_id,
                           artifact_type := artifact_type, item_type := item_type,
                           summary := summary, payload_json := payload_json }
                else r)
            else
              db.artifacts ++
                [{ id := db.next_art_id, user_id := u, thread_id := t,
                   turn_id := turn_id, anchor_id := anchor_id, item_id := item_id,
                   artifact_type := artifact_type, item_type := item_type,
                   summary := summary, payload_json := payload_json }]).filter
            (Db.artMatches u t))) := by
  obtain ⟨hm1, hm2, -, -⟩ := append_message_retention db u t raw hmp hmb
  obtain ⟨ha1, ha2, -, -⟩ := upsert_artifact_retention db u t turn_id anchor_id item_id
    artifact_type item_type summary payload_json hap hab
  refine ⟨?_, hm1, ?_, ha1⟩
  · intro u2 t2
    by_cases heq : u2 = u ∧ t2 = t
    · obtain ⟨rfl, rfl⟩ := heq
      rw [hm1, length_takeLast]
      exact Nat.min_le_left _ _
    · rw [hm2 u2 t2 heq]
      exact hmok u2 t2
  · intro u2 t2
    by_cases heq : u2 = u ∧ t2 = t
    · obtain ⟨rfl, rfl⟩ := heq
      rw [ha1, length_takeLast]
      exact Nat.min_le_left _ _
    · rw [ha2 u2 t2 heq]
      exact haok u2 t2

/-- Witness for C8: one append and one upsert against the empty database
respect the 200-row bound. -/
theorem storage_retention_invariant_witness :
    ((Db.append_relay_thread_message
        { thread_state := [], messages := [], next_msg_id := 1, artifacts := [], next_art_id := 1 }
        "u" "t" "m" none).messages.filter (Db.msgMatches "u" "t")).length ≤ 200 ∧
    ((Db.upsert_relay_artifact
        { thread_state := [], messages := [], next_msg_id := 1, artifacts := [], next_art_id := 1 }
        "u" "t" none none "item-1" "command" "commandExecution" none "p" none).artifacts.filter
      (Db.artMatches "u" "t")).length ≤ 200 := by
  have h := storage_retention_invariant
    { thread_state := [], messages := [], next_msg_id := 1, artifacts := [], next_art_id := 1 }
    "u" "t" "m" none none "item-1" "command" "commandExecution" none "p"
    (by simp) (by simp) (by simp) (by simp)
    (fun u2 t2 => by simp) (fun u2 t2 => by simp)
  exact ⟨h.1 "u" "t", h.2.2.1 "u" "t"⟩

/-- C6: protocol id extraction. The claim (and the repository tests in
`tests/test_protocol.py`) require string candidates to be returned trimmed
and boolean candidates to be skipped; the code returns strings untrimmed
and stringifies booleans (Python `isinstance(True, int)` holds), so the
code contradicts its own test suite. This theorem evaluates the code at
the failing inputs. -/
theorem extract_id_divergence :
    Relay.extract_thread_id
        [("params", Relay.JValue.obj [("threadId", Relay.JValue.str "  thread-1  ")])]
      = some "  thread-1  " ∧
    some "  thread-1  " ≠ some "thread-1" ∧
    Relay.extract_thread_id
        [("params", Relay.JValue.obj [("threadId", Relay.JValue.bool true)]),
         ("result", Relay.JValue.obj [("threadId", Relay.JValue.str "thread-from-result")])]
      = some "True" ∧
    Relay.extract_anchor_id
        [("result", Relay.JValue.obj [("anchorId", Relay.JValue.str "  anchor-a\t")])]
      = some "  anchor-a\t" := by
  refine ⟨by decide, by decide, by decide, by decide⟩

theorem message_id_key_none (msg : Option Relay.Jobj)
    (h : _message_id_key (_extract_message_id msg) = none) :
    _extract_message_id msg = none := by
  rcases msg with _ | m
  · rfl
  · rcases hid : Relay.jget m "id" with _ | v
    · simp [_extract_message_id, hid]
    · rcases v with s | n | b | _ | fs | es
      · by_cases hs : Relay.pyStrip s ≠ ""
        · exfalso
          have hx : _extract_message_id (some m) = some (Relay.JValue.str s) := by
            simp [_extract_message_id, hid, hs]
          rw [hx] at h
          simp [_message_id_key] at h
        · have hs2 := not_not.mp hs
          simp [_extract_message_id, hid, hs2]
      · exfalso
        have hx : _extract_message_id (some m) = some (Relay.JValue.int n) := by
          simp [_extract_message_id, hid]
        rw [hx] at h
        simp [_message_id_key] at h
      · exfalso
        have hx : _extract_message_id (some m) = some (Relay.JValue.bool b) := by
          simp [_extract_message_id, hid]
        rw [hx] at h
        simp [_message_id_key] at h
      · simp [_extract_message_id, hid]
      · simp [_extract_message_id, hid]
      · simp [_extract_message_id, hid]

/-- C7 (amended): when a client frame fails target resolution, the hub
sends exactly one error frame
`{"id": <id>, "error": {"code": -32001, "message": …, "data": {"code": <failure>}}}`
back to the originating socket iff the frame carried a usable id — a
string with non-empty strip (echoed verbatim), or an `int`, which in
Python includes booleans — and sends nothing at all otherwise; no frame
goes to any other peer. The `Payload.rpcError` constructor stands for the
fixed `-32001` error shape of `_send_rpc_error`. -/
theorem routing_error_reply (st : HubState) (socket : Socket) (u : UserId) (raw : String)
    (msg : Option Relay.Jobj) (fresh : String) (f : RouteFailure)
    (hmiss : ∀ key, _message_id_key (_extract_message_id msg) = some key →
      alookup st.pending_anchor_requests (socket, key) = none)
    (hfail : (_resolve_client_target_locked st u (extractThreadIdHub msg)
        (msg.bind Relay.extract_anchor_id)).2 = (none, some f)) :
    ((_route_message st socket "client" u raw msg fresh).2 =
      match _extract_message_id msg with
      | some rid => [OutMsg.mk socket (Payload.rpcError rid f.message f.code)]
      | none => []) ∧
    (∀ m : Relay.Jobj, (_extract_message_id (some m)).isSome ↔
      ((∃ s, Relay.jget m "id" = some (Relay.JValue.str s) ∧ Relay.pyStrip s ≠ "") ∨
       (∃ n, Relay.jget m "id" = some (Relay.JValue.int n)) ∨
       (∃ b, Relay.jget m "id" = some (Relay.JValue.bool b)))) := by
  refine ⟨?_, ?_⟩
  · rcases msg with _ | m
    · have hfail2 : (_resolve_client_target_locked st u none none).2 = (none, some f) :=
        hfail
      have htgt : (_resolve_client_target_locked st u none none).2.1 = none := by rw [hfail2]
      have hflr : (_resolve_client_target_locked st u none none).2.2 = some f := by rw [hfail2]
      simp only [_route_message, _extract_message_id, _message_id_key, extractThreadIdHub]
      simp only [htgt, hflr]
      simp [_send_rpc_error]
    · have hfail2 : (_resolve_client_target_locked st u (extractThreadIdHub (some m))
          (Relay.extract_anchor_id m)).2 = (none, some f) := hfail
      have htgt : (_resolve_client_target_locked st u (extractThreadIdHub (some m))
          (Relay.extract_anchor_id m)).2.1 = none := by rw [hfail2]
      have hflr : (_resolve_client_target_locked st u (extractThreadIdHub (some m))
          (Relay.extract_anchor_id m)).2.2 = some f := by rw [hfail2]
      simp only [_route_message]
      rw [if_pos (by rfl : ("client" == "client") = true)]
      rcases hkey : _message_id_key (_extract_message_id (some m)) with _ | key
      · have hid : _extract_message_id (some m) = none := message_id_key_none (some m) hkey
        simp only [hkey, hid, Option.isSome_none, Bool.false_and, htgt, hflr]
        simp [_send_rpc_error, hid]
      · have hm := hmiss key hkey
        simp only [hkey, Option.isSome_some, Bool.true_and, hm, htgt, hflr]
        cases hhm : (match Relay.jget m "method" with
          | some (Relay.JValue.str _) => true
          | _ => false) with
        | false =>
          simp only [hhm, Bool.not_false, hm, htgt, hflr]
          rcases hid : _extract_message_id (some m) with _ | rid <;>
            simp [_send_rpc_error, hid, htgt, hflr]
        | true =>
          simp only [hhm, Bool.not_true, hm, htgt, hflr]
          rcases hid : _extract_message_id (some m) with _ | rid <;>
            simp [_send_rpc_error, hid, htgt, hflr]
  · intro m
    rcases hid : Relay.jget m "id" with _ | v
    · simp [_extract_message_id, hid]
    · rcases v with s | n | b | _ | fields | elems
      · by_cases hs : Relay.pyStrip s ≠ ""
        · simp [_extract_message_id, hid, hs]
        · have hs2 := not_not.mp hs
          simp [_extract_message_id, hid, hs2]
      · simp [_extract_message_id, hid]
      · simp [_extract_message_id, hid]
      · simp [_extract_message_id, hid]
      · simp [_extract_message_id, hid]
      · simp [_extract_message_id, hid]

/-- Witness for C7 (amended): a client request with integer id 9 and no
connected anchors gets exactly the `-32001 / anchor_offline` reply. -/
theorem routing_error_reply_witness :
    (_route_message scnB1 0 "client" "u" "" (some
      [("id", Relay.JValue.int 9), ("method", Relay.JValue.str "m")]) "x").2 =
      [OutMsg.mk 0 (Payload.rpcError (Relay.JValue.int 9)
        "No devices are connected." "anchor_offline")] :=
  (routing_error_reply scnB1 0 "u" ""
    (some [("id", Relay.JValue.int 9), ("method", Relay.JValue.str "m")]) "x"
    { code := "anchor_offline", message := "No devices are connected." }
    (fun key h => rfl) rfl).1

/-- C7 counterexample: in the reachable state `scnB1` (one registered
client, no anchors), the client frame `{"id": " ", "method": "thread/start"}`
carries a non-empty string id and its resolution fails with
`anchor_offline`, yet the hub sends nothing at all — the claim demands
exactly one error reply for every non-empty string id. -/
theorem routing_error_counterexample :
    Reachable scnB1 ∧
    userOf scnB1 0 = some "u" ∧
    Relay.jget wsIdFrame "id" = some (Relay.JValue.str " ") ∧
    (" " : String) ≠ "" ∧
    ((_resolve_client_target_locked scnB1 "u" none none).2
      = (none, some { code := "anchor_offline", message := "No devices are connected." })) ∧
    (handle_message scnB1 0 (roleOf 0) "" (some wsIdFrame) oracleA).2 = [] := by
  refine ⟨?_, by decide, rfl, by decide, rfl, rfl⟩
  exact Relation.ReflTransGen.single (Step.register initState 0 "u" none (by decide))

/-- A Python `set.add` never empties the set. -/
theorem sadd_ne_nil {A : Type} [DecidableEq A] (l : List A) (a : A) : sadd l a ≠ [] := by
  unfold sadd
  split
  · intro hnil; subst hnil; simp_all
  · simp

/-- The frames the `_handle_multi_dispatch` target loop prepares: one send
per requested anchor that has a connected socket, carrying the cloned
template with its id set to `mdSubId`. -/
theorem mdStep_foldl_sends (st : HubState) (u : UserId) (socket : Socket)
    (template : Relay.Jobj) (request_id : String) (hexFor : AnchorId → String)
    (requested : List AnchorId)
    (acc : MultiDispatchAggregate × List OutMsg ×
      List ((Socket × String) × ((Socket × String) × AnchorId))) :
    (requested.foldl (mdStep st u socket template request_id hexFor) acc).2.1
      = acc.2.1 ++ requested.filterMap (fun aid =>
          (alookup st.anchor_id_to_socket (u, aid)).map (fun target =>
            OutMsg.mk target (Payload.jsonFrame
              (aset template "id" (Relay.JValue.str (mdSubId template request_id aid hexFor)))))) := by
  induction requested generalizing acc with
  | nil => simp
  | cons a rest ih =>
    rcases h : alookup st.anchor_id_to_socket (u, a) with _ | t <;>
      simp [ih, mdStep, h, mdSubId, List.append_assoc]

/-- The `(target, sub_id) → (dispatch_key, anchor_id)` bindings the
`_handle_multi_dispatch` target loop queues for the secondary pending map. -/
theorem mdStep_foldl_responses (st : HubState) (u : UserId) (socket : Socket)
    (template : Relay.Jobj) (request_id : String) (hexFor : AnchorId → String)
    (requested : List AnchorId)
    (acc : MultiDispatchAggregate × List OutMsg ×
      List ((Socket × String) × ((Socket × String) × AnchorId))) :
    (requested.foldl (mdStep st u socket template request_id hexFor) acc).2.2
      = acc.2.2 ++ requested.filterMap (fun aid =>
          (alookup st.anchor_id_to_socket (u, aid)).map (fun target =>
            ((target, mdSubId template request_id aid hexFor), ((socket, request_id), aid)))) := by
  induction requested generalizing acc with
  | nil => simp
  | cons a rest ih =>
    rcases h : alookup st.anchor_id_to_socket (u, a) with _ | t <;>
      simp [ih, mdStep, h, mdSubId, List.append_assoc]

/-- If the target loop ends with no pending anchors, it started with none
and every requested anchor was unreachable. -/
theorem mdStep_foldl_pending_nil (st : HubState) (u : UserId) (socket : Socket)
    (template : Relay.Jobj) (request_id : String) (hexFor : AnchorId → String)
    (requested : List AnchorId)
    (acc : MultiDispatchAggregate × List OutMsg ×
      List ((Socket × String) × ((Socket × String) × AnchorId)))
    (h : (requested.foldl (mdStep st u socket template request_id hexFor)
      acc).1.pending_anchor_ids = []) :
    acc.1.pending_anchor_ids = [] ∧
      ∀ aid ∈ requested, alookup st.anchor_id_to_socket (u, aid) = none := by
  induction requested generalizing acc with
  | nil => exact ⟨h, by simp⟩
  | cons a rest ih =>
    rw [List.foldl_cons] at h
    rcases hl : alookup st.anchor_id_to_socket (u, a) with _ | t
    · obtain ⟨h1, h2⟩ := ih _ h
      refine ⟨?_, ?_⟩
      · simpa [mdStep, hl] using h1
      · intro aid hm
        rcases List.mem_cons.mp hm with rfl | hm'
        · exact hl
        · exact h2 aid hm'
    · obtain ⟨h1, _⟩ := ih _ h
      have : sadd acc.1.pending_anchor_ids a = [] := by simpa [mdStep, hl] using h1
      exact absurd this (sadd_ne_nil _ _)

/-- Two distinct anchor ids get distinct inner request ids: the 8-hex
suffixes have equal length, so equal sub_ids would force the anchor-id
segments to coincide. -/
theorem mdSubId_injective (template : Relay.Jobj) (request_id : String)
    (hexFor : AnchorId → String) (a b : AnchorId)
    (ha : (hexFor a).length = 8) (hb : (hexFor b).length = 8) (hne : a ≠ b) :
    mdSubId template request_id a hexFor ≠ mdSubId template request_id b hexFor := by
  intro heq
  have hd := congrArg String.data heq
  simp only [mdSubId, String.data_append, List.append_assoc] at hd
  have hd2 := List.append_cancel_left hd
  have hd3 := List.append_cancel_left hd2
  have hlen : a.data.length = b.data.length := by
    have := congrArg List.length hd3
    simp only [List.length_append] at this
    have hla : (hexFor a).data.length = 8 := ha
    have hlb : (hexFor b).data.length = 8 := hb
    omega
  have := (List.append_inj hd3 hlen).1
  exact hne (String.ext this)

/-- Folding `d[k] = v` assignments whose keys all avoid `k` leaves the
binding of `k` unchanged. -/
theorem alookup_foldl_aset_not_mem {K V : Type} [DecidableEq K]
    (ps : List (K × V)) (l : List (K × V)) (k : K) (h : ∀ p ∈ ps, p.1 ≠ k) :
    alookup (ps.foldl (fun acc p => aset acc p.1 p.2) l) k = alookup l k := by
  induction ps generalizing l with
  | nil => rfl
  | cons p rest ih =>
    rw [List.foldl_cons, ih _ (fun q hq => h q (List.mem_cons_of_mem _ hq)),
      alookup_aset_ne _ _ _ _ (Ne.symm (h p (List.mem_cons_self _ _)))]

/-- Folding `d[k] = v` assignments with pairwise-distinct keys makes each
assigned key readable back. -/
theorem alookup_foldl_aset_mem {K V : Type} [DecidableEq K]
    (ps : List (K × V)) (l : List (K × V)) (k : K) (v : V)
    (hmem : (k, v) ∈ ps) (hnd : (ps.map Prod.fst).Nodup) :
    alookup (ps.foldl (fun acc p => aset acc p.1 p.2) l) k = some v := by
  induction ps generalizing l with
  | nil => cases hmem
  | cons p rest ih =>
    simp only [List.map_cons, List.nodup_cons] at hnd
    rw [List.foldl_cons]
    rcases List.mem_cons.mp hmem with heq | hmem'
    · subst heq
      have hk : k ∉ rest.map Prod.fst := hnd.1
      rw [alookup_foldl_aset_not_mem rest (aset l k v) k
        (fun q hq hqk => hk (hqk ▸ List.mem_map_of_mem Prod.fst hq)),
        alookup_aset_self]
    · exact ih _ hmem' hnd.2

/-- C9 (amended): for a multi-dispatch whose template parses and that
reaches at least one requested anchor, the hub sends exactly one cloned
template per reachable requested anchor (in the de-duplicated request
order), whose id is `mdSubId` — the template's own coercible id, falling
back to the outer request id, then the anchor id, then the fresh 8-hex
suffix, colon-separated; each send is recorded in the secondary pending
map under `(anchor_socket, inner_id)` with value
`((requester_socket, outer_request_id), anchor_id)`; and inner ids of
distinct anchors are pairwise distinct whenever the hex suffixes have the
drawn length 8. -/
theorem multi_dispatch_inner_ids (st : HubState) (socket : Socket) (u : UserId)
    (msg : Relay.Jobj) (freshReq : String) (hexFor : AnchorId → String)
    (template : Relay.Jobj) (request_id : String) (requested : List AnchorId)
    (htpl : _extract_multi_dispatch_template msg = some template)
    (hreq : request_id = ((_coerce_request_key (Relay.jget msg "requestId")).orElse
      (fun _ => _coerce_request_key (Relay.jget msg "id"))).getD freshReq)
    (hreqd : requested = (if _extract_multi_dispatch_anchor_ids msg = [] then
        (st.anchor_id_to_socket.filter
          (fun (p : (UserId × AnchorId) × Socket) => p.1.1 == u)).map
          (fun (p : (UserId × AnchorId) × Socket) => p.1.2)
      else _extract_multi_dispatch_anchor_ids msg))
    (hpend : ∃ aid ∈ requested, (alookup st.anchor_id_to_socket (u, aid)).isSome = true)
    (hhex : ∀ a, (hexFor a).length = 8)
    (hnodup : requested.Nodup) :
    ((_handle_multi_dispatch st socket u msg freshReq hexFor).2 =
      requested.filterMap (fun aid =>
        (alookup st.anchor_id_to_socket (u, aid)).map (fun target =>
          OutMsg.mk target (Payload.jsonFrame
            (aset template "id" (Relay.JValue.str (mdSubId template request_id aid hexFor)))))))
    ∧ (∀ aid ∈ requested, ∀ target,
        alookup st.anchor_id_to_socket (u, aid) = some target →
        alookup (_handle_multi_dispatch st socket u msg freshReq
            hexFor).1.pending_multi_dispatch_responses
          (target, mdSubId template request_id aid hexFor)
          = some ((socket, request_id), aid))
    ∧ (∀ a b : AnchorId, a ≠ b →
        mdSubId template request_id a hexFor ≠ mdSubId template request_id b hexFor) := by
  have hinj : ∀ a b : AnchorId, a ≠ b →
      mdSubId template request_id a hexFor ≠ mdSubId template request_id b hexFor :=
    fun a b hne => mdSubId_injective template request_id hexFor a b (hhex a) (hhex b) hne
  have hne : (requested.foldl (mdStep st u socket template request_id hexFor)
      ({ requester_socket := socket, request_id := request_id,
         ordered_anchor_ids := requested, results := [], pending_anchor_ids := [] }, [],
         [])).1.pending_anchor_ids ≠ [] := by
    intro hnil
    obtain ⟨_, hall⟩ := mdStep_foldl_pending_nil st u socket template request_id hexFor
      requested _ hnil
    obtain ⟨aid, hmem, hsome⟩ := hpend
    rw [hall aid hmem] at hsome
    cases hsome
  refine ⟨?_, ?_, hinj⟩
  · simp only [_handle_multi_dispatch, htpl, ← hreq, ← hreqd]
    rw [if_pos hne]
    rw [mdStep_foldl_sends]
    simp
  · intro aid hmem target htgt
    simp only [_handle_multi_dispatch, htpl, ← hreq, ← hreqd]
    rw [if_pos hne]
    simp only []
    rw [mdStep_foldl_responses]
    simp only [List.nil_append]
    apply alookup_foldl_aset_mem
    · exact List.mem_filterMap.mpr ⟨aid, hmem, by rw [htgt]; rfl⟩
    · rw [List.map_filterMap]
      apply List.Nodup.filterMap _ hnodup
      intro a b c hca hcb
      simp only [Option.map_map, Option.mem_def, Option.map_eq_some', Function.comp] at hca hcb
      obtain ⟨ta, hta, hca⟩ := hca
      obtain ⟨tb, htb, hcb⟩ := hcb
      by_contra hab
      exact hinj a b hab (by
        have := hca.trans hcb.symm
        simpa using congrArg Prod.snd this)

/-- Witness for C9 (amended): in `scnA2c` the dispatch of
`mdMsgWithInnerId` sends anchor socket 1 the cloned template with inner id
`77:A:00000000` and records it in the secondary pending map. -/
theorem multi_dispatch_inner_ids_witness :
    (_handle_multi_dispatch scnA2c 0 "u" mdMsgWithInnerId "cafebabe" (fun _ => "00000000")).2
      = [OutMsg.mk 1 (Payload.jsonFrame
          [("id", Relay.JValue.str "77:A:00000000"), ("method", Relay.JValue.str "anchor.echo")])] ∧
    alookup (_handle_multi_dispatch scnA2c 0 "u" mdMsgWithInnerId "cafebabe"
        (fun _ => "00000000")).1.pending_multi_dispatch_responses (1, "77:A:00000000")
      = some ((0, "md-1"), "A") := by
  obtain ⟨h1, h2, h3⟩ := multi_dispatch_inner_ids scnA2c 0 "u" mdMsgWithInnerId "cafebabe"
    (fun _ => "00000000")
    [("id", Relay.JValue.int 77), ("method", Relay.JValue.str "anchor.echo")]
    "md-1" ["A"] rfl rfl rfl ⟨"A", by decide, rfl⟩ (fun a => rfl) (by decide)
  exact ⟨h1.trans rfl, h2 "A" (by decide) 1 rfl⟩

/-- C9 counterexample: in the reachable state `scnA2c` the multi-dispatch
`mdMsgWithInnerId` (outer request id `md-1`, inner template id `77`) sends
its target the inner id `77:A:00000000`, which matches no string of the
claimed shape `md-1:A:<hex8>` — the code prefixes the template's own id,
not the outer request id. -/
theorem multi_dispatch_inner_id_counterexample :
    Reachable scnA2c ∧
    (handle_message scnA2c 0 (roleOf 0) "" (some mdMsgWithInnerId) oracleA).2
      = [OutMsg.mk 1 (Payload.jsonFrame
          [("id", Relay.JValue.str "77:A:00000000"), ("method", Relay.JValue.str "anchor.echo")])] ∧
    ∀ h : String, ("77:A:00000000" : String) ≠ "md-1" ++ ":" ++ "A" ++ ":" ++ h := by
  refine ⟨?_, rfl, ?_⟩
  · exact Relation.ReflTransGen.tail (Relation.ReflTransGen.tail
      (Relation.ReflTransGen.single (Step.register initState 1 "u" none (by decide)))
      (Step.handle scnA1 1 "" (some (helloMsgFor "A")) oracleA))
      (Step.register scnA2 0 "u" none (by decide))
  · intro h heq
    rw [show ((("md-1" ++ ":") ++ "A") ++ ":" : String) ++ h = "md-1:A:" ++ h from rfl] at heq
    have hd := congrArg String.data heq
    rw [String.data_append] at hd
    have hh : some '7' = (("md-1:A:" : String).data ++ h.data).head? := by
      rw [← hd]; rfl
    rw [show ("md-1:A:" : String).data
      = 'm' :: 'd' :: '-' :: '1' :: ':' :: 'A' :: ':' :: [] from rfl] at hh
    simp at hh

/-- Reading a key back from a fold of constant-valued `d[k] = e`
assignments: keys in the fold list give `e`, others are untouched. -/
theorem alookup_foldl_aset_const {K V : Type} [DecidableEq K]
    (l : List K) (r : List (K × V)) (e : V) (k : K) :
    alookup (l.foldl (fun acc a => aset acc a e) r) k
      = if k ∈ l then some e else alookup r k := by
  induction l generalizing r with
  | nil => simp
  | cons a rest ih =>
    rw [List.foldl_cons, ih]
    by_cases hm : k ∈ rest
    · simp [hm]
    · by_cases hk : k = a
      · subst hk
        simp [hm, alookup_aset_self]
      · simp [hm, hk, alookup_aset_ne _ _ _ _ hk]

/-- The `_handle_multi_dispatch` target loop never touches the aggregate's
requester socket, outer request id or ordered anchor-id list. -/
theorem mdStep_foldl_fields (st : HubState) (u : UserId) (socket : Socket)
    (template : Relay.Jobj) (request_id : String) (hexFor : AnchorId → String)
    (requested : List AnchorId)
    (acc : MultiDispatchAggregate × List OutMsg ×
      List ((Socket × String) × ((Socket × String) × AnchorId))) :
    (requested.foldl (mdStep st u socket template request_id hexFor) acc).1.requester_socket
        = acc.1.requester_socket ∧
    (requested.foldl (mdStep st u socket template request_id hexFor) acc).1.request_id
        = acc.1.request_id ∧
    (requested.foldl (mdStep st u socket template request_id hexFor) acc).1.ordered_anchor_ids
        = acc.1.ordered_anchor_ids := by
  induction requested generalizing acc with
  | nil => exact ⟨rfl, rfl, rfl⟩
  | cons a rest ih =>
    rcases h : alookup st.anchor_id_to_socket (u, a) with _ | t <;>
      simpa [mdStep, h] using ih (mdStep st u socket template request_id hexFor acc a)

/-- The aggregate's result slots after the target loop: exactly the
unreachable requested anchors were written, each with the
`anchor_not_found` entry. -/
theorem mdStep_foldl_results (st : HubState) (u : UserId) (socket : Socket)
    (template : Relay.Jobj) (request_id : String) (hexFor : AnchorId → String)
    (requested : List AnchorId)
    (acc : MultiDispatchAggregate × List OutMsg ×
      List ((Socket × String) × ((Socket × String) × AnchorId))) :
    (requested.foldl (mdStep st u socket template request_id hexFor) acc).1.results
      = (requested.filter (fun aid => (alookup st.anchor_id_to_socket (u, aid)).isNone)).foldl
          (fun acc2 aid => aset acc2 aid
            (MDEntry.failure "anchor_not_found" "Selected device is unavailable."))
          acc.1.results := by
  induction requested generalizing acc with
  | nil => rfl
  | cons a rest ih =>
    rcases h : alookup st.anchor_id_to_socket (u, a) with _ | t <;>
      simp [mdStep, h, ih, List.filter_cons]

/-- When no requested anchor is connected the target loop marks nothing
pending. -/
theorem mdStep_foldl_pending_all_none (st : HubState) (u : UserId) (socket : Socket)
    (template : Relay.Jobj) (request_id : String) (hexFor : AnchorId → String)
    (requested : List AnchorId)
    (acc : MultiDispatchAggregate × List OutMsg ×
      List ((Socket × String) × ((Socket × String) × AnchorId)))
    (h : ∀ aid ∈ requested, alookup st.anchor_id_to_socket (u, aid) = none) :
    (requested.foldl (mdStep st u socket template request_id hexFor) acc).1.pending_anchor_ids
      = acc.1.pending_anchor_ids := by
  induction requested generalizing acc with
  | nil => rfl
  | cons a rest ih =>
    have ha := h a (List.mem_cons_self _ _)
    rw [List.foldl_cons, ih _ (fun aid hm => h aid (List.mem_cons_of_mem _ hm))]
    simp [mdStep, ha]

/-- For duplicate-free requests the pending set after the target loop is
exactly the reachable requested anchors, in request order. -/
theorem mdStep_foldl_pending_nodup (st : HubState) (u : UserId) (socket : Socket)
    (template : Relay.Jobj) (request_id : String) (hexFor : AnchorId → String)
    (requested : List AnchorId)
    (acc : MultiDispatchAggregate × List OutMsg ×
      List ((Socket × String) × ((Socket × String) × AnchorId)))
    (hnodup : requested.Nodup)
    (hdis : ∀ aid ∈ requested, aid ∉ acc.1.pending_anchor_ids) :
    (requested.foldl (mdStep st u socket template request_id hexFor) acc).1.pending_anchor_ids
      = acc.1.pending_anchor_ids
        ++ requested.filter (fun aid => (alookup st.anchor_id_to_socket (u, aid)).isSome) := by
  induction requested generalizing acc with
  | nil => simp
  | cons a rest ih =>
    have hna := List.nodup_cons.mp hnodup
    rcases h : alookup st.anchor_id_to_socket (u, a) with _ | t
    · rw [List.foldl_cons, ih _ hna.2 (fun aid hm => by
        simpa [mdStep, h] using hdis aid (List.mem_cons_of_mem _ hm))]
      simp [mdStep, h, List.filter_cons]
    · have hsadd : sadd acc.1.pending_anchor_ids a = acc.1.pending_anchor_ids ++ [a] := by
        simp [sadd, hdis a (List.mem_cons_self _ _)]
      rw [List.foldl_cons, ih _ hna.2 (fun aid hm => by
        simp only [mdStep, h]
        rw [hsadd]
        simp only [List.mem_append, List.mem_singleton]
        rintro (hc | hc)
        · exact hdis aid (List.mem_cons_of_mem _ hm) hc
        · exact hna.1 (hc ▸ hm))]
      simp only [mdStep, h]
      rw [hsadd, List.filter_cons]
      simp [h, List.append_assoc]

/-- A dispatch none of whose requested anchors is connected completes
immediately: the state is unchanged and the requester gets one result
frame with an `anchor_not_found` entry per requested anchor, in order. -/
theorem md_dispatch_unreachable (st : HubState) (socket : Socket) (u : UserId)
    (msg : Relay.Jobj) (freshReq : String) (hexFor : AnchorId → String)
    (template : Relay.Jobj) (request_id : String) (requested : List AnchorId)
    (htpl : _extract_multi_dispatch_template msg = some template)
    (hreq : request_id = ((_coerce_request_key (Relay.jget msg "requestId")).orElse
      (fun _ => _coerce_request_key (Relay.jget msg "id"))).getD freshReq)
    (hreqd : requested = (if _extract_multi_dispatch_anchor_ids msg = [] then
        (st.anchor_id_to_socket.filter
          (fun (p : (UserId × AnchorId) × Socket) => p.1.1 == u)).map
          (fun (p : (UserId × AnchorId) × Socket) => p.1.2)
      else _extract_multi_dispatch_anchor_ids msg))
    (hnone : ∀ aid ∈ requested, alookup st.anchor_id_to_socket (u, aid) = none) :
    _handle_multi_dispatch st socket u msg freshReq hexFor
      = (st, [OutMsg.mk socket (Payload.mdResult request_id
          (requested.map (fun aid =>
            (aid, MDEntry.failure "anchor_not_found" "Selected device is unavailable.")))
          none)]) := by
  simp only [_handle_multi_dispatch, htpl, ← hreq, ← hreqd]
  have hpnil : (requested.foldl (mdStep st u socket template request_id hexFor)
      ({ requester_socket := socket, request_id := request_id,
         ordered_anchor_ids := requested, results := [], pending_anchor_ids := [] }, [],
         [])).1.pending_anchor_ids = [] :=
    mdStep_foldl_pending_all_none st u socket template request_id hexFor requested _ hnone
  rw [if_neg (fun hc => hc hpnil)]
  have hf := mdStep_foldl_fields st u socket template request_id hexFor requested
    ({ requester_socket := socket, request_id := request_id,
       ordered_anchor_ids := requested, results := [], pending_anchor_ids := [] }, [], [])
  have hr := mdStep_foldl_results st u socket template request_id hexFor requested
    ({ requester_socket := socket, request_id := request_id,
       ordered_anchor_ids := requested, results := [], pending_anchor_ids := [] }, [], [])
  simp only [_build_completed_multi_dispatch_locked, hf.1, hf.2.1, hf.2.2, hr]
  have hmap : requested.map (fun aid =>
      (aid, (alookup ((requested.filter
          (fun aid => (alookup st.anchor_id_to_socket (u, aid)).isNone)).foldl
        (fun acc2 aid => aset acc2 aid
          (MDEntry.failure "anchor_not_found" "Selected device is unavailable.")) []) aid).getD
        (MDEntry.failure "no_result" "No result was collected for this anchor.")))
      = requested.map (fun aid =>
          (aid, MDEntry.failure "anchor_not_found" "Selected device is unavailable.")) := by
    apply List.map_congr_left
    intro aid hm
    have hmem : aid ∈ requested.filter
        (fun aid => (alookup st.anchor_id_to_socket (u, aid)).isNone) := by
      rw [List.mem_filter]
      exact ⟨hm, by rw [hnone aid hm]; rfl⟩
    rw [alookup_foldl_aset_const, if_pos hmem]
    rfl
  rw [hmap]

/-- A dispatch that reaches at least one anchor stores an aggregate under
`(socket, request_id)`: ordered ids are the de-duplicated request,
unreachable anchors already hold `anchor_not_found` slots, and exactly the
reachable anchors are pending. -/
theorem md_dispatch_stores_aggregate (st : HubState) (socket : Socket) (u : UserId)
    (msg : Relay.Jobj) (freshReq : String) (hexFor : AnchorId → String)
    (template : Relay.Jobj) (request_id : String) (requested : List AnchorId)
    (htpl : _extract_multi_dispatch_template msg = some template)
    (hreq : request_id = ((_coerce_request_key (Relay.jget msg "requestId")).orElse
      (fun _ => _coerce_request_key (Relay.jget msg "id"))).getD freshReq)
    (hreqd : requested = (if _extract_multi_dispatch_anchor_ids msg = [] then
        (st.anchor_id_to_socket.filter
          (fun (p : (UserId × AnchorId) × Socket) => p.1.1 == u)).map
          (fun (p : (UserId × AnchorId) × Socket) => p.1.2)
      else _extract_multi_dispatch_anchor_ids msg))
    (hpend : ∃ aid ∈ requested, (alookup st.anchor_id_to_socket (u, aid)).isSome = true)
    (hnodup : requested.Nodup) :
    ∃ agg, alookup (_handle_multi_dispatch st socket u msg freshReq
          hexFor).1.pending_multi_dispatch (socket, request_id) = some agg
      ∧ agg.requester_socket = socket ∧ agg.request_id = request_id
      ∧ agg.ordered_anchor_ids = requested
      ∧ agg.pending_anchor_ids = requested.filter
          (fun aid => (alookup st.anchor_id_to_socket (u, aid)).isSome)
      ∧ ∀ aid ∈ requested, alookup st.anchor_id_to_socket (u, aid) = none →
          alookup agg.results aid
            = some (MDEntry.failure "anchor_not_found" "Selected device is unavailable.") := by
  have hne : (requested.foldl (mdStep st u socket template request_id hexFor)
      ({ requester_socket := socket, request_id := request_id,
         ordered_anchor_ids := requested, results := [], pending_anchor_ids := [] }, [],
         [])).1.pending_anchor_ids ≠ [] := by
    intro hnil
    obtain ⟨_, hall⟩ := mdStep_foldl_pending_nil st u socket template request_id hexFor
      requested _ hnil
    obtain ⟨aid, hmem, hsome⟩ := hpend
    rw [hall aid hmem] at hsome
    cases hsome
  simp only [_handle_multi_dispatch, htpl, ← hreq, ← hreqd]
  rw [if_pos hne]
  refine ⟨_, by
    simp only []
    exact alookup_aset_self _ _ _, ?_, ?_, ?_, ?_, ?_⟩
  · exact (mdStep_foldl_fields st u socket template request_id hexFor requested _).1
  · exact (mdStep_foldl_fields st u socket template request_id hexFor requested _).2.1
  · exact (mdStep_foldl_fields st u socket template request_id hexFor requested _).2.2
  · rw [mdStep_foldl_pending_nodup st u socket template request_id hexFor requested _
      hnodup (fun aid _ => by simp)]
    rfl
  · intro aid hm hn
    rw [mdStep_foldl_results]
    have hmem : aid ∈ requested.filter
        (fun aid => (alookup st.anchor_id_to_socket (u, aid)).isNone) := by
      rw [List.mem_filter]
      exact ⟨hm, by rw [hn]; rfl⟩
    rw [alookup_foldl_aset_const, if_pos hmem]

/-- The 15-second timer on a stored aggregate sends exactly one result
frame to the requester — still-pending anchors become `timeout` entries,
collected slots are reported as stored, one entry per ordered id — and
pops the aggregate. -/
theorem md_expire_sends_result (st : HubState) (dk : Socket × String)
    (agg : MultiDispatchAggregate)
    (hagg : alookup st.pending_multi_dispatch dk = some agg) :
    (_expire_multi_dispatch st dk).2
      = [OutMsg.mk agg.requester_socket (Payload.mdResult agg.request_id
          (agg.ordered_anchor_ids.map (fun aid =>
            (aid, if aid ∈ agg.pending_anchor_ids
              then MDEntry.failure "timeout" "No response before timeout."
              else (alookup agg.results aid).getD
                (MDEntry.failure "no_result" "No result was collected for this anchor."))))
          none)]
    ∧ alookup (_expire_multi_dispatch st dk).1.pending_multi_dispatch dk = none := by
  simp only [_expire_multi_dispatch, hagg, _finalize_multi_dispatch_locked, alookup_aset_self]
  constructor
  · simp only [_build_completed_multi_dispatch_locked]
    have hmap : agg.ordered_anchor_ids.map (fun aid =>
        (aid, (alookup (agg.pending_anchor_ids.foldl
            (fun acc aid => aset acc aid
              (MDEntry.failure "timeout" "No response before timeout.")) agg.results) aid).getD
          (MDEntry.failure "no_result" "No result was collected for this anchor.")))
        = agg.ordered_anchor_ids.map (fun aid =>
            (aid, if aid ∈ agg.pending_anchor_ids
              then MDEntry.failure "timeout" "No response before timeout."
              else (alookup agg.results aid).getD
                (MDEntry.failure "no_result" "No result was collected for this anchor."))) := by
      apply List.map_congr_left
      intro aid _
      rw [alookup_foldl_aset_const]
      by_cases hm : aid ∈ agg.pending_anchor_ids
      · rw [if_pos hm, if_pos hm]
        rfl
      · rw [if_neg hm, if_neg hm]
    rw [hmap]
  · rw [alookup_aremove_self]

/-- The timer on a dispatch whose aggregate was already popped sends
nothing and changes nothing — finalisation happens at most once. -/
theorem md_expire_missing_noop (st : HubState) (dk : Socket × String)
    (h : alookup st.pending_multi_dispatch dk = none) :
    _expire_multi_dispatch st dk = (st, []) := by
  simp [_expire_multi_dispatch, h]

/-- Consuming an anchor response bound to a pending multi-dispatch: while
other anchors are still pending the response is stored via
`consumeMDResponse`; the last response finalises — the requester gets one
result frame whose slot for the answering anchor is the consumed response
(`ok: true`), and the aggregate is popped. -/
theorem md_response_consumption (st : HubState) (socket : Socket) (u : UserId) (raw : String)
    (m : Relay.Jobj) (fid : String) (key : String) (dk : Socket × String)
    (aid : AnchorId) (agg : MultiDispatchAggregate)
    (hkey : _message_id_key (_extract_message_id (some m)) = some key)
    (hnm : Relay.jget m "method" = none)
    (hthread : extractThreadIdHub (some m) = none)
    (hbind : alookup st.pending_multi_dispatch_responses (socket, key) = some (dk, aid))
    (hagg : alookup st.pending_multi_dispatch dk = some agg) :
    (sdel agg.pending_anchor_ids aid ≠ [] →
      alookup (_route_message st socket "anchor" u raw (some m) fid).1.pending_multi_dispatch dk
        = some (consumeMDResponse agg aid (Relay.JValue.obj m)))
    ∧ (sdel agg.pending_anchor_ids aid = [] →
      (_route_message st socket "anchor" u raw (some m) fid).2
        = [OutMsg.mk agg.requester_socket (Payload.mdResult agg.request_id
            (agg.ordered_anchor_ids.map (fun a2 =>
              (a2, (alookup (aset agg.results aid
                  (MDEntry.success (Relay.JValue.obj m))) a2).getD
                (MDEntry.failure "no_result" "No result was collected for this anchor."))))
            none)]
      ∧ alookup (_route_message st socket "anchor" u raw (some m) fid).1.pending_multi_dispatch dk
          = none) := by
  simp only [_route_message, hkey, hnm, hthread, pyTruthyOpt, hbind, hagg,
    show (("anchor" : String) == "client") = false from rfl, Bool.false_eq_true, reduceIte]
  constructor
  · intro hne
    rw [if_neg hne]
    simp only [consumeMDResponse]
    exact alookup_aset_self _ _ _
  · intro hnil
    rw [if_pos hnil]
    simp only [_finalize_multi_dispatch_locked, alookup_aset_self,
      _build_completed_multi_dispatch_locked]
    exact ⟨by trivial, by rw [alookup_aremove_self]⟩

/-- C4 (amended): multi-dispatch aggregation per dispatch key. (a) A
dispatch with no reachable target completes at once: one result frame to
the requester, one ordered `anchor_not_found` entry per requested anchor,
state unchanged. (b) Otherwise an aggregate is stored under
`(socket, outer_request_id)` whose ordered ids are the de-duplicated
request, whose unreachable anchors hold `anchor_not_found` slots and whose
pending set is exactly the reachable anchors. (c) The 15-second timer on a
stored aggregate emits exactly one result frame — `timeout` for each
still-pending anchor, the stored slot otherwise, one entry per ordered
id — and pops the aggregate, (d) so a timer that finds no aggregate sends
nothing. (e) A bound anchor response is consumed into the aggregate while
others are pending; the last one finalises with the consumed response
(`ok: true`) in its slot and pops the aggregate. -/
theorem multi_dispatch_aggregation :
    (∀ (st : HubState) (socket : Socket) (u : UserId) (msg : Relay.Jobj)
      (freshReq : String) (hexFor : AnchorId → String)
      (template : Relay.Jobj) (request_id : String) (requested : List AnchorId),
      _extract_multi_dispatch_template msg = some template →
      request_id = ((_coerce_request_key (Relay.jget msg "requestId")).orElse
        (fun _ => _coerce_request_key (Relay.jget msg "id"))).getD freshReq →
      requested = (if _extract_multi_dispatch_anchor_ids msg = [] then
          (st.anchor_id_to_socket.filter
            (fun (p : (UserId × AnchorId) × Socket) => p.1.1 == u)).map
            (fun (p : (UserId × AnchorId) × Socket) => p.1.2)
        else _extract_multi_dispatch_anchor_ids msg) →
      (∀ aid ∈ requested, alookup st.anchor_id_to_socket (u, aid) = none) →
      _handle_multi_dispatch st socket u msg freshReq hexFor
        = (st, [OutMsg.mk socket (Payload.mdResult request_id
            (requested.map (fun aid =>
              (aid, MDEntry.failure "anchor_not_found" "Selected device is unavailable.")))
            none)]))
    ∧ (∀ (st : HubState) (socket : Socket) (u : UserId) (msg : Relay.Jobj)
      (freshReq : String) (hexFor : AnchorId → String)
      (template : Relay.Jobj) (request_id : String) (requested : List AnchorId),
      _extract_multi_dispatch_template msg = some template →
      request_id = ((_coerce_request_key (Relay.jget msg "requestId")).orElse
        (fun _ => _coerce_request_key (Relay.jget msg "id"))).getD freshReq →
      requested = (if _extract_multi_dispatch_anchor_ids msg = [] then
          (st.anchor_id_to_socket.filter
            (fun (p : (UserId × AnchorId) × Socket) => p.1.1 == u)).map
            (fun (p : (UserId × AnchorId) × Socket) => p.1.2)
        else _extract_multi_dispatch_anchor_ids msg) →
      (∃ aid ∈ requested, (alookup st.anchor_id_to_socket (u, aid)).isSome = true) →
      requested.Nodup →
      ∃ agg, alookup (_handle_multi_dispatch st socket u msg freshReq
            hexFor).1.pending_multi_dispatch (socket, request_id) = some agg
        ∧ agg.requester_socket = socket ∧ agg.request_id = request_id
        ∧ agg.ordered_anchor_ids = requested
        ∧ agg.pending_anchor_ids = requested.filter
            (fun aid => (alookup st.anchor_id_to_socket (u, aid)).isSome)
        ∧ ∀ aid ∈ requested, alookup st.anchor_id_to_socket (u, aid) = none →
            alookup agg.results aid
              = some (MDEntry.failure "anchor_not_found" "Selected device is unavailable."))
    ∧ (∀ (st : HubState) (dk : Socket × String) (agg : MultiDispatchAggregate),
      alookup st.pending_multi_dispatch dk = some agg →
      (_expire_multi_dispatch st dk).2
        = [OutMsg.mk agg.requester_socket (Payload.mdResult agg.request_id
            (agg.ordered_anchor_ids.map (fun aid =>
              (aid, if aid ∈ agg.pending_anchor_ids
                then MDEntry.failure "timeout" "No response before timeout."
                else (alookup agg.results aid).getD
                  (MDEntry.failure "no_result" "No result was collected for this anchor."))))
            none)]
      ∧ alookup (_expire_multi_dispatch st dk).1.pending_multi_dispatch dk = none)
    ∧ (∀ (st : HubState) (dk : Socket × String),
      alookup st.pending_multi_dispatch dk = none →
      _expire_multi_dispatch st dk = (st, []))
    ∧ (∀ (st : HubState) (socket : Socket) (u : UserId) (raw : String)
      (m : Relay.Jobj) (fid : String) (key : String) (dk : Socket × String)
      (aid : AnchorId) (agg : MultiDispatchAggregate),
      _message_id_key (_extract_message_id (some m)) = some key →
      Relay.jget m "method" = none →
      extractThreadIdHub (some m) = none →
      alookup st.pending_multi_dispatch_responses (socket, key) = some (dk, aid) →
      alookup st.pending_multi_dispatch dk = some agg →
      (sdel agg.pending_anchor_ids aid ≠ [] →
        alookup (_route_message st socket "anchor" u raw (some m)
            fid).1.pending_multi_dispatch dk
          = some (consumeMDResponse agg aid (Relay.JValue.obj m)))
      ∧ (sdel agg.pending_anchor_ids aid = [] →
        (_route_message st socket "anchor" u raw (some m) fid).2
          = [OutMsg.mk agg.requester_socket (Payload.mdResult agg.request_id
              (agg.ordered_anchor_ids.map (fun a2 =>
                (a2, (alookup (aset agg.results aid
                    (MDEntry.success (Relay.JValue.obj m))) a2).getD
                  (MDEntry.failure "no_result" "No result was collected for this anchor."))))
              none)]
        ∧ alookup (_route_message st socket "anchor" u raw (some m)
              fid).1.pending_multi_dispatch dk = none)) :=
  ⟨md_dispatch_unreachable, md_dispatch_stores_aggregate, md_expire_sends_result,
    md_expire_missing_noop, md_response_consumption⟩

/-- Witness for C4 (amended): concrete runs of all five conjuncts — an
all-unreachable dispatch answers at once; a reachable dispatch stores its
aggregate; the timer reports the stored `A` slot and times out `B`; a
timer without an aggregate is silent; the last bound response finalises
with the consumed frame. -/
theorem multi_dispatch_aggregation_witness :
    (_handle_multi_dispatch scnB1 0 "u" mdMsgToX "fr" (fun _ => "00000000")
      = (scnB1, [OutMsg.mk 0 (Payload.mdResult "r1"
          [("X", MDEntry.failure "anchor_not_found" "Selected device is unavailable.")]
          none)]))
    ∧ (∃ agg, alookup (_handle_multi_dispatch scnA5c 0 "u" mdMsgRA "cafebabe"
          (fun _ => "00000000")).1.pending_multi_dispatch (0, "r") = some agg
        ∧ agg.ordered_anchor_ids = ["A"] ∧ agg.pending_anchor_ids = ["A"])
    ∧ ((_expire_multi_dispatch stTimeoutW (0, "r")).2
        = [OutMsg.mk 0 (Payload.mdResult "r"
            [("A", MDEntry.success Relay.JValue.null),
             ("B", MDEntry.failure "timeout" "No response before timeout.")] none)])
    ∧ (_expire_multi_dispatch initState (0, "q") = (initState, []))
    ∧ ((_route_message stConsumeW 3 "anchor" "u" "" (some respW) "i").2
        = [OutMsg.mk 0 (Payload.mdResult "r"
            [("A", MDEntry.success (Relay.JValue.obj respW))] none)])
    ∧ alookup (_route_message stConsumeW 3 "anchor" "u" "" (some respW)
        "i").1.pending_multi_dispatch (0, "r") = none := by
  obtain ⟨agg, hlook, h1, h2, h3, h4, h5⟩ :=
    multi_dispatch_aggregation.2.1 scnA5c 0 "u" mdMsgRA "cafebabe" (fun _ => "00000000")
      [("method", Relay.JValue.str "m1")] "r" ["A"] rfl rfl rfl ⟨"A", by decide, rfl⟩ (by decide)
  obtain ⟨hsends, hpop⟩ :=
    (multi_dispatch_aggregation.2.2.2.2 stConsumeW 3 "u" "" respW "i" "x" (0, "r") "A"
      aggConsumeW rfl rfl rfl rfl rfl).2 rfl
  refine ⟨multi_dispatch_aggregation.1 scnB1 0 "u" mdMsgToX "fr" (fun _ => "00000000")
      [("method", Relay.JValue.str "m")] "r1" ["X"] rfl rfl rfl (fun aid _ => rfl),
    ⟨agg, hlook, h3, h4.trans rfl⟩,
    (multi_dispatch_aggregation.2.2.1 stTimeoutW (0, "r") aggTimeoutW rfl).1,
    multi_dispatch_aggregation.2.2.2.1 initState (0, "q") rfl,
    hsends, hpop⟩

/-- C4 counterexample: the guarantee is per dispatch key, not per
dispatch. In the reachable state `scnA5c` the client dispatches to `A`
with outer id `r` (aggregate stored, nothing sent to the client), then
reuses outer id `r` dispatching to `B`: the second dispatch overwrites the
first aggregate, the timer's one and only result frame reports only `B`,
and a later timer is silent — the first dispatch never yields any
`orbit.multi-dispatch.result` with an entry for `A`. -/
theorem multi_dispatch_single_result_counterexample :
    Reachable scnMD2 ∧
    (handle_message scnA5c 0 (roleOf 0) "" (some mdMsgRA) oracleA).2
      = [OutMsg.mk 1 (Payload.jsonFrame
          [("method", Relay.JValue.str "m1"), ("id", Relay.JValue.str "r:A:00000000")])] ∧
    (alookup scnMD1.pending_multi_dispatch (0, "r")).map
      MultiDispatchAggregate.ordered_anchor_ids = some ["A"] ∧
    (handle_message scnMD1 0 (roleOf 0) "" (some mdMsgRB) oracleA).2
      = [OutMsg.mk 3 (Payload.jsonFrame
          [("method", Relay.JValue.str "m2"), ("id", Relay.JValue.str "r:B:00000000")])] ∧
    (alookup scnMD2.pending_multi_dispatch (0, "r")).map
      MultiDispatchAggregate.ordered_anchor_ids = some ["B"] ∧
    (_expire_multi_dispatch scnMD2 (0, "r")).2
      = [OutMsg.mk 0 (Payload.mdResult "r"
          [("B", MDEntry.failure "timeout" "No response before timeout.")] none)] ∧
    (_expire_multi_dispatch (_expire_multi_dispatch scnMD2 (0, "r")).1 (0, "r")).2 = [] := by
  refine ⟨?_, rfl, rfl, rfl, rfl, rfl, rfl⟩
  refine Relation.ReflTransGen.tail (Relation.ReflTransGen.tail (Relation.ReflTransGen.tail
    (Relation.ReflTransGen.tail (Relation.ReflTransGen.tail (Relation.ReflTransGen.tail
      (Relation.ReflTransGen.single
        (Step.register initState 1 "u" none (by decide)))
      (Step.handle scnA1 1 "" (some (helloMsgFor "A")) oracleA))
      (Step.handle scnA2 1 "" (some (subscribeMsgFor "t")) oracleA))
      (Step.register scnA3 3 "u" none (by decide)))
      (Step.handle scnA4 3 "" (some (helloMsgFor "B")) oracleA))
      (Step.register scnA5 0 "u" none (by decide)))
    (Step.handle scnA5c 0 "" (some mdMsgRA) oracleA) |>.tail
    (Step.handle scnMD1 0 "" (some mdMsgRB) oracleA)

/-- Python truthiness keeps a non-empty string. -/
theorem pyTruthyOpt_some (A : String) (h : A ≠ "") : pyTruthyOpt (some A) = some A := by
  unfold pyTruthyOpt
  split
  · simp_all
  · rfl

/-- `find?` over an in-place update hits the updated pair at the updated
key. -/
theorem find?_mapupd_self {K V : Type} [DecidableEq K] (l : List (K × V)) (k : K)
    (f : V → V) :
    (l.map (fun p => if p.1 = k then (k, f p.2) else p)).find? (fun p => decide (p.1 = k))
      = (l.find? (fun p => decide (p.1 = k))).map (fun p => (k, f p.2)) := by
  induction l with
  | nil => rfl
  | cons p rest ih =>
    by_cases hp : p.1 = k
    · simp only [List.map_cons, if_pos hp]
      rw [List.find?_cons_of_pos _ (by simp), List.find?_cons_of_pos _ (by simpa using hp)]
      rfl
    · simp only [List.map_cons, if_neg hp]
      rw [List.find?_cons_of_neg _ (by simpa using hp),
        List.find?_cons_of_neg _ (by simpa using hp), ih]

/-- `find?` over an in-place update at another key sees the original
pairs. -/
theorem find?_mapupd_ne {K V : Type} [DecidableEq K] (l : List (K × V)) (k k2 : K)
    (f : V → V) (h : k2 ≠ k) :
    (l.map (fun p => if p.1 = k then (k, f p.2) else p)).find? (fun p => decide (p.1 = k2))
      = l.find? (fun p => decide (p.1 = k2)) := by
  induction l with
  | nil => rfl
  | cons p rest ih =>
    by_cases hp : p.1 = k
    · simp only [List.map_cons, if_pos hp]
      rw [List.find?_cons_of_neg _ (by simpa using fun hc : k = k2 => h hc.symm),
        List.find?_cons_of_neg _ (by simpa [hp] using fun hc : p.1 = k2 => h (hp ▸ hc).symm), ih]
    · simp only [List.map_cons, if_neg hp]
      by_cases hp2 : p.1 = k2
      · rw [List.find?_cons_of_pos _ (by simpa using hp2),
          List.find?_cons_of_pos _ (by simpa using hp2)]
      · rw [List.find?_cons_of_neg _ (by simpa using hp2),
          List.find?_cons_of_neg _ (by simpa using hp2), ih]

/-- Reading the upserted key back after an `ON CONFLICT DO UPDATE`. -/
theorem alookup_aupsert_self {K V : Type} [DecidableEq K]
    (l : List (K × V)) (k : K) (upd : V → V) (ins : V) :
    alookup (aupsert l k upd ins) k
      = some (match alookup l k with | some v => upd v | none => ins) := by
  unfold aupsert
  by_cases hany : l.any (fun p => decide (p.1 = k))
  · rw [if_pos hany]
    unfold alookup
    rw [find?_mapupd_self]
    rcases hf : l.find? (fun p => decide (p.1 = k)) with _ | p0
    · obtain ⟨x, hx, hpx⟩ := List.any_eq_true.mp hany
      rw [List.find?_eq_none] at hf
      exact absurd hpx (by simpa using hf x hx)
    · rw [hf]
      rfl
  · rw [if_neg hany]
    unfold alookup
    have hl : l.find? (fun p => decide (p.1 = k)) = none := by
      rw [List.find?_eq_none]
      intro p hp
      by_contra hc
      exact hany (List.any_eq_true.mpr ⟨p, hp, by simpa using hc⟩)
    rw [List.find?_append, hl]
    simp

/-- An upsert leaves every other key's binding unchanged. -/
theorem alookup_aupsert_ne {K V : Type} [DecidableEq K]
    (l : List (K × V)) (k k2 : K) (upd : V → V) (ins : V) (h : k2 ≠ k) :
    alookup (aupsert l k upd ins) k2 = alookup l k2 := by
  unfold aupsert
  by_cases hany : l.any (fun p => decide (p.1 = k))
  · rw [if_pos hany]
    unfold alookup
    rw [find?_mapupd_ne _ _ _ _ h]
  · rw [if_neg hany]
    unfold alookup
    rw [List.find?_append]
    rcases hf : l.find? (fun p => decide (p.1 = k2)) with _ | p0
    · simp [hf, List.find?, Ne.symm h]
    · rw [hf]
      rfl

/-- After `set_relay_thread_anchor` the row exists and its
`bound_anchor_id` column holds exactly the written value. -/
theorem get_set_relay_thread_anchor_self (db : Db.DbState) (u t : String)
    (bound : Option String) :
    (Db.get_relay_thread_state (Db.set_relay_thread_anchor db u t bound) u t).map
      (fun r => r.bound_anchor_id) = some bound := by
  unfold Db.get_relay_thread_state Db.set_relay_thread_anchor
  rw [alookup_aupsert_self]
  rcases alookup db.thread_state (u, t) with _ | row <;> rfl

/-- `set_relay_thread_anchor` on one thread leaves every other thread's
stored state unchanged. -/
theorem get_set_relay_thread_anchor_ne (db : Db.DbState) (u t u2 t2 : String)
    (bound : Option String) (h : (u2, t2) ≠ (u, t)) :
    Db.get_relay_thread_state (Db.set_relay_thread_anchor db u t bound) u2 t2
      = Db.get_relay_thread_state db u2 t2 := by
  unfold Db.get_relay_thread_state Db.set_relay_thread_anchor
  rw [alookup_aupsert_ne _ _ _ _ _ h]

/-- Folding deletions removes exactly the folded keys. -/
theorem alookup_foldl_aremove {K V : Type} [DecidableEq K]
    (l : List K) (m : List (K × V)) (k : K) :
    alookup (l.foldl (fun acc tk => aremove acc tk) m) k
      = if k ∈ l then none else alookup m k := by
  induction l generalizing m with
  | nil => simp
  | cons a rest ih =>
    rw [List.foldl_cons, ih]
    by_cases hm : k ∈ rest
    · simp [hm]
    · by_cases hk : k = a
      · subst hk
        simp [hm, alookup_aremove_self]
      · simp [hm, hk, alookup_aremove_ne _ _ _ hk]

/-- Folding `set_relay_thread_anchor … none` clears the bound column of
every folded thread and touches no other row. -/
theorem get_relay_thread_state_foldl_clear (l : List TKey) (d : Db.DbState) (u t : String) :
    (Db.get_relay_thread_state
        (l.foldl (fun d2 tk => Db.set_relay_thread_anchor d2 tk.1 tk.2 none) d) u t).map
      (fun r => r.bound_anchor_id)
      = if (u, t) ∈ l then some none
        else (Db.get_relay_thread_state d u t).map (fun r => r.bound_anchor_id) := by
  induction l generalizing d with
  | nil => simp
  | cons a rest ih =>
    rw [List.foldl_cons, ih]
    by_cases hm : (u, t) ∈ rest
    · simp [hm]
    · by_cases hk : (u, t) = a
      · rw [if_neg hm, if_pos (by simp [hk]), ← hk]
        exact get_set_relay_thread_anchor_self d u t none
      · rw [if_neg hm, if_neg (by simp [hk, hm]),
          get_set_relay_thread_anchor_ne _ _ _ _ _ _ (by rw [Prod.mk.eta]; exact hk)]

/-- The `_remove_socket_locked` stale-binding fold, projected to its two
touched fields. -/
theorem remove_bindings_foldl_proj (stale : List TKey) (s : HubState) :
    ((stale.foldl (fun (acc : HubState) (tk : TKey) =>
        { acc with
          thread_to_anchor_id := aremove acc.thread_to_anchor_id tk,
          db := Db.set_relay_thread_anchor acc.db tk.1 tk.2 none }) s)).thread_to_anchor_id
      = stale.foldl (fun m tk => aremove m tk) s.thread_to_anchor_id
    ∧ ((stale.foldl (fun (acc : HubState) (tk : TKey) =>
        { acc with
          thread_to_anchor_id := aremove acc.thread_to_anchor_id tk,
          db := Db.set_relay_thread_anchor acc.db tk.1 tk.2 none }) s)).db
      = stale.foldl (fun d tk => Db.set_relay_thread_anchor d tk.1 tk.2 none) s.db := by
  induction stale generalizing s with
  | nil => exact ⟨rfl, rfl⟩
  | cons a rest ih =>
    simpa using ih _

/-- A truthy memo binding short-circuits `lookupBoundAnchor`. -/
theorem lookupBoundAnchor_memo_hit (st : HubState) (u : UserId) (tid : ThreadId)
    (A : AnchorId)
    (hb : alookup st.thread_to_anchor_id (u, tid) = some A) (hA : A ≠ "") :
    lookupBoundAnchor st u tid = (st, some A) := by
  unfold lookupBoundAnchor
  rw [hb, pyTruthyOpt_some A hA]

/-- `lookupBoundAnchor` on any thread never disturbs another thread's
truthy memo binding (memoisation only writes a key whose memo was falsy). -/
theorem lookupBoundAnchor_preserves_binding (st : HubState) (u : UserId) (tid : ThreadId)
    (A : AnchorId) (u2 : UserId) (tid2 : ThreadId)
    (hb : alookup st.thread_to_anchor_id (u, tid) = some A) (hA : A ≠ "") :
    alookup (lookupBoundAnchor st u2 tid2).1.thread_to_anchor_id (u, tid) = some A := by
  unfold lookupBoundAnchor
  rcases hm : pyTruthyOpt (alookup st.thread_to_anchor_id (u2, tid2)) with _ | b
  · simp only [hm]
    rcases hrow : Db.get_relay_thread_state st.db u2 tid2 with _ | row
    · simp only [hrow]
      exact hb
    · simp only [hrow]
      rcases hbd : pyTruthyOpt row.bound_anchor_id with _ | b2
      · simp only [hbd]
        exact hb
      · simp only [hbd]
        have hne : (u, tid) ≠ (u2, tid2) := by
          intro hc
          rw [← hc, hb, pyTruthyOpt_some A hA] at hm
          cases hm
        rw [alookup_aset_ne _ _ _ _ hne]
        exact hb
  · simp only [hm]
    exact hb

/-- `lookupBoundAnchor` never touches `socket_to_anchor_id`. -/
theorem lookupBoundAnchor_socket_map (st : HubState) (u2 : UserId) (tid2 : ThreadId) :
    (lookupBoundAnchor st u2 tid2).1.socket_to_anchor_id = st.socket_to_anchor_id := by
  unfold lookupBoundAnchor
  rcases hm : pyTruthyOpt (alookup st.thread_to_anchor_id (u2, tid2)) with _ | b
  · rcases hg : Db.get_relay_thread_state st.db u2 tid2 with _ | row
    · simp [hm, hg]
    · rcases hpb : pyTruthyOpt row.bound_anchor_id with _ | b2 <;> simp [hm, hg, hpb]
  · simp [hm]

/-- Target resolution never disturbs a truthy memo binding. -/
theorem resolve_preserves_binding (st : HubState) (u : UserId) (tid : ThreadId)
    (A : AnchorId) (th anch : Option String)
    (hb : alookup st.thread_to_anchor_id (u, tid) = some A) (hA : A ≠ "") :
    alookup (_resolve_client_target_locked st u th anch).1.thread_to_anchor_id (u, tid)
      = some A := by
  unfold _resolve_client_target_locked
  rcases ha : pyTruthyOpt anch with _ | aid
  · simp only [ha]
    rcases ht : pyTruthyOpt th with _ | tid2
    · simp only [ht, resolveFallthrough]
      rcases hl : lookupSet st.user_to_anchor_sockets u with _ | ⟨a, rest⟩
      · simp only [hl]
        exact hb
      · rcases rest with _ | r2 <;> simp only [hl] <;> exact hb
    · simp only [ht]
      have hp := lookupBoundAnchor_preserves_binding st u tid A u tid2 hb hA
      rcases hb2 : (lookupBoundAnchor st u tid2).2 with _ | b
      · simp only [hb2]
        rcases hl : lookupSet (lookupBoundAnchor st u tid2).1.thread_to_anchors (u, tid2)
            with _ | ⟨a, rest⟩
        · simp only [hl, resolveFallthrough]
          rcases hl2 : lookupSet (lookupBoundAnchor st u tid2).1.user_to_anchor_sockets u
              with _ | ⟨a2, r2⟩
          · simp only [hl2]
            exact hp
          · rcases r2 with _ | r3 <;> simp only [hl2] <;> exact hp
        · rcases rest with _ | r2 <;> simp only [hl] <;> exact hp
      · simp only [hb2]
        rcases hl : alookup (lookupBoundAnchor st u tid2).1.anchor_id_to_socket (u, b)
            with _ | tgt <;> simp only [hl] <;> exact hp
  · simp only [ha]
    rcases hl : alookup st.anchor_id_to_socket (u, aid) with _ | target
    · simp only [hl]
      exact hb
    · simp only [hl]
      rcases ht : pyTruthyOpt th with _ | tid2
      · simp only [ht]
        exact hb
      · simp only [ht]
        have hp := lookupBoundAnchor_preserves_binding st u tid A u tid2 hb hA
        rcases hb2 : (lookupBoundAnchor st u tid2).2 with _ | b
        · simp only [hb2]
          exact hp
        · simp only [hb2]
          by_cases hba : b ≠ aid
          · rw [if_pos hba]
            exact hp
          · rw [if_neg hba]
            exact hp

/-- Target resolution never touches `socket_to_anchor_id`. -/
theorem resolve_preserves_socket_map (st : HubState) (u : UserId) (th anch : Option String) :
    (_resolve_client_target_locked st u th anch).1.socket_to_anchor_id
      = st.socket_to_anchor_id := by
  unfold _resolve_client_target_locked
  rcases ha : pyTruthyOpt anch with _ | aid
  · rcases ht : pyTruthyOpt th with _ | tid2
    · simp only [ha, ht, resolveFallthrough]
      rcases hl : lookupSet st.user_to_anchor_sockets u with _ | ⟨a, rest⟩
      · rfl
      · rcases rest with _ | r2 <;> rfl
    · simp only [ha, ht]
      rcases hb2 : (lookupBoundAnchor st u tid2).2 with _ | b
      · simp only [hb2]
        rcases hl : lookupSet (lookupBoundAnchor st u tid2).1.thread_to_anchors (u, tid2)
            with _ | ⟨a, rest⟩
        · simp only [hl, resolveFallthrough]
          rcases hl2 : lookupSet (lookupBoundAnchor st u tid2).1.user_to_anchor_sockets u
              with _ | ⟨a2, r2⟩
          · simp only [hl2]
            exact lookupBoundAnchor_socket_map st u tid2
          · rcases r2 with _ | r3 <;> simp only [hl2] <;>
              exact lookupBoundAnchor_socket_map st u tid2
        · rcases rest with _ | r2 <;> simp only [hl] <;>
            exact lookupBoundAnchor_socket_map st u tid2
      · simp only [hb2]
        rcases hl : alookup (lookupBoundAnchor st u tid2).1.anchor_id_to_socket (u, b)
            with _ | tgt <;> simp only [hl] <;> exact lookupBoundAnchor_socket_map st u tid2
  · simp only [ha]
    rcases hl : alookup st.anchor_id_to_socket (u, aid) with _ | target
    · simp only [hl]
    · simp only [hl]
      rcases ht : pyTruthyOpt th with _ | tid2
      · simp only [ht]
      · simp only [ht]
        rcases hb2 : (lookupBoundAnchor st u tid2).2 with _ | b
        · simp only [hb2]
          exact lookupBoundAnchor_socket_map st u tid2
        · simp only [hb2]
          by_cases hba : b ≠ aid
          · rw [if_pos hba]
            exact lookupBoundAnchor_socket_map st u tid2
          · rw [if_neg hba]
            exact lookupBoundAnchor_socket_map st u tid2

/-- When the routed thread is memo-bound to `A`, a successful resolution
can only return the socket registered at `(u, A)`. -/
theorem resolve_target_of_bound (st : HubState) (u : UserId) (tid : ThreadId) (A : AnchorId)
    (th anch : Option String) (tgt : Socket)
    (hb : alookup st.thread_to_anchor_id (u, tid) = some A) (hA : A ≠ "")
    (hth : pyTruthyOpt th = some tid)
    (htgt : (_resolve_client_target_locked st u th anch).2.1 = some tgt) :
    alookup st.anchor_id_to_socket (u, A) = some tgt := by
  unfold _resolve_client_target_locked at htgt
  rcases ha : pyTruthyOpt anch with _ | aid
  · simp only [ha, hth, lookupBoundAnchor_memo_hit st u tid A hb hA] at htgt
    rcases hl : alookup st.anchor_id_to_socket (u, A) with _ | target
    · simp only [hl] at htgt
      cases htgt
    · simp only [hl] at htgt
      cases htgt
      rfl
  · simp only [ha] at htgt
    rcases hl : alookup st.anchor_id_to_socket (u, aid) with _ | target
    · simp only [hl] at htgt
      cases htgt
    · simp only [hl, hth, lookupBoundAnchor_memo_hit st u tid A hb hA] at htgt
      by_cases hba : A ≠ aid
      · rw [if_pos hba] at htgt
        cases htgt
      · rw [if_neg hba] at htgt
        cases htgt
        rw [not_not.mp hba]
        exact hl

/-- `_replay_thread_state` only `setdefault`s the memo binding: an
existing binding survives a replay untouched. -/
theorem replay_preserves_binding (st : HubState) (socket : Socket) (u : UserId)
    (tid : ThreadId) (b : AnchorId)
    (hb : alookup st.thread_to_anchor_id (u, tid) = some b) :
    alookup (_replay_thread_state st socket u tid).1.thread_to_anchor_id (u, tid) = some b := by
  unfold _replay_thread_state
  rcases hrow : Db.get_relay_thread_state st.db u tid with _ | row
  · simp only [hrow]
    exact hb
  · simp only [hrow]
    rcases hbd : pyTruthyOpt row.bound_anchor_id with _ | b2
    · simp only [hbd]
      exact hb
    · simp only [hbd]
      exact alookup_asetdefault_some _ _ _ _ hb

/-- A client-originated routed frame can re-write the memo binding of the
thread it targets, but when that binding is truthy and the anchor maps are
mutually consistent at the bound id, the value written back is the same
anchor id — so the binding survives every client route. -/
theorem route_client_preserves_binding (st : HubState) (socket : Socket) (u : UserId)
    (raw : String) (msg : Option Relay.Jobj) (fid : String) (tid : ThreadId) (A : AnchorId)
    (hb : alookup st.thread_to_anchor_id (u, tid) = some A)
    (hA : A ≠ "")
    (hcons : ∀ s2, alookup st.anchor_id_to_socket (u, A) = some s2 →
      alookup st.socket_to_anchor_id s2 = some A) :
    alookup (_route_message st socket "client" u raw msg fid).1.thread_to_anchor_id (u, tid)
      = some A := by
  have hpres := fun th anch => resolve_preserves_binding st u tid A th anch hb hA
  unfold _route_message
  simp only [show (("client" : String) == "client") = true from rfl, if_true]
  split
  · exact hb
  · split
    · rename_i tgt htg
      split
      · split
        · rename_i tgt2 tid2 htg2 hth2
          split
          · rename_i resolved hres
            by_cases heq : tid2 = tid
            · subst heq
              have hal := resolve_target_of_bound st u _ A _ _ tgt2 hb hA hth2 htg2
              have hsock := hcons tgt2 hal
              rw [resolve_preserves_socket_map, hsock, pyTruthyOpt_some A hA] at hres
              have hr2 := Option.some.inj hres
              subst hr2
              exact alookup_aset_self _ _ _
            · have hne : ((u, tid) : TKey) ≠ (u, tid2) :=
                fun hc => heq (congrArg Prod.snd hc).symm
              exact (alookup_aset_ne _ _ _ _ hne).trans (hpres _ _)
          · exact hpres _ _
        · exact hpres _ _
      · split
        · rename_i tgt2 tid2 htg2 hth2
          split
          · rename_i resolved hres
            by_cases heq : tid2 = tid
            · subst heq
              have hal := resolve_target_of_bound st u _ A _ _ tgt2 hb hA hth2 htg2
              have hsock := hcons tgt2 hal
              rw [resolve_preserves_socket_map, hsock, pyTruthyOpt_some A hA] at hres
              have hr2 := Option.some.inj hres
              subst hr2
              exact alookup_aset_self _ _ _
            · have hne : ((u, tid) : TKey) ≠ (u, tid2) :=
                fun hc => heq (congrArg Prod.snd hc).symm
              exact (alookup_aset_ne _ _ _ _ hne).trans (hpres _ _)
          · exact hpres _ _
        · exact hpres _ _
    · rename_i htgn
      simp only [htgn]
      split <;> exact hpres _ _

/-- `_subscribe_socket_locked` never touches `socket_to_anchor_id`. -/
theorem subscribe_socket_map (st : HubState) (socket : Socket) (role : String)
    (tkey : TKey) (tid : ThreadId) :
    (_subscribe_socket_locked st socket role tkey tid).socket_to_anchor_id
      = st.socket_to_anchor_id := by
  unfold _subscribe_socket_locked
  by_cases hc : (role == "client") = true
  · rcases h : alookup st.client_sockets socket with _ | ths <;> simp [h, hc]
  · rcases h : alookup st.anchor_sockets socket with _ | ths <;> simp [h, hc]

/-- Tearing down the socket registered as the bound anchor `A` clears the
memo binding of every thread bound to `A` and persists the clearing to
storage (`set_relay_thread_anchor … none`). -/
theorem remove_socket_clears_binding (st : HubState) (socket : Socket) (u : UserId)
    (A : AnchorId) (t : ThreadId)
    (hu : userOf st socket = some u)
    (ha : alookup st.socket_to_anchor_id socket = some A)
    (hA : A ≠ "")
    (hown : alookup st.anchor_id_to_socket (u, A) = some socket)
    (hb : alookup st.thread_to_anchor_id (u, t) = some A) :
    alookup (_remove_socket_locked st socket "anchor").1.thread_to_anchor_id (u, t) = none
    ∧ (Db.get_relay_thread_state (_remove_socket_locked st socket "anchor").1.db u t).map
        (fun r => r.bound_anchor_id) = some none := by
  have hmem : ((u, t) : TKey) ∈ (st.thread_to_anchor_id.filter
      (fun (p : TKey × AnchorId) => p.1.1 == u && p.2 == A)).map
      (fun (p : TKey × AnchorId) => p.1) := by
    unfold alookup at hb
    rcases hf : st.thread_to_anchor_id.find? (fun p => decide (p.1 = (u, t))) with _ | p0
    · rw [hf] at hb
      cases hb
    · rw [hf] at hb
      have hkey : p0.1 = (u, t) := by simpa using List.find?_some hf
      have hval : p0.2 = A := by simpa using hb
      exact List.mem_map.mpr ⟨p0, List.mem_filter.mpr
        ⟨List.mem_of_find?_eq_some hf, by simp [hkey, hval]⟩, hkey⟩
  unfold _remove_socket_locked
  simp only [hu, show (("anchor" : String) == "client") = false from rfl, Bool.false_eq_true,
    if_false, reduceIte, ha, pyTruthyOpt_some A hA, hown, if_pos]
  constructor
  · rw [(remove_bindings_foldl_proj _ _).1, alookup_foldl_aremove, if_pos hmem]
  · rw [(remove_bindings_foldl_proj _ _).2, get_relay_thread_state_foldl_clear, if_pos hmem]

/-- An anchor's `orbit.subscribe` writes its own announced id over the
thread's binding, in memo and storage — whatever was bound before. -/
theorem anchor_subscribe_rebinds (st : HubState) (socket : Socket) (u : UserId)
    (msg : Relay.Jobj) (freshReq : String) (hexFor : AnchorId → String)
    (s1 : String) (aid : AnchorId)
    (htype : Relay.jget msg "type" = some (Relay.JValue.str "orbit.subscribe"))
    (hth : Relay.jget msg "threadId" = some (Relay.JValue.str s1))
    (hne : Relay.pyStrip s1 ≠ "")
    (haid : alookup st.socket_to_anchor_id socket = some aid)
    (hA : aid ≠ "") :
    ∃ r, _handle_control st socket "anchor" u msg freshReq hexFor = some r
      ∧ alookup r.1.thread_to_anchor_id (u, Relay.pyStrip s1) = some aid
      ∧ (Db.get_relay_thread_state r.1.db u (Relay.pyStrip s1)).map
          (fun row => row.bound_anchor_id) = some (some aid) := by
  unfold _handle_control
  simp only [htype, hth, Option.isSome_some, Bool.and_true,
    show (("anchor" : String) == "client") = false from rfl,
    show (("anchor" : String) == "anchor") = true from rfl, if_true, Bool.false_eq_true,
    if_false, decide_eq_true_eq, reduceIte]
  rw [if_neg hne]
  rw [subscribe_socket_map, haid, pyTruthyOpt_some aid hA]
  refine ⟨_, rfl, ?_, ?_⟩
  · exact alookup_aset_self _ _ _
  · exact get_set_relay_thread_anchor_self _ _ _ _

/-- C2 (amended): lifecycle of `thread_to_anchor[(user, thread)]`. (a) A
replay only `setdefault`s the memo, so an existing binding survives.
(b) A client-originated route preserves a truthy binding whenever the
anchor maps are consistent at the bound id — the re-write it performs
writes the same id back. (c) Unregistering the socket registered as the
bound anchor clears the binding and persists the clearing via
`set_relay_thread_anchor(user, thread, none)`. (d) But the binding is not
sticky: an anchor's `orbit.subscribe` unconditionally rebinds the thread
to the subscribing anchor's own id, in memo and storage. -/
theorem thread_binding_lifecycle :
    (∀ (st : HubState) (socket : Socket) (u : UserId) (tid : ThreadId) (b : AnchorId),
      alookup st.thread_to_anchor_id (u, tid) = some b →
      alookup (_replay_thread_state st socket u tid).1.thread_to_anchor_id (u, tid) = some b)
    ∧ (∀ (st : HubState) (socket : Socket) (u : UserId) (raw : String)
      (msg : Option Relay.Jobj) (fid : String) (tid : ThreadId) (A : AnchorId),
      alookup st.thread_to_anchor_id (u, tid) = some A →
      A ≠ "" →
      (∀ s2, alookup st.anchor_id_to_socket (u, A) = some s2 →
        alookup st.socket_to_anchor_id s2 = some A) →
      alookup (_route_message st socket "client" u raw msg fid).1.thread_to_anchor_id (u, tid)
        = some A)
    ∧ (∀ (st : HubState) (socket : Socket) (u : UserId) (A : AnchorId) (t : ThreadId),
      userOf st socket = some u →
      alookup st.socket_to_anchor_id socket = some A →
      A ≠ "" →
      alookup st.anchor_id_to_socket (u, A) = some socket →
      alookup st.thread_to_anchor_id (u, t) = some A →
      alookup (_remove_socket_locked st socket "anchor").1.thread_to_anchor_id (u, t) = none
      ∧ (Db.get_relay_thread_state (_remove_socket_locked st socket
          "anchor").1.db u t).map (fun r => r.bound_anchor_id) = some none)
    ∧ (∀ (st : HubState) (socket : Socket) (u : UserId) (msg : Relay.Jobj)
      (freshReq : String) (hexFor : AnchorId → String) (s1 : String) (aid : AnchorId),
      Relay.jget msg "type" = some (Relay.JValue.str "orbit.subscribe") →
      Relay.jget msg "threadId" = some (Relay.JValue.str s1) →
      Relay.pyStrip s1 ≠ "" →
      alookup st.socket_to_anchor_id socket = some aid →
      aid ≠ "" →
      ∃ r, _handle_control st socket "anchor" u msg freshReq hexFor = some r
        ∧ alookup r.1.thread_to_anchor_id (u, Relay.pyStrip s1) = some aid
        ∧ (Db.get_relay_thread_state r.1.db u (Relay.pyStrip s1)).map
            (fun row => row.bound_anchor_id) = some (some aid)) :=
  ⟨replay_preserves_binding, route_client_preserves_binding,
    remove_socket_clears_binding, anchor_subscribe_rebinds⟩

/-- Witness for C2 (amended): in the `scnA3` family — thread `t` bound to
anchor `A` on socket 1 — a replay keeps the binding, a client route in
`scnA5c` keeps it, unregistering socket 1 clears memo and storage, and
anchor `B` subscribing in `scnA5` rebinds `t` to `B`. -/
theorem thread_binding_lifecycle_witness :
    alookup (_replay_thread_state scnA3 1 "u" "t").1.thread_to_anchor_id ("u", "t")
      = some "A"
    ∧ alookup (_route_message scnA5c 0 "client" "u" "" none "i").1.thread_to_anchor_id
        ("u", "t") = some "A"
    ∧ (alookup (_remove_socket_locked scnA3 1 "anchor").1.thread_to_anchor_id ("u", "t")
        = none
      ∧ (Db.get_relay_thread_state (_remove_socket_locked scnA3 1
          "anchor").1.db "u" "t").map (fun r => r.bound_anchor_id) = some none)
    ∧ ∃ r, _handle_control scnA5 3 "anchor" "u" (subscribeMsgFor "t") "fr"
          (fun _ => "00000000") = some r
        ∧ alookup r.1.thread_to_anchor_id ("u", "t") = some "B"
        ∧ (Db.get_relay_thread_state r.1.db "u" "t").map
            (fun row => row.bound_anchor_id) = some (some "B") := by
  refine ⟨thread_binding_lifecycle.1 scnA3 1 "u" "t" "A" rfl,
    thread_binding_lifecycle.2.1 scnA5c 0 "u" "" none "i" "t" "A" rfl (by decide)
      (fun s2 h => by cases h; rfl),
    thread_binding_lifecycle.2.2.1 scnA3 1 "u" "A" "t" rfl rfl (by decide) rfl rfl,
    ?_⟩
  exact thread_binding_lifecycle.2.2.2 scnA5 3 "u" (subscribeMsgFor "t") "fr"
    (fun _ => "00000000") "t" "B" rfl rfl (by decide) rfl (by decide)

/-- C2 counterexample: the binding is rebound, not sticky. In the
reachable state `scnA5` thread `t` is bound to `A`, whose socket 1 is
still registered and still owns `(u, A)`; anchor `B` on socket 3 then
subscribes to `t` (state `scnA6`), and the binding changes to `B` without
any disconnect of `A`. -/
theorem thread_binding_sticky_counterexample :
    Reachable scnA6 ∧
    alookup scnA5.thread_to_anchor_id ("u", "t") = some "A" ∧
    alookup scnA6.thread_to_anchor_id ("u", "t") = some "B" ∧
    ("A" : String) ≠ "B" ∧
    userOf scnA6 1 = some "u" ∧
    alookup scnA6.anchor_id_to_socket ("u", "A") = some 1 := by
  refine ⟨?_, rfl, rfl, by decide, by decide, rfl⟩
  refine Relation.ReflTransGen.tail (Relation.ReflTransGen.tail (Relation.ReflTransGen.tail
    (Relation.ReflTransGen.tail (Relation.ReflTransGen.single
      (Step.register initState 1 "u" none (by decide)))
      (Step.handle scnA1 1 "" (some (helloMsgFor "A")) oracleA))
      (Step.handle scnA2 1 "" (some (subscribeMsgFor "t")) oracleA))
      (Step.register scnA3 3 "u" none (by decide)))
    (Step.handle scnA4 3 "" (some (helloMsgFor "B")) oracleA) |>.tail
    (Step.handle scnA5 3 "" (some (subscribeMsgFor "t")) oracleA)


theorem x_lookupSet_discard_ne {K : Type} [DecidableEq K]
    (m : List (K × List Socket)) (k k2 : K) (x : Socket) (h : k2 ≠ k) :
    lookupSet (discardFromSetMap m k x) k2 = lookupSet m k2 := by
  unfold discardFromSetMap
  rcases hl : alookup m k with _ | l
  · rfl
  · by_cases hnil : l = []
    · simp [hnil]
    · simp only [hnil, if_false, reduceIte]
      by_cases hnil2 : sdel l x = []
      · simp only [hnil2, if_true, reduceIte]
        unfold lookupSet
        rw [alookup_aremove_ne _ _ _ h]
      · simp only [hnil2, if_false, reduceIte]
        unfold lookupSet
        rw [alookup_aset_ne _ _ _ _ h]

theorem x_mem_lookupSet_discard {K : Type} [DecidableEq K]
    (m : List (K × List Socket)) (k k2 : K) (x s : Socket)
    (hm : s ∈ lookupSet (discardFromSetMap m k x) k2) :
    s ∈ lookupSet m k2 ∧ (k2 = k → s ≠ x) := by
  by_cases hk : k2 = k
  · subst hk
    unfold discardFromSetMap at hm
    rcases hl : alookup m k2 with _ | l
    · simp only [hl] at hm
      exact ⟨hm, fun _ => by
        unfold lookupSet at hm
        rw [hl] at hm
        cases hm⟩
    · simp only [hl] at hm
      by_cases hnil : l = []
      · rw [if_pos hnil] at hm
        unfold lookupSet at hm
        rw [hl, hnil] at hm
        cases hm
      · rw [if_neg hnil] at hm
        by_cases hnil2 : sdel l x = []
        · rw [if_pos hnil2] at hm
          unfold lookupSet at hm
          rw [alookup_aremove_self] at hm
          cases hm
        · rw [if_neg hnil2] at hm
          unfold lookupSet at hm
          rw [alookup_aset_self] at hm
          have := (mem_sdel l x s).mp hm
          exact ⟨by unfold lookupSet; rw [hl]; exact this.1, fun _ => this.2⟩
  · rw [x_lookupSet_discard_ne _ _ _ _ hk] at hm
    exact ⟨hm, fun hc => absurd hc hk⟩

theorem x_mem_lookupSet_removeThreads (m : List (TKey × List Socket)) (u : UserId)
    (threads : List ThreadId) (x s : Socket) (u2 : UserId) (t : ThreadId)
    (hm : s ∈ lookupSet (removeThreads m u threads x) (u2, t)) :
    s ∈ lookupSet m (u2, t) ∧ (u2 = u → t ∈ threads → s ≠ x) := by
  induction threads generalizing m with
  | nil => exact ⟨hm, fun _ ht => absurd ht (List.not_mem_nil _)⟩
  | cons a rest ih =>
    unfold removeThreads at hm ih
    rw [List.foldl_cons] at hm
    obtain ⟨h1, h2⟩ := ih _ hm
    obtain ⟨h3, h4⟩ := x_mem_lookupSet_discard m (u, a) (u2, t) x s h1
    refine ⟨h3, fun hu ht => ?_⟩
    rcases List.mem_cons.mp ht with rfl | ht2
    · exact h4 (by rw [hu])
    · exact h2 hu ht2

theorem x_mem_sdel_elim {A : Type} [DecidableEq A] (l : List A) (a x : A)
    (h : x ∈ sdel l a) : x ∈ l ∧ x ≠ a :=
  (mem_sdel l a x).mp h

theorem x_mem_lookupSet_aset_sadd {K : Type} [DecidableEq K]
    (m : List (K × List Socket)) (k k2 : K) (x s : Socket)
    (hm : s ∈ lookupSet (aset m k (sadd (lookupSet m k) x)) k2) :
    s ∈ lookupSet m k2 ∨ (k2 = k ∧ s = x) := by
  by_cases hk : k2 = k
  · subst hk
    unfold lookupSet at hm
    rw [alookup_aset_self] at hm
    simp only [Option.getD_some] at hm
    rcases (mem_sadd (lookupSet m k2) x s).mp hm with h | h
    · left
      exact h
    · right
      exact ⟨rfl, h⟩
  · unfold lookupSet at hm
    rw [alookup_aset_ne _ _ _ _ hk] at hm
    left
    exact hm

theorem x_alookup_mem {K V : Type} [DecidableEq K] {l : List (K × V)} {k : K} {v : V}
    (h : alookup l k = some v) : (k, v) ∈ l := by
  unfold alookup at h
  rcases hf : l.find? (fun p => decide (p.1 = k)) with _ | p0
  · rw [hf] at h
    cases h
  · rw [hf] at h
    cases h
    have hkey : p0.1 = k := by simpa using List.find?_some hf
    have := List.mem_of_find?_eq_some hf
    rwa [show (k, p0.2) = p0 from by rw [← hkey]] at *
    
theorem x_mem_aset_elim {K V : Type} [DecidableEq K] {l : List (K × V)} {k : K} {v : V}
    {p : K × V} (h : p ∈ aset l k v) : p ∈ l ∨ p = (k, v) := by
  unfold aset at h
  by_cases hany : l.any (fun q => decide (q.1 = k))
  · rw [if_pos hany] at h
    obtain ⟨q, hq, heq⟩ := List.mem_map.mp h
    by_cases hk : q.1 = k
    · rw [if_pos hk] at heq
      right
      exact heq.symm
    · rw [if_neg hk] at heq
      left
      exact heq ▸ hq
  · rw [if_neg hany] at h
    rcases List.mem_append.mp h with h2 | h2
    · left
      exact h2
    · right
      simpa using h2

theorem x_mem_foldl_aset_elim {K V : Type} [DecidableEq K]
    (ps : List (K × V)) (l : List (K × V)) (p : K × V)
    (h : p ∈ ps.foldl (fun acc q => aset acc q.1 q.2) l) :
    p ∈ l ∨ p ∈ ps := by
  induction ps generalizing l with
  | nil => exact Or.inl h
  | cons q rest ih =>
    rw [List.foldl_cons] at h
    rcases ih _ h with h2 | h2
    · rcases x_mem_aset_elim h2 with h3 | h3
      · exact Or.inl h3
      · exact Or.inr (by simp [h3])
    · exact Or.inr (List.mem_cons_of_mem _ h2)

theorem x_mem_asetdefault_elim {K V : Type} [DecidableEq K] {l : List (K × V)} {k : K}
    {v : V} {p : K × V} (h : p ∈ asetdefault l k v) : p ∈ l ∨ p = (k, v) := by
  unfold asetdefault at h
  by_cases hany : l.any (fun q => decide (q.1 = k))
  · rw [if_pos hany] at h
    exact Or.inl h
  · rw [if_neg hany] at h
    rcases List.mem_append.mp h with h2 | h2
    · exact Or.inl h2
    · right
      simpa using h2

theorem x_userConsistent_init : UserConsistent initState := by
  refine ⟨?_, ?_, ?_, ?_, ?_, ?_, ?_, ?_, ?_, ?_⟩ <;> intros <;>
    simp_all [initState, lookupSet, alookup]

theorem x_not_mem_lookupSet_of_all {K : Type} [DecidableEq K]
    (m : List (K × List Socket)) (k : K) (x : Socket)
    (h : m.all (fun p => !(p.2.contains x)) = true) : x ∉ lookupSet m k := by
  intro hm
  unfold lookupSet at hm
  rcases hl : alookup m k with _ | l
  · rw [hl] at hm
    cases hm
  · rw [hl] at hm
    simp only [Option.getD_some] at hm
    have hpair := x_alookup_mem hl
    have := List.all_eq_true.mp h _ hpair
    simp only [Bool.not_eq_true'] at this
    rw [List.contains_eq_any_beq] at this
    have h2 : ¬ (x ∈ l) := by
      intro hx
      have : l.any (fun b => x == b) = true := List.any_eq_true.mpr ⟨x, hx, by simp⟩
      simp_all
    exact h2 hm

theorem x_freshSocket_spec (st : HubState) (socket : Socket)
    (h : freshSocket st socket = true) :
    userOf st socket = none
    ∧ (∀ u, socket ∉ lookupSet st.user_to_client_sockets u)
    ∧ (∀ u, socket ∉ lookupSet st.user_to_anchor_sockets u)
    ∧ (∀ k : TKey, socket ∉ lookupSet st.thread_to_clients k)
    ∧ (∀ k : TKey, socket ∉ lookupSet st.thread_to_anchors k)
    ∧ (∀ p ∈ st.anchor_id_to_socket, p.2 ≠ socket)
    ∧ (∀ p ∈ st.client_id_to_socket, p.2 ≠ socket)
    ∧ (∀ p ∈ st.pending_anchor_requests, p.1.1 ≠ socket ∧ p.2 ≠ socket)
    ∧ (∀ p ∈ st.pending_client_requests, p.1.1 ≠ socket ∧ p.2 ≠ socket)
    ∧ (∀ p ∈ st.pending_multi_dispatch, p.1.1 ≠ socket)
    ∧ (∀ p ∈ st.pending_multi_dispatch_responses, p.1.1 ≠ socket ∧ p.2.1.1 ≠ socket) := by
  unfold freshSocket at h
  simp only [Bool.and_eq_true] at h
  obtain ⟨⟨⟨⟨⟨⟨⟨⟨⟨⟨h0, h1⟩, h2⟩, h3⟩, h4⟩, h5⟩, h6⟩, h7⟩, h8⟩, h9⟩, h10⟩ := h
  refine ⟨Option.isNone_iff_eq_none.mp h0,
    fun u => x_not_mem_lookupSet_of_all _ _ _ h1,
    fun u => x_not_mem_lookupSet_of_all _ _ _ h2,
    fun k => x_not_mem_lookupSet_of_all _ _ _ h3,
    fun k => x_not_mem_lookupSet_of_all _ _ _ h4,
    fun p hp => by simpa using List.all_eq_true.mp h5 _ hp,
    fun p hp => by simpa using List.all_eq_true.mp h6 _ hp,
    fun p hp => by simpa using List.all_eq_true.mp h7 _ hp,
    fun p hp => by simpa using List.all_eq_true.mp h8 _ hp,
    fun p hp => by simpa using List.all_eq_true.mp h9 _ hp,
    fun p hp => by simpa using List.all_eq_true.mp h10 _ hp⟩

theorem x_uc_of_tta_db (st : HubState) (T : List (TKey × AnchorId)) (D : Db.DbState)
    (h : UserConsistent st) :
    UserConsistent { st with thread_to_anchor_id := T, db := D } :=
  ⟨h.utc, h.uta, h.ttc, h.tta, h.aits, h.citc, h.par, h.pcr, h.pmd, h.pmdr⟩

theorem x_lookupBoundAnchor_shape (st : HubState) (u : UserId) (tid : ThreadId) :
    ∃ T, (lookupBoundAnchor st u tid).1 = { st with thread_to_anchor_id := T } := by
  unfold lookupBoundAnchor
  rcases hm : pyTruthyOpt (alookup st.thread_to_anchor_id (u, tid)) with _ | b
  · simp only [hm]
    rcases hg : Db.get_relay_thread_state st.db u tid with _ | row
    · simp only [hg]
      exact ⟨st.thread_to_anchor_id, rfl⟩
    · simp only [hg]
      rcases hb : pyTruthyOpt row.bound_anchor_id with _ | b2
      · simp only [hb]
        exact ⟨st.thread_to_anchor_id, rfl⟩
      · simp only [hb]
        exact ⟨_, rfl⟩
  · simp only [hm]
    exact ⟨st.thread_to_anchor_id, rfl⟩

theorem x_resolve_shape (st : HubState) (u : UserId) (th anch : Option String) :
    ∃ T, (_resolve_client_target_locked st u th anch).1
      = { st with thread_to_anchor_id := T } := by
  unfold _resolve_client_target_locked
  rcases ha : pyTruthyOpt anch with _ | aid
  · simp only [ha]
    rcases ht : pyTruthyOpt th with _ | tid
    · simp only [ht, resolveFallthrough]
      rcases hl : lookupSet st.user_to_anchor_sockets u with _ | ⟨a, rest⟩
      · simp only [hl]
        exact ⟨st.thread_to_anchor_id, rfl⟩
      · rcases rest with _ | r2 <;> simp only [hl] <;> exact ⟨st.thread_to_anchor_id, rfl⟩
    · simp only [ht]
      obtain ⟨T, hT⟩ := x_lookupBoundAnchor_shape st u tid
      rcases hb : (lookupBoundAnchor st u tid).2 with _ | b
      · simp only [hb]
        rcases hl : lookupSet (lookupBoundAnchor st u tid).1.thread_to_anchors (u, tid)
            with _ | ⟨a, rest⟩
        · simp only [hl, resolveFallthrough]
          rcases hl2 : lookupSet (lookupBoundAnchor st u tid).1.user_to_anchor_sockets u
              with _ | ⟨a2, r2⟩
          · simp only [hl2]
            exact ⟨T, hT⟩
          · rcases r2 with _ | r3 <;> simp only [hl2] <;> exact ⟨T, hT⟩
        · rcases rest with _ | r2 <;> simp only [hl] <;> exact ⟨T, hT⟩
      · simp only [hb]
        rcases hl : alookup (lookupBoundAnchor st u tid).1.anchor_id_to_socket (u, b)
            with _ | tgt <;> simp only [hl] <;> exact ⟨T, hT⟩
  · simp only [ha]
    rcases hl : alookup st.anchor_id_to_socket (u, aid) with _ | target
    · simp only [hl]
      exact ⟨st.thread_to_anchor_id, rfl⟩
    · simp only [hl]
      rcases ht : pyTruthyOpt th with _ | tid
      · simp only [ht]
        exact ⟨st.thread_to_anchor_id, rfl⟩
      · simp only [ht]
        obtain ⟨T, hT⟩ := x_lookupBoundAnchor_shape st u tid
        rcases hb : (lookupBoundAnchor st u tid).2 with _ | b
        · simp only [hb]
          exact ⟨T, hT⟩
        · simp only [hb]
          by_cases hba : b ≠ aid
          · rw [if_pos hba]
            exact ⟨T, hT⟩
          · rw [if_neg hba]
            exact ⟨T, hT⟩

theorem x_alookup_aremove_eq {K V : Type} [DecidableEq K] (l : List (K × V)) (k k2 : K) :
    alookup (aremove l k) k2 = if k2 = k then none else alookup l k2 := by
  by_cases h : k2 = k
  · rw [if_pos h, h, alookup_aremove_self]
  · rw [if_neg h, alookup_aremove_ne _ _ _ h]

theorem x_mem_aremove_elim {K V : Type} [DecidableEq K] {l : List (K × V)} {k : K}
    {p : K × V} (h : p ∈ aremove l k) : p ∈ l :=
  (List.mem_filter.mp h).1

theorem x_uc_transfer (st st2 : HubState) (socket : Socket)
    (hInv : UserConsistent st)
    (hstu : st2.socket_to_user_id = aremove st.socket_to_user_id socket)
    (hutc : ∀ u s, s ∈ lookupSet st2.user_to_client_sockets u →
      s ∈ lookupSet st.user_to_client_sockets u)
    (huta : ∀ u s, s ∈ lookupSet st2.user_to_anchor_sockets u →
      s ∈ lookupSet st.user_to_anchor_sockets u)
    (httc : ∀ (k : TKey) s, s ∈ lookupSet st2.thread_to_clients k →
      s ∈ lookupSet st.thread_to_clients k)
    (htta : ∀ (k : TKey) s, s ∈ lookupSet st2.thread_to_anchors k →
      s ∈ lookupSet st.thread_to_anchors k)
    (haits : ∀ p ∈ st2.anchor_id_to_socket, p ∈ st.anchor_id_to_socket)
    (hcitc : ∀ p ∈ st2.client_id_to_socket, p ∈ st.client_id_to_socket)
    (hpar : ∀ p ∈ st2.pending_anchor_requests,
      p ∈ st.pending_anchor_requests ∧ p.1.1 ≠ socket ∧ p.2 ≠ socket)
    (hpcr : ∀ p ∈ st2.pending_client_requests,
      p ∈ st.pending_client_requests ∧ p.1.1 ≠ socket ∧ p.2 ≠ socket)
    (hpmd : ∀ p ∈ st2.pending_multi_dispatch,
      p ∈ st.pending_multi_dispatch ∧ p.1.1 ≠ socket)
    (hpmdr : ∀ p ∈ st2.pending_multi_dispatch_responses,
      p ∈ st.pending_multi_dispatch_responses ∧ p.1.1 ≠ socket ∧ p.2.1.1 ≠ socket) :
    UserConsistent st2 := by
  have huser : ∀ s, userOf st2 s = if s = socket then none else userOf st s := by
    intro s
    show alookup st2.socket_to_user_id s = _
    rw [hstu, x_alookup_aremove_eq]
    rfl
  have hweak : ∀ s u, (userOf st s = some u ∨ userOf st s = none) →
      (userOf st2 s = some u ∨ userOf st2 s = none) := by
    intro s u h
    by_cases hs : s = socket
    · right
      rw [huser, if_pos hs]
    · rw [huser, if_neg hs]
      exact h
  have hsame : ∀ s, s ≠ socket → userOf st2 s = userOf st s := by
    intro s hs
    rw [huser, if_neg hs]
  constructor
  · exact fun u s hm => hweak s u (hInv.utc u s (hutc u s hm))
  · exact fun u s hm => hweak s u (hInv.uta u s (huta u s hm))
  · exact fun u t s hm => hweak s u (hInv.ttc u t s (httc (u, t) s hm))
  · exact fun u t s hm => hweak s u (hInv.tta u t s (htta (u, t) s hm))
  · exact fun p hp => hweak p.2 p.1.1 (hInv.aits p (haits p hp))
  · exact fun p hp => hweak p.2 p.1.1 (hInv.citc p (hcitc p hp))
  · intro p hp
    obtain ⟨hmem, h1, h2⟩ := hpar p hp
    obtain ⟨u2, ha, hb⟩ := hInv.par p hmem
    refine ⟨u2, by rw [hsame _ h2]; exact ha, ?_⟩
    rw [hsame _ h1]
    exact hb
  · intro p hp
    obtain ⟨hmem, h1, h2⟩ := hpcr p hp
    obtain ⟨u2, ha, hb⟩ := hInv.pcr p hmem
    refine ⟨u2, by rw [hsame _ h2]; exact ha, ?_⟩
    rw [hsame _ h1]
    exact hb
  · intro p hp
    obtain ⟨hmem, h1⟩ := hpmd p hp
    obtain ⟨heq, u2, hu⟩ := hInv.pmd p hmem
    refine ⟨heq, u2, ?_⟩
    rw [hsame _ h1]
    exact hu
  · intro p hp
    obtain ⟨hmem, h1, h2⟩ := hpmdr p hp
    obtain ⟨u2, ha, hb⟩ := hInv.pmdr p hmem
    refine ⟨u2, by rw [hsame _ h2]; exact ha, ?_⟩
    rw [hsame _ h1]
    exact hb

theorem x_remove_fold_shape (stale : List TKey) (s : HubState) :
    ∃ T D, (stale.foldl
      (fun (acc : HubState) (tk : TKey) =>
        { acc with
          thread_to_anchor_id := aremove acc.thread_to_anchor_id tk,
          db := Db.set_relay_thread_anchor acc.db tk.1 tk.2 none }) s)
      = { s with thread_to_anchor_id := T, db := D } := by
  induction stale generalizing s with
  | nil => exact ⟨s.thread_to_anchor_id, s.db, rfl⟩
  | cons a rest ih =>
    rw [List.foldl_cons]
    obtain ⟨T, D, h⟩ := ih _
    exact ⟨T, D, h⟩

theorem x_fold_socket_to_user_id (stale : List TKey) (s : HubState) :
    (stale.foldl
      (fun (acc : HubState) (tk : TKey) =>
        { acc with
          thread_to_anchor_id := aremove acc.thread_to_anchor_id tk,
          db := Db.set_relay_thread_anchor acc.db tk.1 tk.2 none }) s).socket_to_user_id
      = s.socket_to_user_id := by
  induction stale generalizing s with
  | nil => rfl
  | cons a rest ih =>
    rw [List.foldl_cons]
    exact ih _

theorem x_fold_user_to_client_sockets (stale : List TKey) (s : HubState) :
    (stale.foldl
      (fun (acc : HubState) (tk : TKey) =>
        { acc with
          thread_to_anchor_id := aremove acc.thread_to_anchor_id tk,
          db := Db.set_relay_thread_anchor acc.db tk.1 tk.2 none }) s).user_to_client_sockets
      = s.user_to_client_sockets := by
  induction stale generalizing s with
  | nil => rfl
  | cons a rest ih =>
    rw [List.foldl_cons]
    exact ih _

theorem x_fold_user_to_anchor_sockets (stale : List TKey) (s : HubState) :
    (stale.foldl
      (fun (acc : HubState) (tk : TKey) =>
        { acc with
          thread_to_anchor_id := aremove acc.thread_to_anchor_id tk,
          db := Db.set_relay_thread_anchor acc.db tk.1 tk.2 none }) s).user_to_anchor_sockets
      = s.user_to_anchor_sockets := by
  induction stale generalizing s with
  | nil => rfl
  | cons a rest ih =>
    rw [List.foldl_cons]
    exact ih _

theorem x_fold_client_sockets (stale : List TKey) (s : HubState) :
    (stale.foldl
      (fun (acc : HubState) (tk : TKey) =>
        { acc with
          thread_to_anchor_id := aremove acc.thread_to_anchor_id tk,
          db := Db.set_relay_thread_anchor acc.db tk.1 tk.2 none }) s).client_sockets
      = s.client_sockets := by
  induction stale generalizing s with
  | nil => rfl
  | cons a rest ih =>
    rw [List.foldl_cons]
    exact ih _

theorem x_fold_anchor_sockets (stale : List TKey) (s : HubState) :
    (stale.foldl
      (fun (acc : HubState) (tk : TKey) =>
        { acc with
          thread_to_anchor_id := aremove acc.thread_to_anchor_id tk,
          db := Db.set_relay_thread_anchor acc.db tk.1 tk.2 none }) s).anchor_sockets
      = s.anchor_sockets := by
  induction stale generalizing s with
  | nil => rfl
  | cons a rest ih =>
    rw [List.foldl_cons]
    exact ih _

theorem x_fold_anchor_meta (stale : List TKey) (s : HubState) :
    (stale.foldl
      (fun (acc : HubState) (tk : TKey) =>
        { acc with
          thread_to_anchor_id := aremove acc.thread_to_anchor_id tk,
          db := Db.set_relay_thread_anchor acc.db tk.1 tk.2 none }) s).anchor_meta
      = s.anchor_meta := by
  induction stale generalizing s with
  | nil => rfl
  | cons a rest ih =>
    rw [List.foldl_cons]
    exact ih _

theorem x_fold_anchor_id_to_socket (stale : List TKey) (s : HubState) :
    (stale.foldl
      (fun (acc : HubState) (tk : TKey) =>
        { acc with
          thread_to_anchor_id := aremove acc.thread_to_anchor_id tk,
          db := Db.set_relay_thread_anchor acc.db tk.1 tk.2 none }) s).anchor_id_to_socket
      = s.anchor_id_to_socket := by
  induction stale generalizing s with
  | nil => rfl
  | cons a rest ih =>
    rw [List.foldl_cons]
    exact ih _

theorem x_fold_socket_to_anchor_id (stale : List TKey) (s : HubState) :
    (stale.foldl
      (fun (acc : HubState) (tk : TKey) =>
        { acc with
          thread_to_anchor_id := aremove acc.thread_to_anchor_id tk,
          db := Db.set_relay_thread_anchor acc.db tk.1 tk.2 none }) s).socket_to_anchor_id
      = s.socket_to_anchor_id := by
  induction stale generalizing s with
  | nil => rfl
  | cons a rest ih =>
    rw [List.foldl_cons]
    exact ih _

theorem x_fold_client_id_to_socket (stale : List TKey) (s : HubState) :
    (stale.foldl
      (fun (acc : HubState) (tk : TKey) =>
        { acc with
          thread_to_anchor_id := aremove acc.thread_to_anchor_id tk,
          db := Db.set_relay_thread_anchor acc.db tk.1 tk.2 none }) s).client_id_to_socket
      = s.client_id_to_socket := by
  induction stale generalizing s with
  | nil => rfl
  | cons a rest ih =>
    rw [List.foldl_cons]
    exact ih _

theorem x_fold_socket_to_client_id (stale : List TKey) (s : HubState) :
    (stale.foldl
      (fun (acc : HubState) (tk : TKey) =>
        { acc with
          thread_to_anchor_id := aremove acc.thread_to_anchor_id tk,
          db := Db.set_relay_thread_anchor acc.db tk.1 tk.2 none }) s).socket_to_client_id
      = s.socket_to_client_id := by
  induction stale generalizing s with
  | nil => rfl
  | cons a rest ih =>
    rw [List.foldl_cons]
    exact ih _

theorem x_fold_thread_to_clients (stale : List TKey) (s : HubState) :
    (stale.foldl
      (fun (acc : HubState) (tk : TKey) =>
        { acc with
          thread_to_anchor_id := aremove acc.thread_to_anchor_id tk,
          db := Db.set_relay_thread_anchor acc.db tk.1 tk.2 none }) s).thread_to_clients
      = s.thread_to_clients := by
  induction stale generalizing s with
  | nil => rfl
  | cons a rest ih =>
    rw [List.foldl_cons]
    exact ih _

theorem x_fold_thread_to_anchors (stale : List TKey) (s : HubState) :
    (stale.foldl
      (fun (acc : HubState) (tk : TKey) =>
        { acc with
          thread_to_anchor_id := aremove acc.thread_to_anchor_id tk,
          db := Db.set_relay_thread_anchor acc.db tk.1 tk.2 none }) s).thread_to_anchors
      = s.thread_to_anchors := by
  induction stale generalizing s with
  | nil => rfl
  | cons a rest ih =>
    rw [List.foldl_cons]
    exact ih _

theorem x_fold_pending_client_requests (stale : List TKey) (s : HubState) :
    (stale.foldl
      (fun (acc : HubState) (tk : TKey) =>
        { acc with
          thread_to_anchor_id := aremove acc.thread_to_anchor_id tk,
          db := Db.set_relay_thread_anchor acc.db tk.1 tk.2 none }) s).pending_client_requests
      = s.pending_client_requests := by
  induction stale generalizing s with
  | nil => rfl
  | cons a rest ih =>
    rw [List.foldl_cons]
    exact ih _

theorem x_fold_pending_anchor_requests (stale : List TKey) (s : HubState) :
    (stale.foldl
      (fun (acc : HubState) (tk : TKey) =>
        { acc with
          thread_to_anchor_id := aremove acc.thread_to_anchor_id tk,
          db := Db.set_relay_thread_anchor acc.db tk.1 tk.2 none }) s).pending_anchor_requests
      = s.pending_anchor_requests := by
  induction stale generalizing s with
  | nil => rfl
  | cons a rest ih =>
    rw [List.foldl_cons]
    exact ih _

theorem x_fold_pending_multi_dispatch (stale : List TKey) (s : HubState) :
    (stale.foldl
      (fun (acc : HubState) (tk : TKey) =>
        { acc with
          thread_to_anchor_id := aremove acc.thread_to_anchor_id tk,
          db := Db.set_relay_thread_anchor acc.db tk.1 tk.2 none }) s).pending_multi_dispatch
      = s.pending_multi_dispatch := by
  induction stale generalizing s with
  | nil => rfl
  | cons a rest ih =>
    rw [List.foldl_cons]
    exact ih _

theorem x_fold_pending_multi_dispatch_responses (stale : List TKey) (s : HubState) :
    (stale.foldl
      (fun (acc : HubState) (tk : TKey) =>
        { acc with
          thread_to_anchor_id := aremove acc.thread_to_anchor_id tk,
          db := Db.set_relay_thread_anchor acc.db tk.1 tk.2 none }) s).pending_multi_dispatch_responses
      = s.pending_multi_dispatch_responses := by
  induction stale generalizing s with
  | nil => rfl
  | cons a rest ih =>
    rw [List.foldl_cons]
    exact ih _

theorem x_filter_par_fact (l : List ((Socket × String) × Socket)) (socket : Socket)
    (p : (Socket × String) × Socket)
    (hp : p ∈ l.filter (fun q => !(q.1.1 == socket || q.2 == socket))) :
    p ∈ l ∧ p.1.1 ≠ socket ∧ p.2 ≠ socket := by
  have h := List.mem_filter.mp hp
  refine ⟨h.1, ?_⟩
  simpa using h.2

theorem x_filter_pmd_fact (l : List ((Socket × String) × MultiDispatchAggregate))
    (socket : Socket) (p : (Socket × String) × MultiDispatchAggregate)
    (hp : p ∈ l.filter (fun q => !(q.1.1 == socket))) :
    p ∈ l ∧ p.1.1 ≠ socket := by
  have h := List.mem_filter.mp hp
  refine ⟨h.1, ?_⟩
  simpa using h.2

theorem x_filter_pmdr_fact (l : List ((Socket × String) × ((Socket × String) × AnchorId)))
    (socket : Socket) (p : (Socket × String) × ((Socket × String) × AnchorId))
    (hp : p ∈ l.filter (fun q => !(q.1.1 == socket || q.2.1.1 == socket))) :
    p ∈ l ∧ p.1.1 ≠ socket ∧ p.2.1.1 ≠ socket := by
  have h := List.mem_filter.mp hp
  refine ⟨h.1, ?_⟩
  simpa using h.2

theorem x_remove_master (st : HubState) (socket : Socket) (role : String)
    (hInv : UserConsistent st) :
    UserConsistent (_remove_socket_locked st socket role).1
    ∧ (_remove_socket_locked st socket role).1.socket_to_user_id
        = aremove st.socket_to_user_id socket
    ∧ (∀ u s, s ∈ lookupSet (_remove_socket_locked st socket role).1.user_to_client_sockets u →
        s ∈ lookupSet st.user_to_client_sockets u)
    ∧ (∀ m ∈ (_remove_socket_locked st socket role).2,
        ∃ u0, userOf st socket = some u0
          ∧ m.target ∈ lookupSet st.user_to_client_sockets u0) := by
  unfold _remove_socket_locked
  rcases hc : role == "client" with _ | _
  · -- anchor-side teardown
    simp only [hc, Bool.false_eq_true, if_false, reduceIte]
    rcases hu : userOf st socket with _ | u
    · simp only [hu]
      rcases haid : pyTruthyOpt (alookup st.socket_to_anchor_id socket) with _ | aid <;>
        simp only [haid] <;>
        exact ⟨x_uc_transfer st _ socket hInv rfl (fun _ _ hm => hm) (fun _ _ hm => hm)
          (fun _ _ hm => hm) (fun _ _ hm => hm) (fun _ hp => hp) (fun _ hp => hp)
          (fun p hp => x_filter_par_fact _ _ _ hp) (fun p hp => x_filter_par_fact _ _ _ hp)
          (fun p hp => x_filter_pmd_fact _ _ _ hp) (fun p hp => x_filter_pmdr_fact _ _ _ hp),
          (by trivial), fun _ _ hm => hm, by
            intro m hm
            rcases hmeta : alookup st.anchor_meta socket with _ | mta <;>
              simp only [hmeta] at hm <;> cases hm⟩
    · simp only [hu]
      rcases haid : pyTruthyOpt (alookup st.socket_to_anchor_id socket) with _ | aid
      · simp only [haid]
        refine ⟨x_uc_transfer st _ socket hInv rfl (fun _ _ hm => hm)
          (fun _ s hm => (x_mem_lookupSet_discard _ _ _ _ _ hm).1)
          (fun _ _ hm => hm)
          (fun k s hm => (x_mem_lookupSet_removeThreads _ _ _ _ _ k.1 k.2 hm).1)
          (fun _ hp => hp) (fun _ hp => hp)
          (fun p hp => x_filter_par_fact _ _ _ hp) (fun p hp => x_filter_par_fact _ _ _ hp)
          (fun p hp => x_filter_pmd_fact _ _ _ hp) (fun p hp => x_filter_pmdr_fact _ _ _ hp),
          (by trivial), fun _ _ hm => hm, ?_⟩
        intro m hm
        rcases hmeta : alookup st.anchor_meta socket with _ | mta <;>
          simp only [hmeta] at hm
        · cases hm
        · obtain ⟨c, hc2, rfl⟩ := List.mem_map.mp hm
          exact ⟨u, rfl, hc2⟩
      · simp only [haid]
        by_cases hown : alookup st.anchor_id_to_socket (u, aid) = some socket
        · rw [if_pos hown]
          simp only [x_fold_socket_to_user_id, x_fold_user_to_client_sockets,
            x_fold_user_to_anchor_sockets, x_fold_client_sockets, x_fold_anchor_sockets,
            x_fold_anchor_meta, x_fold_anchor_id_to_socket, x_fold_socket_to_anchor_id,
            x_fold_client_id_to_socket, x_fold_socket_to_client_id, x_fold_thread_to_clients,
            x_fold_thread_to_anchors, x_fold_pending_client_requests,
            x_fold_pending_anchor_requests, x_fold_pending_multi_dispatch,
            x_fold_pending_multi_dispatch_responses]
          refine ⟨x_uc_transfer st _ socket hInv rfl (fun _ _ hm => hm)
            (fun _ s hm => (x_mem_lookupSet_discard _ _ _ _ _ hm).1)
            (fun _ _ hm => hm)
            (fun k s hm => (x_mem_lookupSet_removeThreads _ _ _ _ _ k.1 k.2 hm).1)
            (fun _ hp => x_mem_aremove_elim hp) (fun _ hp => hp)
            (fun p hp => x_filter_par_fact _ _ _ hp) (fun p hp => x_filter_par_fact _ _ _ hp)
            (fun p hp => x_filter_pmd_fact _ _ _ hp) (fun p hp => x_filter_pmdr_fact _ _ _ hp),
            (by trivial), fun _ _ hm => hm, ?_⟩
          intro m hm
          rcases hmeta : alookup st.anchor_meta socket with _ | mta <;>
            simp only [hmeta] at hm
          · cases hm
          · obtain ⟨c, hc2, rfl⟩ := List.mem_map.mp hm
            exact ⟨u, rfl, hc2⟩
        · rw [if_neg hown]
          refine ⟨x_uc_transfer st _ socket hInv rfl (fun _ _ hm => hm)
            (fun _ s hm => (x_mem_lookupSet_discard _ _ _ _ _ hm).1)
            (fun _ _ hm => hm)
            (fun k s hm => (x_mem_lookupSet_removeThreads _ _ _ _ _ k.1 k.2 hm).1)
            (fun _ hp => hp) (fun _ hp => hp)
            (fun p hp => x_filter_par_fact _ _ _ hp) (fun p hp => x_filter_par_fact _ _ _ hp)
            (fun p hp => x_filter_pmd_fact _ _ _ hp) (fun p hp => x_filter_pmdr_fact _ _ _ hp),
            (by trivial), fun _ _ hm => hm, ?_⟩
          intro m hm
          rcases hmeta : alookup st.anchor_meta socket with _ | mta <;>
            simp only [hmeta] at hm
          · cases hm
          · obtain ⟨c, hc2, rfl⟩ := List.mem_map.mp hm
            exact ⟨u, rfl, hc2⟩
  · -- client-side teardown
    simp only [hc, if_true, reduceIte]
    rcases hu : userOf st socket with _ | u
    · simp only [hu]
      rcases hcid : alookup st.socket_to_client_id socket with _ | cid <;>
        simp only [hcid] <;>
        exact ⟨x_uc_transfer st _ socket hInv rfl (fun _ _ hm => hm) (fun _ _ hm => hm)
          (fun _ _ hm => hm) (fun _ _ hm => hm) (fun _ hp => hp) (fun _ hp => hp)
          (fun p hp => x_filter_par_fact _ _ _ hp) (fun p hp => x_filter_par_fact _ _ _ hp)
          (fun p hp => x_filter_pmd_fact _ _ _ hp) (fun p hp => x_filter_pmdr_fact _ _ _ hp),
          (by trivial), fun _ _ hm => hm, fun m hm => absurd hm (List.not_mem_nil m)⟩
    · simp only [hu]
      rcases hcid : alookup st.socket_to_client_id socket with _ | cid
      · simp only [hcid]
        exact ⟨x_uc_transfer st _ socket hInv rfl
          (fun _ s hm => (x_mem_lookupSet_discard _ _ _ _ _ hm).1)
          (fun _ _ hm => hm)
          (fun k s hm => (x_mem_lookupSet_removeThreads _ _ _ _ _ k.1 k.2 hm).1)
          (fun _ _ hm => hm)
          (fun _ hp => hp) (fun _ hp => hp)
          (fun p hp => x_filter_par_fact _ _ _ hp) (fun p hp => x_filter_par_fact _ _ _ hp)
          (fun p hp => x_filter_pmd_fact _ _ _ hp) (fun p hp => x_filter_pmdr_fact _ _ _ hp),
          (by trivial), fun _ s hm => (x_mem_lookupSet_discard _ _ _ _ _ hm).1,
          fun m hm => absurd hm (List.not_mem_nil m)⟩
      · simp only [hcid]
        by_cases hown : alookup st.client_id_to_socket (u, cid) = some socket
        · rw [if_pos hown]
          exact ⟨x_uc_transfer st _ socket hInv rfl
            (fun _ s hm => (x_mem_lookupSet_discard _ _ _ _ _ hm).1)
            (fun _ _ hm => hm)
            (fun k s hm => (x_mem_lookupSet_removeThreads _ _ _ _ _ k.1 k.2 hm).1)
            (fun _ _ hm => hm)
            (fun _ hp => hp) (fun _ hp => x_mem_aremove_elim hp)
            (fun p hp => x_filter_par_fact _ _ _ hp) (fun p hp => x_filter_par_fact _ _ _ hp)
            (fun p hp => x_filter_pmd_fact _ _ _ hp) (fun p hp => x_filter_pmdr_fact _ _ _ hp),
            (by trivial), fun _ s hm => (x_mem_lookupSet_discard _ _ _ _ _ hm).1,
            fun m hm => absurd hm (List.not_mem_nil m)⟩
        · rw [if_neg hown]
          exact ⟨x_uc_transfer st _ socket hInv rfl
            (fun _ s hm => (x_mem_lookupSet_discard _ _ _ _ _ hm).1)
            (fun _ _ hm => hm)
            (fun k s hm => (x_mem_lookupSet_removeThreads _ _ _ _ _ k.1 k.2 hm).1)
            (fun _ _ hm => hm)
            (fun _ hp => hp) (fun _ hp => hp)
            (fun p hp => x_filter_par_fact _ _ _ hp) (fun p hp => x_filter_par_fact _ _ _ hp)
            (fun p hp => x_filter_pmd_fact _ _ _ hp) (fun p hp => x_filter_pmdr_fact _ _ _ hp),
            (by trivial), fun _ s hm => (x_mem_lookupSet_discard _ _ _ _ _ hm).1,
            fun m hm => absurd hm (List.not_mem_nil m)⟩

theorem x_alookup_aset_eq {K V : Type} [DecidableEq K] (l : List (K × V)) (k k2 : K)
    (v : V) : alookup (aset l k v) k2 = if k2 = k then some v else alookup l k2 := by
  by_cases h : k2 = k
  · rw [if_pos h, h, alookup_aset_self]
  · rw [if_neg h, alookup_aset_ne _ _ _ _ h]

theorem x_uc_untouched (st : HubState) (CS AS : List (Socket × List ThreadId))
    (SA : List (Socket × AnchorId)) (SC : List (Socket × String))
    (AM : List (Socket × AnchorMeta)) (T : List (TKey × AnchorId)) (D : Db.DbState)
    (h : UserConsistent st) :
    UserConsistent { st with
      client_sockets := CS,
      anchor_sockets := AS,
      socket_to_anchor_id := SA,
      socket_to_client_id := SC,
      anchor_meta := AM,
      thread_to_anchor_id := T,
      db := D } :=
  ⟨h.utc, h.uta, h.ttc, h.tta, h.aits, h.citc, h.par, h.pcr, h.pmd, h.pmdr⟩

theorem x_uc_reg_transfer (st st2 : HubState) (socket : Socket) (user_id : UserId)
    (hInv : UserConsistent st) (hfresh : freshSocket st socket = true)
    (hstu : st2.socket_to_user_id = aset st.socket_to_user_id socket user_id)
    (hutc : ∀ u s, s ∈ lookupSet st2.user_to_client_sockets u →
      s ∈ lookupSet st.user_to_client_sockets u ∨ (s = socket ∧ u = user_id))
    (huta : ∀ u s, s ∈ lookupSet st2.user_to_anchor_sockets u →
      s ∈ lookupSet st.user_to_anchor_sockets u ∨ (s = socket ∧ u = user_id))
    (httc : ∀ (k : TKey) s, s ∈ lookupSet st2.thread_to_clients k →
      s ∈ lookupSet st.thread_to_clients k)
    (htta : ∀ (k : TKey) s, s ∈ lookupSet st2.thread_to_anchors k →
      s ∈ lookupSet st.thread_to_anchors k)
    (haits : ∀ p ∈ st2.anchor_id_to_socket, p ∈ st.anchor_id_to_socket)
    (hcitc : ∀ p ∈ st2.client_id_to_socket, p ∈ st.client_id_to_socket)
    (hpar : ∀ p ∈ st2.pending_anchor_requests, p ∈ st.pending_anchor_requests)
    (hpcr : ∀ p ∈ st2.pending_client_requests, p ∈ st.pending_client_requests)
    (hpmd : ∀ p ∈ st2.pending_multi_dispatch, p ∈ st.pending_multi_dispatch)
    (hpmdr : ∀ p ∈ st2.pending_multi_dispatch_responses,
      p ∈ st.pending_multi_dispatch_responses) :
    UserConsistent st2 := by
  obtain ⟨h0, h1, h2, h3, h4, h5, h6, h7, h8, h9, h10⟩ := x_freshSocket_spec st socket hfresh
  have huser : ∀ s, userOf st2 s = if s = socket then some user_id else userOf st s := by
    intro s
    show alookup st2.socket_to_user_id s = _
    rw [hstu, x_alookup_aset_eq]
    rfl
  have hsame : ∀ s, s ≠ socket → userOf st2 s = userOf st s := by
    intro s hs
    rw [huser, if_neg hs]
  have hself : userOf st2 socket = some user_id := by
    rw [huser, if_pos rfl]
  constructor
  · intro u s hm
    rcases hutc u s hm with h | ⟨hs, hu⟩
    · have hne : s ≠ socket := fun hc => h1 u (hc ▸ h)
      rw [hsame _ hne]
      exact hInv.utc u s h
    · subst hs
      subst hu
      left
      exact hself
  · intro u s hm
    rcases huta u s hm with h | ⟨hs, hu⟩
    · have hne : s ≠ socket := fun hc => h2 u (hc ▸ h)
      rw [hsame _ hne]
      exact hInv.uta u s h
    · subst hs
      subst hu
      left
      exact hself
  · intro u t s hm
    have h := httc (u, t) s hm
    have hne : s ≠ socket := fun hc => h3 (u, t) (hc ▸ h)
    rw [hsame _ hne]
    exact hInv.ttc u t s h
  · intro u t s hm
    have h := htta (u, t) s hm
    have hne : s ≠ socket := fun hc => h4 (u, t) (hc ▸ h)
    rw [hsame _ hne]
    exact hInv.tta u t s h
  · intro p hp
    have h := haits p hp
    rw [hsame _ (h5 p h)]
    exact hInv.aits p h
  · intro p hp
    have h := hcitc p hp
    rw [hsame _ (h6 p h)]
    exact hInv.citc p h
  · intro p hp
    have h := hpar p hp
    obtain ⟨u2, ha, hb⟩ := hInv.par p h
    exact ⟨u2, by rw [hsame _ (h7 p h).2]; exact ha, by rw [hsame _ (h7 p h).1]; exact hb⟩
  · intro p hp
    have h := hpcr p hp
    obtain ⟨u2, ha, hb⟩ := hInv.pcr p h
    exact ⟨u2, by rw [hsame _ (h8 p h).2]; exact ha, by rw [hsame _ (h8 p h).1]; exact hb⟩
  · intro p hp
    have h := hpmd p hp
    obtain ⟨heq, u2, hu⟩ := hInv.pmd p h
    exact ⟨heq, u2, by rw [hsame _ (h9 p h)]; exact hu⟩
  · intro p hp
    have h := hpmdr p hp
    obtain ⟨u2, ha, hb⟩ := hInv.pmdr p h
    exact ⟨u2, by rw [hsame _ (h10 p h).2]; exact ha, by rw [hsame _ (h10 p h).1]; exact hb⟩

theorem x_uc_citc_aset (st : HubState) (key : UserId × String) (socket : Socket)
    (hInv : UserConsistent st) (hu : userOf st socket = some key.1)
    (S2C : List (Socket × String)) :
    UserConsistent { st with
      client_id_to_socket := aset st.client_id_to_socket key socket,
      socket_to_client_id := S2C } := by
  refine ⟨hInv.utc, hInv.uta, hInv.ttc, hInv.tta, hInv.aits, ?_, hInv.par, hInv.pcr,
    hInv.pmd, hInv.pmdr⟩
  intro p hp
  rcases x_mem_aset_elim hp with h | h
  · exact hInv.citc p h
  · subst h
    left
    exact hu

theorem x_register_master (st : HubState) (socket : Socket) (role : String)
    (user_id : UserId) (client_id : Option String)
    (hInv : UserConsistent st) (hfresh : freshSocket st socket = true) :
    UserConsistent (register st socket role user_id client_id).1 := by
  unfold register
  rcases hc : role == "client" with _ | _
  · -- anchor-side register: no client-id eviction
    simp only [hc, Bool.false_eq_true, if_false, reduceIte]
    have U2 : UserConsistent { { st with
        socket_to_user_id := aset st.socket_to_user_id socket user_id } with
        user_to_anchor_sockets := aset st.user_to_anchor_sockets user_id
          (sadd (lookupSet st.user_to_anchor_sockets user_id) socket) } := by
      refine x_uc_reg_transfer st _ socket user_id hInv hfresh rfl
        (fun u s hm => Or.inl hm)
        (fun u s hm => ?_)
        (fun _ _ hm => hm) (fun _ _ hm => hm) (fun _ hp => hp) (fun _ hp => hp)
        (fun _ hp => hp) (fun _ hp => hp) (fun _ hp => hp) (fun _ hp => hp)
      rcases x_mem_lookupSet_aset_sadd _ _ _ _ _ hm with h | ⟨hk, hs⟩
      · exact Or.inl h
      · exact Or.inr ⟨hs, hk⟩
    exact x_uc_untouched _ _ _ _ _ _ _ _ U2
  · -- client-side register
    simp only [hc, if_true, reduceIte]
    have U2 : UserConsistent { { st with
        socket_to_user_id := aset st.socket_to_user_id socket user_id } with
        user_to_client_sockets := aset st.user_to_client_sockets user_id
          (sadd (lookupSet st.user_to_client_sockets user_id) socket) } := by
      refine x_uc_reg_transfer st _ socket user_id hInv hfresh rfl
        (fun u s hm => ?_)
        (fun u s hm => Or.inl hm)
        (fun _ _ hm => hm) (fun _ _ hm => hm) (fun _ hp => hp) (fun _ hp => hp)
        (fun _ hp => hp) (fun _ hp => hp) (fun _ hp => hp) (fun _ hp => hp)
      rcases x_mem_lookupSet_aset_sadd _ _ _ _ _ hm with h | ⟨hk, hs⟩
      · exact Or.inl h
      · exact Or.inr ⟨hs, hk⟩
    have hself : userOf { { st with
        socket_to_user_id := aset st.socket_to_user_id socket user_id } with
        user_to_client_sockets := aset st.user_to_client_sockets user_id
          (sadd (lookupSet st.user_to_client_sockets user_id) socket) } socket
        = some user_id := by
      show alookup (aset st.socket_to_user_id socket user_id) socket = some user_id
      exact alookup_aset_self _ _ _
    rcases hpc : pyTruthyOpt client_id with _ | cid
    · simp only [hpc]
      exact x_uc_untouched _ _ _ _ _ _ _ _ U2
    · simp only [hpc]
      rcases hex : alookup st.client_id_to_socket (user_id, cid) with _ | ex
      · simp only [hex]
        have UC := x_uc_citc_aset _ (user_id, cid) socket U2 hself
          (aset st.socket_to_client_id socket cid)
        exact x_uc_untouched _ _ _ _ _ _ _ _ UC
      · simp only [hex]
        by_cases hne : ex ≠ socket
        · rw [if_pos hne]
          obtain ⟨UR, hstuA, hshr, hnt⟩ := x_remove_master { { st with
              socket_to_user_id := aset st.socket_to_user_id socket user_id } with
              user_to_client_sockets := aset st.user_to_client_sockets user_id
                (sadd (lookupSet st.user_to_client_sockets user_id) socket) }
            ex "client" U2
          have hustA : userOf (_remove_socket_locked { { st with
              socket_to_user_id := aset st.socket_to_user_id socket user_id } with
              user_to_client_sockets := aset st.user_to_client_sockets user_id
                (sadd (lookupSet st.user_to_client_sockets user_id) socket) }
              ex "client").1 socket = some user_id := by
            show alookup _ socket = some user_id
            rw [hstuA, x_alookup_aremove_eq]
            rw [if_neg (fun h => hne h.symm)]
            exact alookup_aset_self _ _ _
          have UC := x_uc_citc_aset _ (user_id, cid) socket UR hustA
            (aset (_remove_socket_locked { { st with
              socket_to_user_id := aset st.socket_to_user_id socket user_id } with
              user_to_client_sockets := aset st.user_to_client_sockets user_id
                (sadd (lookupSet st.user_to_client_sockets user_id) socket) }
              ex "client").1.socket_to_client_id socket cid)
          exact x_uc_untouched _ _ _ _ _ _ _ _ UC
        · rw [if_neg hne]
          have UC := x_uc_citc_aset _ (user_id, cid) socket U2 hself
            (aset st.socket_to_client_id socket cid)
          exact x_uc_untouched _ _ _ _ _ _ _ _ UC

theorem x_uc_pends (st : HubState) (PAR PCR : List ((Socket × String) × Socket))
    (PMD : List ((Socket × String) × MultiDispatchAggregate))
    (PMDR : List ((Socket × String) × ((Socket × String) × AnchorId)))
    (hInv : UserConsistent st)
    (hpar : ∀ p ∈ PAR, ∃ u2, userOf st p.2 = some u2 ∧
      (userOf st p.1.1 = some u2 ∨ userOf st p.1.1 = none))
    (hpcr : ∀ p ∈ PCR, ∃ u2, userOf st p.2 = some u2 ∧
      (userOf st p.1.1 = some u2 ∨ userOf st p.1.1 = none))
    (hpmd : ∀ p ∈ PMD, p.2.requester_socket = p.1.1 ∧ ∃ u2, userOf st p.1.1 = some u2)
    (hpmdr : ∀ p ∈ PMDR, ∃ u2, userOf st p.2.1.1 = some u2 ∧
      (userOf st p.1.1 = some u2 ∨ userOf st p.1.1 = none)) :
    UserConsistent { st with
      pending_anchor_requests := PAR,
      pending_client_requests := PCR,
      pending_multi_dispatch := PMD,
      pending_multi_dispatch_responses := PMDR } :=
  ⟨hInv.utc, hInv.uta, hInv.ttc, hInv.tta, hInv.aits, hInv.citc, hpar, hpcr, hpmd, hpmdr⟩

theorem x_uc_ttc_add (st : HubState) (socket : Socket) (u : UserId) (tid : ThreadId)
    (hInv : UserConsistent st) (hu : userOf st socket = some u) :
    UserConsistent { st with
      thread_to_clients := aset st.thread_to_clients (u, tid)
        (sadd (lookupSet st.thread_to_clients (u, tid)) socket) } := by
  refine ⟨hInv.utc, hInv.uta, ?_, hInv.tta, hInv.aits, hInv.citc, hInv.par, hInv.pcr,
    hInv.pmd, hInv.pmdr⟩
  intro u2 t2 s hm
  rcases x_mem_lookupSet_aset_sadd _ _ _ _ _ hm with h | ⟨hk, hs⟩
  · exact hInv.ttc u2 t2 s h
  · obtain ⟨h1, h2⟩ := Prod.ext_iff.mp hk
    subst h1
    subst hs
    exact Or.inl hu

theorem x_uc_tta_add (st : HubState) (socket : Socket) (u : UserId) (tid : ThreadId)
    (hInv : UserConsistent st) (hu : userOf st socket = some u) :
    UserConsistent { st with
      thread_to_anchors := aset st.thread_to_anchors (u, tid)
        (sadd (lookupSet st.thread_to_anchors (u, tid)) socket) } := by
  refine ⟨hInv.utc, hInv.uta, hInv.ttc, ?_, hInv.aits, hInv.citc, hInv.par, hInv.pcr,
    hInv.pmd, hInv.pmdr⟩
  intro u2 t2 s hm
  rcases x_mem_lookupSet_aset_sadd _ _ _ _ _ hm with h | ⟨hk, hs⟩
  · exact hInv.tta u2 t2 s h
  · obtain ⟨h1, h2⟩ := Prod.ext_iff.mp hk
    subst h1
    subst hs
    exact Or.inl hu

theorem x_uc_ttc_sub (st : HubState) (M : List (TKey × List Socket))
    (hM : ∀ (k : TKey) s, s ∈ lookupSet M k → s ∈ lookupSet st.thread_to_clients k)
    (hInv : UserConsistent st) :
    UserConsistent { st with thread_to_clients := M } :=
  ⟨hInv.utc, hInv.uta, fun u t s hm => hInv.ttc u t s (hM (u, t) s hm), hInv.tta,
    hInv.aits, hInv.citc, hInv.par, hInv.pcr, hInv.pmd, hInv.pmdr⟩

theorem x_uc_tta_sub (st : HubState) (M : List (TKey × List Socket))
    (hM : ∀ (k : TKey) s, s ∈ lookupSet M k → s ∈ lookupSet st.thread_to_anchors k)
    (hInv : UserConsistent st) :
    UserConsistent { st with thread_to_anchors := M } :=
  ⟨hInv.utc, hInv.uta, hInv.ttc, fun u t s hm => hInv.tta u t s (hM (u, t) s hm),
    hInv.aits, hInv.citc, hInv.par, hInv.pcr, hInv.pmd, hInv.pmdr⟩

theorem x_uc_aits_aset (st : HubState) (key : UserId × AnchorId) (socket : Socket)
    (AM : List (Socket × AnchorMeta)) (SA : List (Socket × AnchorId))
    (hInv : UserConsistent st) (hu : userOf st socket = some key.1) :
    UserConsistent { st with
      anchor_meta := AM,
      anchor_id_to_socket := aset st.anchor_id_to_socket key socket,
      socket_to_anchor_id := SA } := by
  refine ⟨hInv.utc, hInv.uta, hInv.ttc, hInv.tta, ?_, hInv.citc, hInv.par, hInv.pcr,
    hInv.pmd, hInv.pmdr⟩
  intro p hp
  rcases x_mem_aset_elim hp with h | h
  · exact hInv.aits p h
  · subst h
    exact Or.inl hu

theorem x_replay_shape (st : HubState) (socket : Socket) (u : UserId) (tid : ThreadId) :
    ∃ T, (_replay_thread_state st socket u tid).1 = { st with thread_to_anchor_id := T } := by
  unfold _replay_thread_state
  rcases hg : Db.get_relay_thread_state st.db u tid with _ | row
  · simp only [hg]
    exact ⟨st.thread_to_anchor_id, rfl⟩
  · simp only [hg]
    rcases hb : pyTruthyOpt row.bound_anchor_id with _ | b
    · simp only [hb]
      exact ⟨st.thread_to_anchor_id, rfl⟩
    · simp only [hb]
      exact ⟨_, rfl⟩

theorem x_subscribe_preserves (st : HubState) (socket : Socket) (role : String)
    (u : UserId) (tid : ThreadId)
    (hInv : UserConsistent st) (hu : userOf st socket = some u) :
    UserConsistent (_subscribe_socket_locked st socket role (u, tid) tid) := by
  unfold _subscribe_socket_locked
  rcases hc : role == "client" with _ | _
  · simp only [hc, Bool.false_eq_true, if_false, reduceIte]
    rcases hcs : alookup st.anchor_sockets socket with _ | ths <;> simp only [hcs]
    · exact x_uc_tta_add st socket u tid hInv hu
    · exact x_uc_tta_add { st with
          anchor_sockets := aset st.anchor_sockets socket (sadd ths tid) } socket u tid
        (x_uc_untouched st _ _ _ _ _ _ _ hInv) hu
  · simp only [hc, if_true, reduceIte]
    rcases hcs : alookup st.client_sockets socket with _ | ths <;> simp only [hcs]
    · exact x_uc_ttc_add st socket u tid hInv hu
    · exact x_uc_ttc_add { st with
          client_sockets := aset st.client_sockets socket (sadd ths tid) } socket u tid
        (x_uc_untouched st _ _ _ _ _ _ _ hInv) hu

theorem x_unsubscribe_preserves (st : HubState) (socket : Socket) (role : String)
    (tkey : TKey) (tid : ThreadId) (hInv : UserConsistent st) :
    UserConsistent (_unsubscribe_socket_locked st socket role tkey tid) := by
  unfold _unsubscribe_socket_locked
  rcases hc : role == "client" with _ | _
  · simp only [hc, Bool.false_eq_true, if_false, reduceIte]
    rcases hcs : alookup st.anchor_sockets socket with _ | ths <;> simp only [hcs]
    · exact x_uc_tta_sub st _ (fun k s hm => (x_mem_lookupSet_discard _ _ _ _ _ hm).1) hInv
    · exact x_uc_tta_sub { st with
          anchor_sockets := aset st.anchor_sockets socket (sdel ths tid) } _
        (fun k s hm => (x_mem_lookupSet_discard _ _ _ _ _ hm).1)
        (x_uc_untouched st _ _ _ _ _ _ _ hInv)
  · simp only [hc, if_true, reduceIte]
    rcases hcs : alookup st.client_sockets socket with _ | ths <;> simp only [hcs]
    · exact x_uc_ttc_sub st _ (fun k s hm => (x_mem_lookupSet_discard _ _ _ _ _ hm).1) hInv
    · exact x_uc_ttc_sub { st with
          client_sockets := aset st.client_sockets socket (sdel ths tid) } _
        (fun k s hm => (x_mem_lookupSet_discard _ _ _ _ _ hm).1)
        (x_uc_untouched st _ _ _ _ _ _ _ hInv)

theorem x_resolve_target_weak (st : HubState) (u : UserId) (th anch : Option String)
    (tgt : Socket) (hInv : UserConsistent st)
    (htgt : (_resolve_client_target_locked st u th anch).2.1 = some tgt) :
    userOf st tgt = some u ∨ userOf st tgt = none := by
  unfold _resolve_client_target_locked at htgt
  rcases ha : pyTruthyOpt anch with _ | aid
  · simp only [ha] at htgt
    rcases ht : pyTruthyOpt th with _ | tid
    · simp only [ht, resolveFallthrough] at htgt
      rcases hl : lookupSet st.user_to_anchor_sockets u with _ | ⟨a, rest⟩
      · simp only [hl] at htgt
        cases htgt
      · rcases rest with _ | r2
        · simp only [hl] at htgt
          injection htgt with hinj
          subst hinj
          exact hInv.uta u a (by rw [hl]; exact List.mem_cons_self _ _)
        · simp only [hl] at htgt
          cases htgt
    · simp only [ht] at htgt
      obtain ⟨T, hT⟩ := x_lookupBoundAnchor_shape st u tid
      have hUTA : (lookupBoundAnchor st u tid).1.user_to_anchor_sockets
          = st.user_to_anchor_sockets := by rw [hT]
      have hTTA : (lookupBoundAnchor st u tid).1.thread_to_anchors
          = st.thread_to_anchors := by rw [hT]
      have hAITS : (lookupBoundAnchor st u tid).1.anchor_id_to_socket
          = st.anchor_id_to_socket := by rw [hT]
      rcases hb : (lookupBoundAnchor st u tid).2 with _ | b
      · simp only [hb] at htgt
        rcases hl : lookupSet (lookupBoundAnchor st u tid).1.thread_to_anchors (u, tid)
            with _ | ⟨a, rest⟩
        · simp only [hl, resolveFallthrough] at htgt
          rcases hl2 : lookupSet (lookupBoundAnchor st u tid).1.user_to_anchor_sockets u
              with _ | ⟨a2, r2⟩
          · simp only [hl2] at htgt
            cases htgt
          · rcases r2 with _ | r3
            · simp only [hl2] at htgt
              injection htgt with hinj
              subst hinj
              rw [hUTA] at hl2
              exact hInv.uta u a2 (by rw [hl2]; exact List.mem_cons_self _ _)
            · simp only [hl2] at htgt
              cases htgt
        · rcases rest with _ | r2
          · simp only [hl] at htgt
            injection htgt with hinj
            subst hinj
            rw [hTTA] at hl
            exact (hInv.tta u tid a (by rw [hl]; exact List.mem_cons_self _ _))
          · simp only [hl] at htgt
            cases htgt
      · simp only [hb] at htgt
        rcases hl : alookup (lookupBoundAnchor st u tid).1.anchor_id_to_socket (u, b)
            with _ | target
        · simp only [hl] at htgt
          cases htgt
        · simp only [hl] at htgt
          injection htgt with hinj
          subst hinj
          rw [hAITS] at hl
          exact hInv.aits _ (x_alookup_mem hl)
  · simp only [ha] at htgt
    rcases hl : alookup st.anchor_id_to_socket (u, aid) with _ | target
    · simp only [hl] at htgt
      cases htgt
    · simp only [hl] at htgt
      rcases ht : pyTruthyOpt th with _ | tid
      · simp only [ht] at htgt
        injection htgt with hinj
        subst hinj
        exact hInv.aits _ (x_alookup_mem hl)
      · simp only [ht] at htgt
        rcases hb : (lookupBoundAnchor st u tid).2 with _ | b
        · simp only [hb] at htgt
          injection htgt with hinj
          subst hinj
          exact hInv.aits _ (x_alookup_mem hl)
        · simp only [hb] at htgt
          by_cases hba : b ≠ aid
          · rw [if_pos hba] at htgt
            cases htgt
          · rw [if_neg hba] at htgt
            injection htgt with hinj
            subst hinj
            exact hInv.aits _ (x_alookup_mem hl)

theorem x_md_preserves (st : HubState) (socket : Socket) (u : UserId) (msg : Relay.Jobj)
    (freshReq : String) (hexFor : AnchorId → String)
    (hInv : UserConsistent st) (hu : userOf st socket = some u) :
    UserConsistent (_handle_multi_dispatch st socket u msg freshReq hexFor).1 := by
  unfold _handle_multi_dispatch
  rcases htpl : _extract_multi_dispatch_template msg with _ | template
  · simp only [htpl]
    exact hInv
  · simp only [htpl]
    split <;>
    · split
      · refine x_uc_pends st _ _ _ _ hInv hInv.par hInv.pcr ?_ ?_
        · intro p hp
          rcases x_mem_aset_elim hp with h | h
          · exact hInv.pmd p h
          · subst h
            exact ⟨(mdStep_foldl_fields _ _ _ _ _ _ _ _).1, u, hu⟩
        · intro p hp
          rcases x_mem_foldl_aset_elim _ _ _ hp with h | h
          · exact hInv.pmdr p h
          · rw [mdStep_foldl_responses] at h
            simp only [List.nil_append] at h
            obtain ⟨aid, hmem, hp2⟩ := List.mem_filterMap.mp h
            rcases halk : alookup st.anchor_id_to_socket (u, aid) with _ | target
            · rw [halk] at hp2
              cases hp2
            · rw [halk] at hp2
              simp only [Option.map_some'] at hp2
              injection hp2 with hp3
              subst hp3
              exact ⟨u, hu, hInv.aits _ (x_alookup_mem halk)⟩
      · exact hInv

theorem x_expire_preserves (st : HubState) (dk : Socket × String)
    (hInv : UserConsistent st) :
    UserConsistent (_expire_multi_dispatch st dk).1 := by
  unfold _expire_multi_dispatch
  rcases hagg : alookup st.pending_multi_dispatch dk with _ | agg
  · simp only [hagg]
    exact hInv
  · simp only [hagg]
    unfold _finalize_multi_dispatch_locked
    simp only [alookup_aset_self]
    have hreq := hInv.pmd (dk, agg) (x_alookup_mem hagg)
    refine x_uc_pends st _ _ _ _ hInv hInv.par hInv.pcr ?_ ?_
    · intro p hp
      rcases x_mem_aset_elim (x_mem_aremove_elim hp) with h | h
      · exact hInv.pmd p h
      · subst h
        exact ⟨hreq.1, hreq.2⟩
    · intro p hp
      exact hInv.pmdr p (List.mem_filter.mp hp).1

theorem x_hello_preserves (st : HubState) (socket : Socket) (role : String) (u : UserId)
    (msg : Relay.Jobj) (fA nTs : String) (r : HubState × List OutMsg)
    (hInv : UserConsistent st) (hu : userOf st socket = some u)
    (h : _handle_anchor_hello st socket role u msg fA nTs = some r) :
    UserConsistent r.1 := by
  unfold _handle_anchor_hello at h
  rcases hrole : role == "anchor" with _ | _
  · rw [hrole] at h
    simp only [Bool.not_false, Bool.true_or, if_true, reduceIte] at h
    cases h
  · rw [hrole] at h
    have hstep : ∀ (r2 : HubState × List OutMsg), r = r2 → UserConsistent r2.1 →
        UserConsistent r.1 := by
      intro r2 hr2 hc
      rw [hr2]
      exact hc
    rcases htype : Relay.jget msg "type" with _ | v <;> rw [htype] at h <;>
      [skip; rcases v with s | n | b | _ | fields | elems] <;>
      simp only [Bool.not_true, Bool.false_or, Bool.not_false, Bool.true_or, if_true,
        reduceIte] at h <;>
      try cases h
    by_cases hs : s = "anchor.hello"
    · rw [decide_eq_true hs] at h
      simp only [Bool.not_true, Bool.false_eq_true, if_false, reduceIte] at h
      split at h
      · rename_i ex hex
        split at h
        · rename_i hne
          injection h with h
          obtain ⟨UR, hstu, hshr, hnt⟩ := x_remove_master st ex "anchor" hInv
          have hu1 : userOf (_remove_socket_locked st ex "anchor").1 socket = some u := by
            show alookup _ socket = _
            rw [hstu, x_alookup_aremove_eq, if_neg (fun hh => hne hh.symm)]
            exact hu
          exact hstep _ h.symm (x_uc_aits_aset _ (u, _) socket _ _ UR hu1)
        · rename_i hne
          injection h with h
          exact hstep _ h.symm (x_uc_aits_aset st (u, _) socket _ _ hInv hu)
      · rename_i hex
        injection h with h
        exact hstep _ h.symm (x_uc_aits_aset st (u, _) socket _ _ hInv hu)
    · rw [decide_eq_false hs] at h
      simp only [Bool.not_false, if_true, reduceIte] at h
      cases h

theorem x_control_preserves (st : HubState) (socket : Socket) (role : String) (u : UserId)
    (msg : Relay.Jobj) (freshReq : String) (hexFor : AnchorId → String)
    (r : HubState × List OutMsg)
    (hInv : UserConsistent st) (hu : userOf st socket = some u)
    (h : _handle_control st socket role u msg freshReq hexFor = some r) :
    UserConsistent r.1 := by
  unfold _handle_control at h
  rcases htype : Relay.jget msg "type" with _ | v
  · rw [htype] at h
    simp only [Bool.false_and, Bool.false_eq_true, if_false, reduceIte] at h
    cases h
  · rcases v with s | n | b | _ | fields | elems <;> rw [htype] at h <;>
      try (simp only [Bool.false_and, Bool.false_eq_true, if_false, reduceIte] at h; cases h)
    simp only at h
    by_cases h1 : s = "orbit.subscribe"
    · subst h1
      rcases hth : Relay.jget msg "threadId" with _ | w
      · rw [hth] at h
        simp only [String.reduceEq, Option.isSome_none, Bool.and_false, Bool.false_and,
          Bool.true_and, Bool.false_eq_true, if_false, reduceIte,
          show ("orbit.push-".data.isPrefixOf "orbit.subscribe".data) = false from by decide] at h
        cases h
      · rcases w with s1 | n1 | b1 | _ | f1 | e1 <;> rw [hth] at h <;>
          try (simp only [String.reduceEq, Option.isSome_none, Bool.and_false, Bool.false_and,
            Bool.true_and, Bool.false_eq_true, if_false, reduceIte,
            show ("orbit.push-".data.isPrefixOf "orbit.subscribe".data) = false
              from by decide] at h; cases h)
        simp only [String.reduceEq, Option.isSome_some, Bool.and_true, Bool.true_and,
          if_true, reduceIte] at h
        by_cases hstrip : Relay.pyStrip s1 = ""
        · rw [if_pos hstrip] at h
          injection h with h
          rw [← h]
          exact hInv
        · rw [if_neg hstrip] at h
          have U1 := x_subscribe_preserves st socket role u (Relay.pyStrip s1) hInv hu
          rcases hra : role == "anchor" with _ | _ <;> rw [hra] at h <;>
            simp only [Bool.false_eq_true, if_false, if_true, reduceIte] at h
          · -- role not anchor: st2 = st1; then role == "client" if
            rcases hrc : role == "client" with _ | _ <;> rw [hrc] at h <;>
              simp only [Bool.false_eq_true, if_false, if_true, reduceIte] at h
            · injection h with h
              rw [← h]
              exact U1
            · obtain ⟨T, hT⟩ := x_replay_shape
                (_subscribe_socket_locked st socket role (u, Relay.pyStrip s1)
                  (Relay.pyStrip s1)) socket u (Relay.pyStrip s1)
              injection h with h
              rw [← h]
              rw [hT]
              exact x_uc_of_tta_db _ T _ U1
          · rcases hsa : pyTruthyOpt (alookup (_subscribe_socket_locked st socket role
                (u, Relay.pyStrip s1) (Relay.pyStrip s1)).socket_to_anchor_id socket)
                with _ | aid <;> rw [hsa] at h
            · rcases hrc : role == "client" with _ | _ <;> rw [hrc] at h <;>
                simp only [Bool.false_eq_true, if_false, if_true, reduceIte] at h
              · injection h with h
                rw [← h]
                exact U1
              · obtain ⟨T, hT⟩ := x_replay_shape
                  (_subscribe_socket_locked st socket role (u, Relay.pyStrip s1)
                    (Relay.pyStrip s1)) socket u (Relay.pyStrip s1)
                injection h with h
                rw [← h]
                rw [hT]
                exact x_uc_of_tta_db _ T _ U1
            · have U2 := x_uc_of_tta_db (_subscribe_socket_locked st socket role
                  (u, Relay.pyStrip s1) (Relay.pyStrip s1))
                (aset (_subscribe_socket_locked st socket role (u, Relay.pyStrip s1)
                  (Relay.pyStrip s1)).thread_to_anchor_id (u, Relay.pyStrip s1) aid)
                (Db.set_relay_thread_anchor (_subscribe_socket_locked st socket role
                  (u, Relay.pyStrip s1) (Relay.pyStrip s1)).db u (Relay.pyStrip s1)
                  (some aid)) U1
              rcases hrc : role == "client" with _ | _ <;> rw [hrc] at h <;>
                simp only [Bool.false_eq_true, if_false, if_true, reduceIte] at h
              · injection h with h
                rw [← h]
                exact U2
              · obtain ⟨T, hT⟩ := x_replay_shape _ socket u (Relay.pyStrip s1)
                injection h with h
                rw [← h]
                rw [hT]
                exact x_uc_of_tta_db _ T _ U2
    · rw [decide_eq_false h1] at h
      simp only [Bool.false_and, Bool.false_eq_true, if_false, reduceIte] at h
      by_cases h2 : s = "orbit.unsubscribe"
      · subst h2
        rcases hth : Relay.jget msg "threadId" with _ | w
        · rw [hth] at h
          simp only [String.reduceEq, Option.isSome_none, Bool.and_false, Bool.false_and,
            Bool.true_and, Bool.false_eq_true, if_false, reduceIte,
            show ("orbit.push-".data.isPrefixOf "orbit.unsubscribe".data) = false
              from by decide] at h
          cases h
        · rcases w with s1 | n1 | b1 | _ | f1 | e1 <;> rw [hth] at h <;>
            try (simp only [String.reduceEq, Option.isSome_none, Bool.and_false,
              Bool.false_and, Bool.true_and, Bool.false_eq_true, if_false, reduceIte,
              show ("orbit.push-".data.isPrefixOf "orbit.unsubscribe".data) = false
                from by decide] at h; cases h)
          simp only [String.reduceEq, Option.isSome_some, Bool.and_true, Bool.true_and,
            if_true, reduceIte] at h
          by_cases hstrip : Relay.pyStrip s1 = ""
          · rw [if_pos hstrip] at h
            injection h with h
            rw [← h]
            exact hInv
          · rw [if_neg hstrip] at h
            injection h with h
            rw [← h]
            exact x_unsubscribe_preserves st socket role (u, Relay.pyStrip s1)
              (Relay.pyStrip s1) hInv
      · rw [decide_eq_false h2] at h
        simp only [Bool.false_and, Bool.false_eq_true, if_false, reduceIte] at h
        by_cases h3 : s = "orbit.list-anchors"
        · subst h3
          rcases hrc : role == "client" with _ | _ <;> rw [hrc] at h <;>
            simp only [String.reduceEq, Bool.true_and, Bool.and_false, Bool.and_true,
              Bool.false_and, Bool.false_eq_true, if_false, if_true, reduceIte,
              show ("orbit.push-".data.isPrefixOf "orbit.list-anchors".data) = false
                from by decide] at h
          · cases h
          · injection h with h
            rw [← h]
            exact hInv
        · rw [decide_eq_false h3] at h
          simp only [Bool.false_and, Bool.false_eq_true, if_false, reduceIte] at h
          by_cases h4 : s = "orbit.artifacts.list"
          · subst h4
            rcases hrc : role == "client" with _ | _ <;> rw [hrc] at h <;>
              simp only [String.reduceEq, Bool.true_and, Bool.and_false, Bool.and_true,
                Bool.false_and, Bool.false_eq_true, if_false, if_true, reduceIte,
                show ("orbit.push-".data.isPrefixOf "orbit.artifacts.list".data) = false
                  from by decide] at h
            · cases h
            · injection h with h
              rw [← h]
              exact hInv
          · rw [decide_eq_false h4] at h
            simp only [Bool.false_and, Bool.false_eq_true, if_false, reduceIte] at h
            by_cases h5 : s = "orbit.multi-dispatch"
            · subst h5
              rcases hrc : role == "client" with _ | _ <;> rw [hrc] at h <;>
                simp only [String.reduceEq, Bool.true_and, Bool.and_false, Bool.and_true,
                  Bool.false_and, Bool.false_eq_true, if_false, if_true, reduceIte,
                  show ("orbit.push-".data.isPrefixOf "orbit.multi-dispatch".data) = false
                    from by decide] at h
              · cases h
              · injection h with h
                rw [← h]
                exact x_md_preserves st socket u msg freshReq hexFor hInv hu
            · rw [decide_eq_false h5] at h
              simp only [Bool.false_and, Bool.false_eq_true, if_false, reduceIte] at h
              by_cases hpre : ("orbit.push-".data.isPrefixOf s.data) = true
              · rw [hpre] at h
                simp only [if_true, reduceIte] at h
                injection h with h
                rw [← h]
                exact hInv
              · rw [Bool.not_eq_true] at hpre
                rw [hpre] at h
                simp only [Bool.false_eq_true, if_false, reduceIte] at h
                cases h

theorem x_mem_foldl_aset_elim2 (targets : List Socket) (key : String) (socket : Socket)
    (l : List ((Socket × String) × Socket)) (p : (Socket × String) × Socket)
    (h : p ∈ targets.foldl (fun acc tgt => aset acc (tgt, key) socket) l) :
    p ∈ l ∨ ∃ tgt ∈ targets, p = ((tgt, key), socket) := by
  induction targets generalizing l with
  | nil => exact Or.inl h
  | cons q rest ih =>
    rw [List.foldl_cons] at h
    rcases ih _ h with h2 | h2
    · rcases x_mem_aset_elim h2 with h3 | h3
      · exact Or.inl h3
      · exact Or.inr ⟨q, List.mem_cons_self _ _, h3⟩
    · obtain ⟨tgt, hmem, heq⟩ := h2
      exact Or.inr ⟨tgt, List.mem_cons_of_mem _ hmem, heq⟩

theorem x_uc_broadcast (s : HubState) (socket : Socket) (u : UserId)
    (targets : List Socket) (key : String)
    (T : List (TKey × AnchorId)) (D : Db.DbState)
    (hInv : UserConsistent s) (hu : userOf s socket = some u)
    (htgts : ∀ tgt ∈ targets, userOf s tgt = some u ∨ userOf s tgt = none) :
    UserConsistent { s with
      thread_to_anchor_id := T,
      db := D,
      pending_anchor_requests := targets.foldl (fun acc tgt => aset acc (tgt, key) socket)
        s.pending_anchor_requests } := by
  refine ⟨hInv.utc, hInv.uta, hInv.ttc, hInv.tta, hInv.aits, hInv.citc, ?_, hInv.pcr,
    hInv.pmd, hInv.pmdr⟩
  intro p hp
  rcases x_mem_foldl_aset_elim2 _ _ _ _ _ hp with h | ⟨tgt, hmem, heq⟩
  · exact hInv.par p h
  · subst heq
    exact ⟨u, hu, htgts tgt hmem⟩

theorem x_uc_tta_db_of (st : HubState) (h : UserConsistent st)
    (T : List (TKey × AnchorId)) (D : Db.DbState) :
    UserConsistent { st with thread_to_anchor_id := T, db := D } :=
  x_uc_of_tta_db st T D h

theorem x_uc_broadcast2 (s : HubState) (hInv : UserConsistent s) (socket : Socket)
    (u : UserId) (hu : userOf s socket = some u) (targets : List Socket) (key : String)
    (T : List (TKey × AnchorId)) (D : Db.DbState)
    (htgts : ∀ tgt ∈ targets, userOf s tgt = some u ∨ userOf s tgt = none) :
    UserConsistent { s with
      thread_to_anchor_id := T,
      db := D,
      pending_anchor_requests := targets.foldl (fun acc tgt => aset acc (tgt, key) socket)
        s.pending_anchor_requests } :=
  x_uc_broadcast s socket u targets key T D hInv hu htgts


theorem x_resolve_userOf (st : HubState) (u : UserId) (th anch : Option String)
    (s : Socket) :
    userOf (_resolve_client_target_locked st u th anch).1 s = userOf st s := by
  obtain ⟨T, hT⟩ := x_resolve_shape st u th anch
  rw [hT]
  rfl

theorem x_resolve_uc (st : HubState) (u : UserId) (th anch : Option String)
    (hInv : UserConsistent st) :
    UserConsistent (_resolve_client_target_locked st u th anch).1 := by
  obtain ⟨T, hT⟩ := x_resolve_shape st u th anch
  rw [hT]
  exact x_uc_tta_db_of st hInv T st.db

theorem x_uc_tta_db_pcr (st : HubState) (hInv : UserConsistent st) (socket tgt : Socket)
    (u : UserId) (hu : userOf st socket = some u)
    (hw : userOf st tgt = some u ∨ userOf st tgt = none) (key : String)
    (T : List (TKey × AnchorId)) (D : Db.DbState) :
    UserConsistent { st with
      thread_to_anchor_id := T,
      db := D,
      pending_client_requests := aset st.pending_client_requests (tgt, key) socket } := by
  refine x_uc_pends { st with
      thread_to_anchor_id := T,
      db := D }
    st.pending_anchor_requests
    (aset st.pending_client_requests (tgt, key) socket)
    st.pending_multi_dispatch st.pending_multi_dispatch_responses
    (x_uc_tta_db_of st hInv T D) hInv.par ?_ hInv.pmd hInv.pmdr
  intro p hp
  rcases x_mem_aset_elim hp with h | h
  · exact hInv.pcr p h
  · subst h
    exact ⟨u, hu, hw⟩

theorem x_uc_all (st : HubState) (hInv : UserConsistent st)
    (T : List (TKey × AnchorId)) (D : Db.DbState)
    (PAR PCR : List ((Socket × String) × Socket))
    (PMD : List ((Socket × String) × MultiDispatchAggregate))
    (PMDR : List ((Socket × String) × ((Socket × String) × AnchorId)))
    (hpar : ∀ p ∈ PAR, ∃ u2, userOf st p.2 = some u2 ∧
      (userOf st p.1.1 = some u2 ∨ userOf st p.1.1 = none))
    (hpcr : ∀ p ∈ PCR, ∃ u2, userOf st p.2 = some u2 ∧
      (userOf st p.1.1 = some u2 ∨ userOf st p.1.1 = none))
    (hpmd : ∀ p ∈ PMD, p.2.requester_socket = p.1.1 ∧ ∃ u2, userOf st p.1.1 = some u2)
    (hpmdr : ∀ p ∈ PMDR, ∃ u2, userOf st p.2.1.1 = some u2 ∧
      (userOf st p.1.1 = some u2 ∨ userOf st p.1.1 = none)) :
    UserConsistent { st with
      thread_to_anchor_id := T,
      db := D,
      pending_anchor_requests := PAR,
      pending_client_requests := PCR,
      pending_multi_dispatch := PMD,
      pending_multi_dispatch_responses := PMDR } :=
  x_uc_pends { st with
      thread_to_anchor_id := T,
      db := D }
    PAR PCR PMD PMDR (x_uc_tta_db_of st hInv T D) hpar hpcr hpmd hpmdr

theorem x_route_preserves (st : HubState) (socket : Socket) (role : String) (u : UserId)
    (raw : String) (msg : Option Relay.Jobj) (fid : String)
    (hInv : UserConsistent st) (hu : userOf st socket = some u) :
    UserConsistent (_route_message st socket role u raw msg fid).1 := by
  unfold _route_message
  by_cases hrole : (role == "client") = true
  · simp only [hrole, reduceIte]
    split
    · rename_i rt key hhit hkey
      refine x_uc_pends st _ _ _ _ hInv ?_ hInv.pcr hInv.pmd hInv.pmdr
      intro p hp
      exact hInv.par p (x_mem_aremove_elim hp)
    · split
      · rename_i tgt htgt
        simp only [htgt]
        have hweak := x_resolve_target_weak st u _ _ tgt hInv htgt
        split
        · rename_i tgt2 key2 h2 h3 h4
          injection h2 with h2e
          subst h2e
          split
          · rename_i tgt3 tid h5
            split
            · rename_i rid h6
              refine x_uc_tta_db_pcr _ (x_resolve_uc st u _ _ hInv) socket tgt u ?_ ?_ _ _ _
              · simp only [x_resolve_userOf]
                exact hu
              · simp only [x_resolve_userOf]
                exact hweak
            · refine x_uc_tta_db_pcr _ (x_resolve_uc st u _ _ hInv) socket tgt u ?_ ?_ _ _ _
              · simp only [x_resolve_userOf]
                exact hu
              · simp only [x_resolve_userOf]
                exact hweak
          · refine x_uc_tta_db_pcr _ (x_resolve_uc st u _ _ hInv) socket tgt u ?_ ?_ _ _ _
            · simp only [x_resolve_userOf]
              exact hu
            · simp only [x_resolve_userOf]
              exact hweak
        · split
          · split
            · exact x_uc_tta_db_of _ (x_resolve_uc st u _ _ hInv) _ _
            · exact x_resolve_uc st u _ _ hInv
          · exact x_resolve_uc st u _ _ hInv
      · rename_i htgt
        simp only [htgt]
        split <;> exact x_resolve_uc st u _ _ hInv
  · rw [Bool.not_eq_true] at hrole
    simp only [hrole, Bool.false_eq_true, if_false, reduceIte]
    rcases hthA : pyTruthyOpt (extractThreadIdHub msg) with _ | tid <;> simp only [hthA]
    · split
      · rename_i key hrk hhm
        simp only [hrk, hhm]
        rcases hb : alookup st.pending_multi_dispatch_responses (socket, key) with _ | binding <;>
          simp only [hb]
        · rcases hb2 : alookup st.pending_client_requests (socket, key) with _ | rt <;>
            simp only [hb2]
          · exact x_uc_all st hInv _ _ _ _ _ _ hInv.par hInv.pcr hInv.pmd hInv.pmdr
          · refine x_uc_all st hInv _ _ _ _ _ _ hInv.par ?_ hInv.pmd hInv.pmdr
            intro p hp
            exact hInv.pcr p (x_mem_aremove_elim hp)
        · rcases hb2 : alookup st.pending_multi_dispatch binding.1 with _ | agg <;>
            simp only [hb2]
          · refine x_uc_all st hInv _ _ _ _ _ _ hInv.par hInv.pcr hInv.pmd ?_
            intro p hp
            exact hInv.pmdr p (x_mem_aremove_elim hp)
          · have hagg := hInv.pmd (binding.1, agg) (x_alookup_mem hb2)
            split
            · unfold _finalize_multi_dispatch_locked
              simp only [alookup_aset_self]
              refine x_uc_all st hInv _ _ _ _ _ _ hInv.par hInv.pcr ?_ ?_
              · intro p hp
                rcases x_mem_aset_elim (x_mem_aremove_elim hp) with h | h
                · exact hInv.pmd p h
                · subst h
                  exact ⟨hagg.1, hagg.2⟩
              · intro p hp
                exact hInv.pmdr p (x_mem_aremove_elim (List.mem_filter.mp hp).1)
            · refine x_uc_all st hInv _ _ _ _ _ _ hInv.par hInv.pcr ?_ ?_
              · intro p hp
                rcases x_mem_aset_elim hp with h | h
                · exact hInv.pmd p h
                · subst h
                  exact ⟨hagg.1, hagg.2⟩
              · intro p hp
                exact hInv.pmdr p (x_mem_aremove_elim hp)
      · split
        · rename_i key2 h1 h2
          refine x_uc_broadcast2 _ hInv socket u hu _ key2 _ _ ?_
          intro tgt hmem
          exact hInv.utc u tgt hmem
        · exact hInv
    · rcases haidA : pyTruthyOpt (alookup st.socket_to_anchor_id socket) with _ | aid <;>
        simp only [haidA]
      · split
        · rename_i key hrk hhm
          simp only [hrk, hhm]
          rcases hb : alookup st.pending_multi_dispatch_responses (socket, key) with _ | binding <;>
            simp only [hb]
          · rcases hb2 : alookup st.pending_client_requests (socket, key) with _ | rt <;>
              simp only [hb2]
            · exact x_uc_all st hInv _ _ _ _ _ _ hInv.par hInv.pcr hInv.pmd hInv.pmdr
            · refine x_uc_all st hInv _ _ _ _ _ _ hInv.par ?_ hInv.pmd hInv.pmdr
              intro p hp
              exact hInv.pcr p (x_mem_aremove_elim hp)
          · rcases hb2 : alookup st.pending_multi_dispatch binding.1 with _ | agg <;>
              simp only [hb2]
            · refine x_uc_all st hInv _ _ _ _ _ _ hInv.par hInv.pcr hInv.pmd ?_
              intro p hp
              exact hInv.pmdr p (x_mem_aremove_elim hp)
            · have hagg := hInv.pmd (binding.1, agg) (x_alookup_mem hb2)
              split
              · unfold _finalize_multi_dispatch_locked
                simp only [alookup_aset_self]
                refine x_uc_all st hInv _ _ _ _ _ _ hInv.par hInv.pcr ?_ ?_
                · intro p hp
                  rcases x_mem_aset_elim (x_mem_aremove_elim hp) with h | h
                  · exact hInv.pmd p h
                  · subst h
                    exact ⟨hagg.1, hagg.2⟩
                · intro p hp
                  exact hInv.pmdr p (x_mem_aremove_elim (List.mem_filter.mp hp).1)
              · refine x_uc_all st hInv _ _ _ _ _ _ hInv.par hInv.pcr ?_ ?_
                · intro p hp
                  rcases x_mem_aset_elim hp with h | h
                  · exact hInv.pmd p h
                  · subst h
                    exact ⟨hagg.1, hagg.2⟩
                · intro p hp
                  exact hInv.pmdr p (x_mem_aremove_elim hp)
        · split
          · rename_i key2 h1 h2
            by_cases hft : lookupSet st.thread_to_clients (u, tid) = []
            · rw [if_pos hft]
              refine x_uc_broadcast2 _ hInv socket u hu _ key2 _ _ ?_
              intro tgt hmem
              exact hInv.utc u tgt hmem
            · rw [if_neg hft]
              refine x_uc_broadcast2 _ hInv socket u hu _ key2 _ _ ?_
              intro tgt hmem
              exact hInv.ttc u tid tgt hmem
          · exact x_uc_tta_db_of _ hInv _ _
      · split
        · rename_i key hrk hhm
          simp only [hrk, hhm]
          rcases hb : alookup st.pending_multi_dispatch_responses (socket, key) with _ | binding <;>
            simp only [hb]
          · rcases hb2 : alookup st.pending_client_requests (socket, key) with _ | rt <;>
              simp only [hb2]
            · exact x_uc_all st hInv _ _ _ _ _ _ hInv.par hInv.pcr hInv.pmd hInv.pmdr
            · refine x_uc_all st hInv _ _ _ _ _ _ hInv.par ?_ hInv.pmd hInv.pmdr
              intro p hp
              exact hInv.pcr p (x_mem_aremove_elim hp)
          · rcases hb2 : alookup st.pending_multi_dispatch binding.1 with _ | agg <;>
              simp only [hb2]
            · refine x_uc_all st hInv _ _ _ _ _ _ hInv.par hInv.pcr hInv.pmd ?_
              intro p hp
              exact hInv.pmdr p (x_mem_aremove_elim hp)
            · have hagg := hInv.pmd (binding.1, agg) (x_alookup_mem hb2)
              split
              · unfold _finalize_multi_dispatch_locked
                simp only [alookup_aset_self]
                refine x_uc_all st hInv _ _ _ _ _ _ hInv.par hInv.pcr ?_ ?_
                · intro p hp
                  rcases x_mem_aset_elim (x_mem_aremove_elim hp) with h | h
                  · exact hInv.pmd p h
                  · subst h
                    exact ⟨hagg.1, hagg.2⟩
                · intro p hp
                  exact hInv.pmdr p (x_mem_aremove_elim (List.mem_filter.mp hp).1)
              · refine x_uc_all st hInv _ _ _ _ _ _ hInv.par hInv.pcr ?_ ?_
                · intro p hp
                  rcases x_mem_aset_elim hp with h | h
                  · exact hInv.pmd p h
                  · subst h
                    exact ⟨hagg.1, hagg.2⟩
                · intro p hp
                  exact hInv.pmdr p (x_mem_aremove_elim hp)
        · split
          · rename_i key2 h1 h2
            by_cases hft : lookupSet st.thread_to_clients (u, tid) = []
            · rw [if_pos hft]
              refine x_uc_broadcast2 _ hInv socket u hu _ key2 _ _ ?_
              intro tgt hmem
              exact hInv.utc u tgt hmem
            · rw [if_neg hft]
              refine x_uc_broadcast2 _ hInv socket u hu _ key2 _ _ ?_
              intro tgt hmem
              exact hInv.ttc u tid tgt hmem
          · exact x_uc_tta_db_of _ hInv _ _

theorem x_handle_preserves (st : HubState) (socket : Socket) (role : String)
    (raw : String) (msg : Option Relay.Jobj) (oracle : Oracle)
    (hInv : UserConsistent st) :
    UserConsistent (handle_message st socket role raw msg oracle).1 := by
  unfold handle_message
  rcases hus : userOf st socket with _ | u <;> simp only [hus]
  · exact hInv
  · split
    · exact hInv
    · rcases msg with _ | m
      · exact x_route_preserves st socket role u raw none oracle.freshItemId hInv hus
      · rcases hc : _handle_control st socket role u m oracle.freshRequestId oracle.hexFor
            with _ | r <;> simp only [hc]
        · rcases hh : _handle_anchor_hello st socket role u m oracle.freshAnchorId oracle.nowTs
              with _ | r2 <;> simp only [hh]
          · exact x_route_preserves st socket role u raw (some m) oracle.freshItemId hInv hus
          · exact x_hello_preserves st socket role u m oracle.freshAnchorId oracle.nowTs r2
              hInv hus hh
        · exact x_control_preserves st socket role u m oracle.freshRequestId oracle.hexFor r
            hInv hus hc

theorem x_step_preserves (a b : HubState) (h : Step a b) (hInv : UserConsistent a) :
    UserConsistent b := by
  cases h with
  | register socket user_id client_id fresh =>
    exact x_register_master a socket (roleOf socket) user_id client_id hInv fresh
  | unregister socket =>
    exact (x_remove_master a socket (roleOf socket) hInv).1
  | handle socket raw msg oracle =>
    exact x_handle_preserves a socket (roleOf socket) raw msg oracle hInv
  | expire dk =>
    exact x_expire_preserves a dk hInv

theorem x_reachable_uc (st : HubState) (h : Reachable st) : UserConsistent st := by
  induction h with
  | refl => exact x_userConsistent_init
  | tail hab hbc ih => exact x_step_preserves _ _ hbc ih

theorem x_subscribe_stu (st : HubState) (socket : Socket) (role : String)
    (tkey : TKey) (tid : ThreadId) :
    (_subscribe_socket_locked st socket role tkey tid).socket_to_user_id
      = st.socket_to_user_id := by
  unfold _subscribe_socket_locked
  rcases hc : role == "client" with _ | _ <;>
    simp only [hc, Bool.false_eq_true, if_false, if_true, reduceIte] <;>
    split <;> rfl

theorem x_replay_sends (st : HubState) (socket : Socket) (u : UserId) (tid : ThreadId) :
    ∀ m ∈ (_replay_thread_state st socket u tid).2, m.target = socket := by
  unfold _replay_thread_state
  intro m hm
  simp only [List.mem_cons, List.mem_map] at hm
  rcases hm with hm | ⟨r, hr, hm⟩ <;> subst hm <;> rfl

theorem x_artifact_sends (st : HubState) (socket : Socket) (u : UserId)
    (msg : Relay.Jobj) :
    ∀ m ∈ (_handle_artifact_list st socket u msg).2, m.target = socket := by
  unfold _handle_artifact_list
  intro m hm
  simp only [List.mem_singleton] at hm
  subst hm
  rfl

theorem x_build_fst (agg : MultiDispatchAggregate) :
    (_build_completed_multi_dispatch_locked agg).1 = agg.requester_socket := rfl

theorem x_md_sends (st : HubState) (socket : Socket) (u : UserId) (msg : Relay.Jobj)
    (freshReq : String) (hexFor : AnchorId → String)
    (hInv : UserConsistent st) (hu : userOf st socket = some u) :
    ∀ m ∈ (_handle_multi_dispatch st socket u msg freshReq hexFor).2,
      userOf st m.target = some u ∨ userOf st m.target = none := by
  unfold _handle_multi_dispatch
  rcases htpl : _extract_multi_dispatch_template msg with _ | template <;> simp only [htpl]
  · intro m hm
    simp only [List.mem_singleton] at hm
    subst hm
    exact Or.inl hu
  · split <;> split
    · intro m hm
      rw [mdStep_foldl_sends] at hm
      simp only [List.nil_append, List.mem_filterMap] at hm
      obtain ⟨aid, hmem, heq⟩ := hm
      rcases halk : alookup st.anchor_id_to_socket (u, aid) with _ | target <;>
        rw [halk] at heq
      · cases heq
      · simp only [Option.map_some'] at heq
        injection heq with heq2
        subst heq2
        exact hInv.aits ((u, aid), target) (x_alookup_mem halk)
    · intro m hm
      simp only [List.mem_singleton] at hm
      subst hm
      left
      rw [x_build_fst, (mdStep_foldl_fields st u socket template
        (((_coerce_request_key (Relay.jget msg "requestId")).orElse
          (fun _ => _coerce_request_key (Relay.jget msg "id"))).getD freshReq) hexFor _ _).1]
      exact hu
    · intro m hm
      rw [mdStep_foldl_sends] at hm
      simp only [List.nil_append, List.mem_filterMap] at hm
      obtain ⟨aid, hmem, heq⟩ := hm
      rcases halk : alookup st.anchor_id_to_socket (u, aid) with _ | target <;>
        rw [halk] at heq
      · cases heq
      · simp only [Option.map_some'] at heq
        injection heq with heq2
        subst heq2
        exact hInv.aits ((u, aid), target) (x_alookup_mem halk)
    · intro m hm
      simp only [List.mem_singleton] at hm
      subst hm
      left
      rw [x_build_fst, (mdStep_foldl_fields st u socket template
        (((_coerce_request_key (Relay.jget msg "requestId")).orElse
          (fun _ => _coerce_request_key (Relay.jget msg "id"))).getD freshReq) hexFor _ _).1]
      exact hu

theorem x_route_sends (st : HubState) (socket : Socket) (role : String) (u : UserId)
    (raw : String) (msg : Option Relay.Jobj) (fid : String)
    (hInv : UserConsistent st) (hu : userOf st socket = some u) :
    ∀ m ∈ (_route_message st socket role u raw msg fid).2,
      userOf st m.target = some u ∨ userOf st m.target = none := by
  unfold _route_message
  by_cases hrole : (role == "client") = true
  · simp only [hrole, reduceIte]
    split
    · rename_i rt key hhit hkey
      rw [hkey] at hhit
      split at hhit
      · simp only at hhit
        intro m hm
        simp only [List.mem_singleton] at hm
        subst hm
        obtain ⟨u2, hrt, hdisj⟩ := hInv.par ((socket, key), rt) (x_alookup_mem hhit)
        rcases hdisj with h | h
        · rw [hu] at h
          injection h with h2
          subst h2
          exact Or.inl hrt
        · rw [hu] at h
          cases h
      · cases hhit
    · split
      · rename_i tgt htgt
        simp only [htgt]
        have hweak := x_resolve_target_weak st u _ _ tgt hInv htgt
        intro m hm
        simp only [List.mem_singleton] at hm
        subst hm
        exact hweak
      · rename_i htgt
        simp only [htgt]
        split
        · intro m hm
          rcases hrid : _extract_message_id msg with _ | rid <;>
            simp only [_send_rpc_error, hrid] at hm
          · cases hm
          · simp only [List.mem_singleton] at hm
            subst hm
            exact Or.inl hu
        · intro m hm
          cases hm
  · rw [Bool.not_eq_true] at hrole
    simp only [hrole, Bool.false_eq_true, if_false, reduceIte]
    rcases hthA : pyTruthyOpt (extractThreadIdHub msg) with _ | tid <;> simp only [hthA]
    · split
      · rename_i key hrk hhm
        simp only [hrk, hhm]
        rcases hb : alookup st.pending_multi_dispatch_responses (socket, key) with _ | binding <;>
          simp only [hb]
        · rcases hb2 : alookup st.pending_client_requests (socket, key) with _ | rt <;>
            simp only [hb2]
          · intro m hm
            rcases List.mem_map.mp hm with ⟨tgt, htm, hrfl⟩
            subst hrfl
            exact hInv.utc u tgt htm
          · intro m hm
            simp only [List.mem_singleton] at hm
            subst hm
            obtain ⟨u2, hrt, hdisj⟩ := hInv.pcr ((socket, key), rt) (x_alookup_mem hb2)
            rcases hdisj with h | h
            · rw [hu] at h
              injection h with h2
              subst h2
              exact Or.inl hrt
            · rw [hu] at h
              cases h
        · rcases hb2 : alookup st.pending_multi_dispatch binding.1 with _ | agg <;>
            simp only [hb2]
          · intro m hm
            rcases List.mem_map.mp hm with ⟨tgt, htm, hrfl⟩
            subst hrfl
            exact hInv.utc u tgt htm
          · split
            · unfold _finalize_multi_dispatch_locked
              simp only [alookup_aset_self]
              intro m hm
              simp only [List.mem_singleton] at hm
              subst hm
              obtain ⟨u2, hreq, hdisj⟩ := hInv.pmdr ((socket, key), binding) (x_alookup_mem hb)
              have hagg := hInv.pmd (binding.1, agg) (x_alookup_mem hb2)
              rcases hdisj with h | h
              · rw [hu] at h
                injection h with h2
                subst h2
                left
                show userOf st agg.requester_socket = some u
                rw [show agg.requester_socket = binding.1.1 from hagg.1]
                exact hreq
              · rw [hu] at h
                cases h
            · intro m hm
              rcases List.mem_map.mp hm with ⟨tgt, htm, hrfl⟩
              subst hrfl
              exact hInv.utc u tgt htm
      · intro m hm
        rcases List.mem_map.mp hm with ⟨tgt, htm, hrfl⟩
        subst hrfl
        exact hInv.utc u tgt htm
    · rcases haidA : pyTruthyOpt (alookup st.socket_to_anchor_id socket) with _ | aid <;>
        simp only [haidA]
      · split
        · rename_i key hrk hhm
          simp only [hrk, hhm]
          rcases hb : alookup st.pending_multi_dispatch_responses (socket, key) with _ | binding <;>
            simp only [hb]
          · rcases hb2 : alookup st.pending_client_requests (socket, key) with _ | rt <;>
              simp only [hb2]
            · intro m hm
              by_cases hft : lookupSet st.thread_to_clients (u, tid) = []
              · rw [if_pos hft] at hm
                rcases List.mem_map.mp hm with ⟨tgt, htm, hrfl⟩
                subst hrfl
                exact hInv.utc u tgt htm
              · rw [if_neg hft] at hm
                rcases List.mem_map.mp hm with ⟨tgt, htm, hrfl⟩
                subst hrfl
                exact hInv.ttc u tid tgt htm
            · intro m hm
              simp only [List.mem_singleton] at hm
              subst hm
              obtain ⟨u2, hrt, hdisj⟩ := hInv.pcr ((socket, key), rt) (x_alookup_mem hb2)
              rcases hdisj with h | h
              · rw [hu] at h
                injection h with h2
                subst h2
                exact Or.inl hrt
              · rw [hu] at h
                cases h
          · rcases hb2 : alookup st.pending_multi_dispatch binding.1 with _ | agg <;>
              simp only [hb2]
            · intro m hm
              by_cases hft : lookupSet st.thread_to_clients (u, tid) = []
              · rw [if_pos hft] at hm
                rcases List.mem_map.mp hm with ⟨tgt, htm, hrfl⟩
                subst hrfl
                exact hInv.utc u tgt htm
              · rw [if_neg hft] at hm
                rcases List.mem_map.mp hm with ⟨tgt, htm, hrfl⟩
                subst hrfl
                exact hInv.ttc u tid tgt htm
            · split
              · unfold _finalize_multi_dispatch_locked
                simp only [alookup_aset_self]
                intro m hm
                simp only [List.mem_singleton] at hm
                subst hm
                obtain ⟨u2, hreq, hdisj⟩ := hInv.pmdr ((socket, key), binding) (x_alookup_mem hb)
                have hagg := hInv.pmd (binding.1, agg) (x_alookup_mem hb2)
                rcases hdisj with h | h
                · rw [hu] at h
                  injection h with h2
                  subst h2
                  left
                  show userOf st agg.requester_socket = some u
                  rw [show agg.requester_socket = binding.1.1 from hagg.1]
                  exact hreq
                · rw [hu] at h
                  cases h
              · intro m hm
                by_cases hft : lookupSet st.thread_to_clients (u, tid) = []
                · rw [if_pos hft] at hm
                  rcases List.mem_map.mp hm with ⟨tgt, htm, hrfl⟩
                  subst hrfl
                  exact hInv.utc u tgt htm
                · rw [if_neg hft] at hm
                  rcases List.mem_map.mp hm with ⟨tgt, htm, hrfl⟩
                  subst hrfl
                  exact hInv.ttc u tid tgt htm
        · intro m hm
          by_cases hft : lookupSet st.thread_to_clients (u, tid) = []
          · rw [if_pos hft] at hm
            rcases List.mem_map.mp hm with ⟨tgt, htm, hrfl⟩
            subst hrfl
            exact hInv.utc u tgt htm
          · rw [if_neg hft] at hm
            rcases List.mem_map.mp hm with ⟨tgt, htm, hrfl⟩
            subst hrfl
            exact hInv.ttc u tid tgt htm
      · split
        · rename_i key hrk hhm
          simp only [hrk, hhm]
          rcases hb : alookup st.pending_multi_dispatch_responses (socket, key) with _ | binding <;>
            simp only [hb]
          · rcases hb2 : alookup st.pending_client_requests (socket, key) with _ | rt <;>
              simp only [hb2]
            · intro m hm
              by_cases hft : lookupSet st.thread_to_clients (u, tid) = []
              · rw [if_pos hft] at hm
                rcases List.mem_map.mp hm with ⟨tgt, htm, hrfl⟩
                subst hrfl
                exact hInv.utc u tgt htm
              · rw [if_neg hft] at hm
                rcases List.mem_map.mp hm with ⟨tgt, htm, hrfl⟩
                subst hrfl
                exact hInv.ttc u tid tgt htm
            · intro m hm
              simp only [List.mem_singleton] at hm
              subst hm
              obtain ⟨u2, hrt, hdisj⟩ := hInv.pcr ((socket, key), rt) (x_alookup_mem hb2)
              rcases hdisj with h | h
              · rw [hu] at h
                injection h with h2
                subst h2
                exact Or.inl hrt
              · rw [hu] at h
                cases h
          · rcases hb2 : alookup st.pending_multi_dispatch binding.1 with _ | agg <;>
              simp only [hb2]
            · intro m hm
              by_cases hft : lookupSet st.thread_to_clients (u, tid) = []
              · rw [if_pos hft] at hm
                rcases List.mem_map.mp hm with ⟨tgt, htm, hrfl⟩
                subst hrfl
                exact hInv.utc u tgt htm
              · rw [if_neg hft] at hm
                rcases List.mem_map.mp hm with ⟨tgt, htm, hrfl⟩
                subst hrfl
                exact hInv.ttc u tid tgt htm
            · split
              · unfold _finalize_multi_dispatch_locked
                simp only [alookup_aset_self]
                intro m hm
                simp only [List.mem_singleton] at hm
                subst hm
                obtain ⟨u2, hreq, hdisj⟩ := hInv.pmdr ((socket, key), binding) (x_alookup_mem hb)
                have hagg := hInv.pmd (binding.1, agg) (x_alookup_mem hb2)
                rcases hdisj with h | h
                · rw [hu] at h
                  injection h with h2
                  subst h2
                  left
                  show userOf st agg.requester_socket = some u
                  rw [show agg.requester_socket = binding.1.1 from hagg.1]
                  exact hreq
                · rw [hu] at h
                  cases h
              · intro m hm
                by_cases hft : lookupSet st.thread_to_clients (u, tid) = []
                · rw [if_pos hft] at hm
                  rcases List.mem_map.mp hm with ⟨tgt, htm, hrfl⟩
                  subst hrfl
                  exact hInv.utc u tgt htm
                · rw [if_neg hft] at hm
                  rcases List.mem_map.mp hm with ⟨tgt, htm, hrfl⟩
                  subst hrfl
                  exact hInv.ttc u tid tgt htm
        · intro m hm
          by_cases hft : lookupSet st.thread_to_clients (u, tid) = []
          · rw [if_pos hft] at hm
            rcases List.mem_map.mp hm with ⟨tgt, htm, hrfl⟩
            subst hrfl
            exact hInv.utc u tgt htm
          · rw [if_neg hft] at hm
            rcases List.mem_map.mp hm with ⟨tgt, htm, hrfl⟩
            subst hrfl
            exact hInv.ttc u tid tgt htm

theorem x_hello_sends (st : HubState) (socket : Socket) (role : String) (u : UserId)
    (msg : Relay.Jobj) (fA nTs : String) (r : HubState × List OutMsg)
    (hInv : UserConsistent st) (hu : userOf st socket = some u)
    (h : _handle_anchor_hello st socket role u msg fA nTs = some r) :
    ∀ m ∈ r.2, userOf st m.target = some u ∨ userOf st m.target = none := by
  unfold _handle_anchor_hello at h
  rcases hrole : role == "anchor" with _ | _
  · rw [hrole] at h
    simp only [Bool.not_false, Bool.true_or, if_true, reduceIte] at h
    cases h
  · rw [hrole] at h
    rcases htype : Relay.jget msg "type" with _ | v <;> rw [htype] at h <;>
      [skip; rcases v with s | n | b | _ | fields | elems] <;>
      simp only [Bool.not_true, Bool.false_or, Bool.not_false, Bool.true_or, if_true,
        reduceIte] at h <;>
      try cases h
    by_cases hs : s = "anchor.hello"
    · rw [decide_eq_true hs] at h
      simp only [Bool.not_true, Bool.false_eq_true, if_false, reduceIte] at h
      split at h
      · rename_i ex hex
        split at h
        · rename_i hne
          injection h with h
          obtain ⟨UR, hstu, hshr, hnt⟩ := x_remove_master st ex "anchor" hInv
          rw [← h]
          intro m hm
          simp only [List.mem_append, List.mem_map, List.mem_singleton] at hm
          rcases hm with (hm | hm) | ⟨c, hc, hrfl⟩
          · obtain ⟨u0, hex0, htgt⟩ := hnt m hm
            have hax := hInv.aits (_, ex) (x_alookup_mem hex)
            rcases hax with hax | hax
            · rw [hex0] at hax
              injection hax with hax2
              subst hax2
              exact hInv.utc u0 m.target htgt
            · rw [hex0] at hax
              cases hax
          · subst hm
            exact hInv.aits (_, ex) (x_alookup_mem hex)
          · subst hrfl
            exact hInv.utc u c (hshr u c hc)
        · rename_i hne
          injection h with h
          rw [← h]
          intro m hm
          simp only [List.nil_append, List.mem_append, List.mem_map] at hm
          rcases hm with ⟨c, hc, hrfl⟩
          subst hrfl
          exact hInv.utc u c hc
      · rename_i hex
        injection h with h
        rw [← h]
        intro m hm
        simp only [List.nil_append, List.mem_append, List.mem_map] at hm
        rcases hm with ⟨c, hc, hrfl⟩
        subst hrfl
        exact hInv.utc u c hc
    · rw [decide_eq_false hs] at h
      simp only [Bool.not_false, if_true, reduceIte] at h
      cases h

theorem x_control_sends (st : HubState) (socket : Socket) (role : String) (u : UserId)
    (msg : Relay.Jobj) (freshReq : String) (hexFor : AnchorId → String)
    (r : HubState × List OutMsg)
    (hInv : UserConsistent st) (hu : userOf st socket = some u)
    (h : _handle_control st socket role u msg freshReq hexFor = some r) :
    ∀ m ∈ r.2, userOf st m.target = some u ∨ userOf st m.target = none := by
  unfold _handle_control at h
  rcases htype : Relay.jget msg "type" with _ | v
  · rw [htype] at h
    simp only [Bool.false_and, Bool.false_eq_true, if_false, reduceIte] at h
    cases h
  · rcases v with s | n | b | _ | fields | elems <;> rw [htype] at h <;>
      try (simp only [Bool.false_and, Bool.false_eq_true, if_false, reduceIte] at h; cases h)
    simp only at h
    by_cases h1 : s = "orbit.subscribe"
    · subst h1
      rcases hth : Relay.jget msg "threadId" with _ | w
      · rw [hth] at h
        simp only [String.reduceEq, Option.isSome_none, Bool.and_false, Bool.false_and,
          Bool.true_and, Bool.false_eq_true, if_false, reduceIte,
          show ("orbit.push-".data.isPrefixOf "orbit.subscribe".data) = false from by decide] at h
        cases h
      · rcases w with s1 | n1 | b1 | _ | f1 | e1 <;> rw [hth] at h <;>
          try (simp only [String.reduceEq, Option.isSome_none, Bool.and_false, Bool.false_and,
            Bool.true_and, Bool.false_eq_true, if_false, reduceIte,
            show ("orbit.push-".data.isPrefixOf "orbit.subscribe".data) = false
              from by decide] at h; cases h)
        simp only [String.reduceEq, Option.isSome_some, Bool.and_true, Bool.true_and,
          if_true, reduceIte] at h
        by_cases hstrip : Relay.pyStrip s1 = ""
        · rw [if_pos hstrip] at h
          injection h with h
          rw [← h]
          intro m hm
          cases hm
        · rw [if_neg hstrip] at h
          have U1 := x_subscribe_preserves st socket role u (Relay.pyStrip s1) hInv hu
          rcases hra : role == "anchor" with _ | _ <;> rw [hra] at h <;>
            simp only [Bool.false_eq_true, if_false, if_true, reduceIte] at h
          · rcases hrc : role == "client" with _ | _ <;> rw [hrc] at h <;>
              simp only [Bool.false_eq_true, if_false, if_true, reduceIte] at h
            · injection h with h
              rw [← h]
              intro m hm
              simp only [List.mem_singleton] at hm
              subst hm
              exact Or.inl hu
            · injection h with h
              rw [← h]
              intro m hm
              simp only [List.mem_cons, List.mem_append, List.mem_map] at hm
              rcases hm with (hm | hm) | ⟨a2, ha2, hrfl⟩
              · subst hm
                exact Or.inl hu
              · have hts := x_replay_sends _ socket u (Relay.pyStrip s1) m hm
                rw [hts]
                exact Or.inl hu
              · subst hrfl
                have hw := U1.tta u (Relay.pyStrip s1) a2 ha2
                rw [show userOf (_subscribe_socket_locked st socket role
                    (u, Relay.pyStrip s1) (Relay.pyStrip s1)) a2 = userOf st a2 from by
                  unfold userOf
                  rw [x_subscribe_stu]] at hw
                exact hw
          · rcases hsa : pyTruthyOpt (alookup (_subscribe_socket_locked st socket role
                (u, Relay.pyStrip s1) (Relay.pyStrip s1)).socket_to_anchor_id socket)
                with _ | aid <;> rw [hsa] at h
            · rcases hrc : role == "client" with _ | _ <;> rw [hrc] at h <;>
                simp only [Bool.false_eq_true, if_false, if_true, reduceIte] at h
              · injection h with h
                rw [← h]
                intro m hm
                simp only [List.mem_singleton] at hm
                subst hm
                exact Or.inl hu
              · injection h with h
                rw [← h]
                intro m hm
                simp only [List.mem_cons, List.mem_append, List.mem_map] at hm
                rcases hm with (hm | hm) | ⟨a2, ha2, hrfl⟩
                · subst hm
                  exact Or.inl hu
                · have hts := x_replay_sends _ socket u (Relay.pyStrip s1) m hm
                  rw [hts]
                  exact Or.inl hu
                · subst hrfl
                  have hw := U1.tta u (Relay.pyStrip s1) a2 ha2
                  rw [show userOf (_subscribe_socket_locked st socket role
                      (u, Relay.pyStrip s1) (Relay.pyStrip s1)) a2 = userOf st a2 from by
                    unfold userOf
                    rw [x_subscribe_stu]] at hw
                  exact hw
            · rcases hrc : role == "client" with _ | _ <;> rw [hrc] at h <;>
                simp only [Bool.false_eq_true, if_false, if_true, reduceIte] at h
              · injection h with h
                rw [← h]
                intro m hm
                simp only [List.mem_singleton] at hm
                subst hm
                exact Or.inl hu
              · injection h with h
                rw [← h]
                intro m hm
                simp only [List.mem_cons, List.mem_append, List.mem_map] at hm
                rcases hm with (hm | hm) | ⟨a2, ha2, hrfl⟩
                · subst hm
                  exact Or.inl hu
                · have hts := x_replay_sends _ socket u (Relay.pyStrip s1) m hm
                  rw [hts]
                  exact Or.inl hu
                · subst hrfl
                  have hw := U1.tta u (Relay.pyStrip s1) a2 ha2
                  rw [show userOf (_subscribe_socket_locked st socket role
                      (u, Relay.pyStrip s1) (Relay.pyStrip s1)) a2 = userOf st a2 from by
                    unfold userOf
                    rw [x_subscribe_stu]] at hw
                  exact hw
    · rw [decide_eq_false h1] at h
      simp only [Bool.false_and, Bool.false_eq_true, if_false, reduceIte] at h
      by_cases h2 : s = "orbit.unsubscribe"
      · subst h2
        rcases hth : Relay.jget msg "threadId" with _ | w
        · rw [hth] at h
          simp only [String.reduceEq, Option.isSome_none, Bool.and_false, Bool.false_and,
            Bool.true_and, Bool.false_eq_true, if_false, reduceIte,
            show ("orbit.push-".data.isPrefixOf "orbit.unsubscribe".data) = false
              from by decide] at h
          cases h
        · rcases w with s1 | n1 | b1 | _ | f1 | e1 <;> rw [hth] at h <;>
            try (simp only [String.reduceEq, Option.isSome_none, Bool.and_false,
              Bool.false_and, Bool.true_and, Bool.false_eq_true, if_false, reduceIte,
              show ("orbit.push-".data.isPrefixOf "orbit.unsubscribe".data) = false
                from by decide] at h; cases h)
          simp only [String.reduceEq, Option.isSome_some, Bool.and_true, Bool.true_and,
            if_true, reduceIte] at h
          by_cases hstrip : Relay.pyStrip s1 = ""
          · rw [if_pos hstrip] at h
            injection h with h
            rw [← h]
            intro m hm
            cases hm
          · rw [if_neg hstrip] at h
            injection h with h
            rw [← h]
            intro m hm
            cases hm
      · rw [decide_eq_false h2] at h
        simp only [Bool.false_and, Bool.false_eq_true, if_false, reduceIte] at h
        by_cases h3 : s = "orbit.list-anchors"
        · subst h3
          rcases hrc : role == "client" with _ | _ <;> rw [hrc] at h <;>
            simp only [String.reduceEq, Bool.true_and, Bool.and_false, Bool.and_true,
              Bool.false_and, Bool.false_eq_true, if_false, if_true, reduceIte,
              show ("orbit.push-".data.isPrefixOf "orbit.list-anchors".data) = false
                from by decide] at h
          · cases h
          · injection h with h
            rw [← h]
            intro m hm
            simp only [List.mem_singleton] at hm
            subst hm
            exact Or.inl hu
        · rw [decide_eq_false h3] at h
          simp only [Bool.false_and, Bool.false_eq_true, if_false, reduceIte] at h
          by_cases h4 : s = "orbit.artifacts.list"
          · subst h4
            rcases hrc : role == "client" with _ | _ <;> rw [hrc] at h <;>
              simp only [String.reduceEq, Bool.true_and, Bool.and_false, Bool.and_true,
                Bool.false_and, Bool.false_eq_true, if_false, if_true, reduceIte,
                show ("orbit.push-".data.isPrefixOf "orbit.artifacts.list".data) = false
                  from by decide] at h
            · cases h
            · injection h with h
              rw [← h]
              intro m hm
              rw [x_artifact_sends st socket u msg m hm]
              exact Or.inl hu
          · rw [decide_eq_false h4] at h
            simp only [Bool.false_and, Bool.false_eq_true, if_false, reduceIte] at h
            by_cases h5 : s = "orbit.multi-dispatch"
            · subst h5
              rcases hrc : role == "client" with _ | _ <;> rw [hrc] at h <;>
                simp only [String.reduceEq, Bool.true_and, Bool.and_false, Bool.and_true,
                  Bool.false_and, Bool.false_eq_true, if_false, if_true, reduceIte,
                  show ("orbit.push-".data.isPrefixOf "orbit.multi-dispatch".data) = false
                    from by decide] at h
              · cases h
              · injection h with h
                rw [← h]
                exact x_md_sends st socket u msg freshReq hexFor hInv hu
            · rw [decide_eq_false h5] at h
              simp only [Bool.false_and, Bool.false_eq_true, if_false, reduceIte] at h
              by_cases hpre : ("orbit.push-".data.isPrefixOf s.data) = true
              · rw [hpre] at h
                simp only [if_true, reduceIte] at h
                injection h with h
                rw [← h]
                intro m hm
                cases hm
              · rw [Bool.not_eq_true] at hpre
                rw [hpre] at h
                simp only [Bool.false_eq_true, if_false, reduceIte] at h
                cases h

theorem x_handle_sends (st : HubState) (socket : Socket) (role : String)
    (raw : String) (msg : Option Relay.Jobj) (oracle : Oracle) (u : UserId)
    (hInv : UserConsistent st) (hu : userOf st socket = some u) :
    ∀ m ∈ (handle_message st socket role raw msg oracle).2,
      userOf st m.target = some u ∨ userOf st m.target = none := by
  unfold handle_message
  rcases hus : userOf st socket with _ | u2 <;> simp only [hus]
  · intro m hm
    cases hm
  · rw [hu] at hus
    injection hus with hus2
    subst hus2
    split
    · intro m hm
      simp only [List.mem_singleton] at hm
      subst hm
      exact Or.inl hu
    · rcases msg with _ | m0
      · exact x_route_sends st socket role u raw none oracle.freshItemId hInv hu
      · rcases hc : _handle_control st socket role u m0 oracle.freshRequestId oracle.hexFor
            with _ | r <;> simp only [hc]
        · rcases hh : _handle_anchor_hello st socket role u m0 oracle.freshAnchorId
              oracle.nowTs with _ | r2 <;> simp only [hh]
          · exact x_route_sends st socket role u raw (some m0) oracle.freshItemId hInv hu
          · exact x_hello_sends st socket role u m0 oracle.freshAnchorId oracle.nowTs r2
              hInv hu hh
        · exact x_control_sends st socket role u m0 oracle.freshRequestId oracle.hexFor r
            hInv hu hc


/-- C1: cross-user isolation of routing, on reachable hub states. For every
frame handled on behalf of a socket registered to user `u`, every outbound
send targets a socket registered to `u` or an already-unregistered socket
(teardown can leave a stale `anchor_id_to_socket` binding behind, so a
stale delivery to an unregistered socket is possible — see the
counterexample); client→anchor target resolution only ever returns such a
socket; and `orbit.list-anchors` returns exactly the metadata of anchor
sockets whose registered user is the requester. -/
theorem cross_user_isolation (st : HubState) (socket : Socket) (u : UserId)
    (raw : String) (msg : Option Relay.Jobj) (oracle : Oracle) (meta : AnchorMeta)
    (hreach : Reachable st) (hu : userOf st socket = some u) :
    (∀ m ∈ (handle_message st socket (roleOf socket) raw msg oracle).2,
        userOf st m.target = some u ∨ userOf st m.target = none) ∧
    (∀ th anch tgt, (_resolve_client_target_locked st u th anch).2.1 = some tgt →
        userOf st tgt = some u ∨ userOf st tgt = none) ∧
    (meta ∈ listAnchorsFor st u ↔
      ∃ s, (s, meta) ∈ st.anchor_meta ∧ userOf st s = some u) := by
  have hInv := x_reachable_uc st hreach
  refine ⟨x_handle_sends st socket (roleOf socket) raw msg oracle u hInv hu,
    fun th anch tgt htgt => x_resolve_target_weak st u th anch tgt hInv htgt, ?_, ?_⟩
  · intro hm
    unfold listAnchorsFor at hm
    rcases List.mem_map.mp hm with ⟨p, hp, hmeta⟩
    rcases List.mem_filter.mp hp with ⟨hpm, hpu⟩
    refine ⟨p.1, ?_, ?_⟩
    · rw [← hmeta]
      exact hpm
    · simpa using hpu
  · rintro ⟨s, hsm, hsu⟩
    unfold listAnchorsFor
    apply List.mem_map.mpr
    refine ⟨(s, meta), List.mem_filter.mpr ⟨hsm, ?_⟩, rfl⟩
    simpa using hsu

/-- Witness for C1: the isolation sweep instantiated at the reachable
two-socket state `scnB2` with its registered client socket 0. -/
theorem cross_user_isolation_witness :
    (∀ m ∈ (handle_message scnB2 0 (roleOf 0) "" none oracleA).2,
        userOf scnB2 m.target = some "u" ∨ userOf scnB2 m.target = none) ∧
    (∀ th anch tgt, (_resolve_client_target_locked scnB2 "u" th anch).2.1 = some tgt →
        userOf scnB2 tgt = some "u" ∨ userOf scnB2 tgt = none) ∧
    (AnchorMeta.mk "a" "h" "p" "t" ∈ listAnchorsFor scnB2 "u" ↔
      ∃ s, (s, AnchorMeta.mk "a" "h" "p" "t") ∈ scnB2.anchor_meta ∧
        userOf scnB2 s = some "u") :=
  cross_user_isolation scnB2 0 "u" "" none oracleA (AnchorMeta.mk "a" "h" "p" "t")
    (Relation.ReflTransGen.head (Step.register initState 0 "u" none (by decide))
      (Relation.ReflTransGen.single (Step.register scnB1 1 "u" none (by decide))))
    (by decide)

/-- Counterexamples for C1's original blanket claims: in the reachable
state `scnB2` resolution falls through to the user's only anchor socket
while `anchor_id_to_socket` holds no binding at all, so the returned
socket is keyed by no `(U, anchor_id)`; and in the reachable state `scnD5`
(double `anchor.hello` then disconnect) the stale binding `("u","A") → 1`
survives teardown and a client frame addressed to `A` is delivered to the
already-unregistered socket 1. -/
theorem cross_user_isolation_counterexample :
    Reachable scnB2 ∧
    userOf scnB2 1 = some "u" ∧
    (_resolve_client_target_locked scnB2 "u" none none).2.1 = some 1 ∧
    scnB2.anchor_id_to_socket = [] ∧
    Reachable scnD5 ∧
    userOf scnD5 0 = some "u" ∧
    userOf scnD5 1 = none ∧
    (handle_message scnD5 0 (roleOf 0) "frame" (some anchorFrameA) oracleA).2
      = [OutMsg.mk 1 (Payload.raw "frame")] := by
  refine ⟨?_, by decide, by decide, by decide, ?_, by decide, by decide, rfl⟩
  · exact Relation.ReflTransGen.head (Step.register initState 0 "u" none (by decide))
      (Relation.ReflTransGen.single (Step.register scnB1 1 "u" none (by decide)))
  · exact Relation.ReflTransGen.head (Step.register initState 0 "u" none (by decide))
      (Relation.ReflTransGen.head (Step.register scnB1 1 "u" none (by decide))
        (Relation.ReflTransGen.head (Step.handle scnB2 1 "" (some (helloMsgFor "A")) oracleA)
          (Relation.ReflTransGen.head (Step.handle scnD3 1 "" (some (helloMsgFor "B")) oracleA)
            (Relation.ReflTransGen.single (Step.unregister scnD4 1)))))
